import Mathlib

/-!
# Transport catalogue: a verification development

A shallow embedding of the in-memory transit model of the repository
(`transport_catalogue.cpp`, `transport_catalogue.h`, `domain.h`), of the
routing graph built from it (`transport_router.cpp`, `transport_router.h`), and
of the parts of `request_handler.cpp`, `map_renderer.cpp`, `json.h` and
`json_reader.cpp` that read or fill it, together with theorems about them.

Modelling conventions.

* `StopPtr` / `BusPtr` (`const Stop*`, `const Bus*`) are positions in the
  append-only deques `stop_storage_` / `buses_storage_`; a deque never moves
  its elements on `push_back`, so a position identifies an object for the life
  of the catalogue, and pointer equality is equality of positions.
* The associative containers (`std::unordered_map`, `std::map`) hold at most
  one entry per key; they are association lists driven only through
  `map_find`, `map_count`, `map_at` and `map_assign`, which mirror `find`,
  `count`, `at` and `operator[] =`.
* `std::set<BusPtr, BusPointerComparator>` is a list kept in comparator order,
  with the comparator-equivalence test of `std::set::insert`.
* `assert` is modelled as enabled: a failed assertion is the fault
  `Fault.assertion`; `at` on a missing key is the fault `Fault.out_of_range`.
* `int` values are modelled in `Int`; counts of stops stay far inside the
  `int` range for any route that fits in memory. `double` accumulators that
  only ever add `int` values are modelled in `Int` as well (such sums are exact
  in `double` below `2^53`); other `double` values are carried as `Rat`, so
  that sums and quotients of times are exact.
-/

namespace transport_catalogue

/-- Ways in which a catalogue operation can stop without a result. -/
inductive Fault where
  /-- an `assert` did not hold -/
  | assertion
  /-- `std::out_of_range` from `at` on a missing key -/
  | out_of_range
  /-- a vector subscript outside the vector -/
  | bad_subscript
  /-- `std::logic_error` from an accessor of `json::Node` -/
  | logic_error
  /-- `std::domain_error` from the constructor of the solver -/
  | domain_error
  deriving DecidableEq, Repr

deriving instance DecidableEq for Except

/-- The `geo::Coordinates` record. -/
structure Coordinates where
  lat : Rat
  lng : Rat
  deriving DecidableEq, Repr, Inhabited

/-- A `const Stop*`: the position of the stop in `stop_storage_`. -/
abbrev StopPtr := Nat

/-- A `const Bus*`: the position of the line in `buses_storage_`. -/
abbrev BusPtr := Nat

/-- The `Stop` record of `domain.h`. -/
structure Stop where
  name : String
  coordinates : Coordinates
  deriving DecidableEq, Repr, Inhabited

/-- The `Bus` record of `domain.h`. -/
structure Bus where
  name : String
  stops : List StopPtr
  is_circular : Bool
  deriving DecidableEq, Repr

instance : Inhabited Bus := ⟨⟨"", [], false⟩⟩

/-! ## Associative containers -/

section maps

variable {K V : Type} [DecidableEq K]

/-- The `find` member: the value stored under `k`, if there is one. -/
def map_find : List (K × V) → K → Option V
  | [], _ => none
  | (k', v) :: rest, k => if k' = k then some v else map_find rest k

/-- The `count` member of a container with unique keys: `0` or `1`. -/
def map_count (m : List (K × V)) (k : K) : Nat :=
  match map_find m k with
  | some _ => 1
  | none => 0

/-- The `at` member: the stored value, or `std::out_of_range`. -/
def map_at (m : List (K × V)) (k : K) : Except Fault V :=
  match map_find m k with
  | some v => Except.ok v
  | none => Except.error Fault.out_of_range

/-- The assignment `m[k] = v`: overwrite the entry of `k`, or create it. -/
def map_assign : List (K × V) → K → V → List (K × V)
  | [], k, v => [(k, v)]
  | (k', v') :: rest, k, v =>
    if k' = k then (k', v) :: rest else (k', v') :: map_assign rest k v

end maps

/-- The `insert` member of `std::set` under a strict order `less`: nothing is
inserted when an equivalent element (neither less than the other) is present. -/
def set_insert (less : BusPtr → BusPtr → Bool) : List BusPtr → BusPtr → List BusPtr
  | [], x => [x]
  | y :: rest, x =>
    if less x y then x :: y :: rest
    else if less y x then y :: set_insert less rest x
    else y :: rest

/-! ## The catalogue -/

/-- The private state of `TransportCatalogue`. -/
structure TransportCatalogue where
  buses_storage_ : List Bus
  stop_storage_ : List Stop
  stops_ : List (String × StopPtr)
  buses_ : List (String × BusPtr)
  stop_to_buses_ : List (StopPtr × List BusPtr)
  distances_between_stops_ : List ((StopPtr × StopPtr) × Int)
  deriving DecidableEq, Repr

namespace TransportCatalogue

/-- The default-constructed catalogue. -/
def empty : TransportCatalogue := ⟨[], [], [], [], [], []⟩

/-- The object a `StopPtr` points to. -/
def stop (c : TransportCatalogue) (p : StopPtr) : Stop := c.stop_storage_.getD p default

/-- The object a `BusPtr` points to. -/
def bus (c : TransportCatalogue) (p : BusPtr) : Bus := c.buses_storage_.getD p default

/-- The strict order of `BusPointerComparator`: by the name of the pointee. -/
def BusPointerComparator (c : TransportCatalogue) (left right : BusPtr) : Bool :=
  decide ((c.bus left).name < (c.bus right).name)

def GetStop (c : TransportCatalogue) (stop_name : String) : Except Fault StopPtr :=
  map_at c.stops_ stop_name

def CountStop (c : TransportCatalogue) (stop_name : String) : Nat :=
  map_count c.stops_ stop_name

def GetBus (c : TransportCatalogue) (bus_name : String) : Except Fault BusPtr :=
  map_at c.buses_ bus_name

def CountBus (c : TransportCatalogue) (bus_name : String) : Nat :=
  map_count c.buses_ bus_name

def GetAllStops (c : TransportCatalogue) : List Stop := c.stop_storage_

def GetAllBuses (c : TransportCatalogue) : List Bus := c.buses_storage_

def AddStop (c : TransportCatalogue) (name : String) (coordinates : Coordinates) :
    TransportCatalogue :=
  let new_stop : Stop := { name := name, coordinates := coordinates }
  let storage := c.stop_storage_ ++ [new_stop]
  { c with
    stop_storage_ := storage
    stops_ := map_assign c.stops_ name (storage.length - 1) }

def AddDistancesBetweenStops (c : TransportCatalogue) (from_ to_ : StopPtr) (distance : Int) :
    TransportCatalogue :=
  { c with
    distances_between_stops_ := map_assign c.distances_between_stops_ (from_, to_) distance }

def GetDistanceBetweenStops (c : TransportCatalogue) (from_ to_ : StopPtr) : Int :=
  match map_find c.distances_between_stops_ (from_, to_) with
  | some d => d
  | none =>
    match map_find c.distances_between_stops_ (to_, from_) with
    | some d => d
    | none => -1

def ContainsDistanceBetweenStops (c : TransportCatalogue) (from_ to_ : StopPtr) : Bool :=
  if map_count c.distances_between_stops_ (from_, to_) > 0 then true else false

/-- The first loop of `AddBus`: every stop name is asserted to be known and is
resolved through `stops_.at`, in order. -/
def AddBus_resolve (c : TransportCatalogue) : List String → Except Fault (List StopPtr)
  | [] => Except.ok []
  | stop :: rest =>
    if map_count c.stops_ stop > 0 then
      match map_at c.stops_ stop with
      | Except.error f => Except.error f
      | Except.ok p =>
        match AddBus_resolve c rest with
        | Except.error f => Except.error f
        | Except.ok ps => Except.ok (p :: ps)
    else Except.error Fault.assertion

/-- The second loop of `AddBus`: the line `bus` is entered in the set of every
stop named in `stop_names`. The catalogue returned with a fault is the state in
which the fault occurred. -/
def AddBus_register (bus : BusPtr) :
    List String → TransportCatalogue → Except Fault Unit × TransportCatalogue
  | [], c => (Except.ok (), c)
  | stop :: rest, c =>
    match c.GetStop stop with
    | Except.error f => (Except.error f, c)
    | Except.ok stored_stop =>
      let buses : List BusPtr :=
        match map_find c.stop_to_buses_ stored_stop with
        | some s => s
        | none => []
      AddBus_register bus rest
        { c with
          stop_to_buses_ :=
            map_assign c.stop_to_buses_ stored_stop (set_insert c.BusPointerComparator buses bus) }

/-- The member `AddBus`. The result pairs the outcome with the state of the
catalogue when the call ended. -/
def AddBus (c : TransportCatalogue) (name : String) (stop_names : List String)
    (is_circular : Bool) : Except Fault Unit × TransportCatalogue :=
  match AddBus_resolve c stop_names with
  | Except.error f => (Except.error f, c)
  | Except.ok stops =>
    let new_bus : Bus := { name := name, stops := stops, is_circular := is_circular }
    let c1 : TransportCatalogue := { c with buses_storage_ := c.buses_storage_ ++ [new_bus] }
    let c2 : TransportCatalogue :=
      { c1 with buses_ := map_assign c1.buses_ name (c1.buses_storage_.length - 1) }
    AddBus_register (c2.buses_storage_.length - 1) stop_names c2

def GetBusesThatPassStop (c : TransportCatalogue) (stop : StopPtr) : Option (List BusPtr) :=
  if map_count c.stop_to_buses_ stop = 0 then none
  else
    match map_at c.stop_to_buses_ stop with
    | Except.ok s => some s
    | Except.error _ => none

/-! ## Line statistics -/

def StopsOnRoute (c : TransportCatalogue) (bus : BusPtr) : Int :=
  let stations_listed_in_route : Int := ((c.bus bus).stops.length : Int)
  if (c.bus bus).is_circular then stations_listed_in_route
  else stations_listed_in_route * 2 - 1

/-- The `insert` member of `std::unordered_set<std::string>`. -/
def uset_insert (s : List String) (x : String) : List String :=
  if x ∈ s then s else x :: s

def UniqueStopsOnRoute (c : TransportCatalogue) (bus : BusPtr) : Int :=
  let unique_stops : List String :=
    (c.bus bus).stops.foldl (fun s stop => uset_insert s (c.stop stop).name) []
  (unique_stops.length : Int)

/-- The forward loop of `CalculateRouteDistanceUsingActualMeasurements`:
`remaining` iterations are left, `i` is the loop variable. -/
def measured_forward (c : TransportCatalogue) (bus_route : List StopPtr) :
    Nat → Nat → Int → Except Fault Int
  | 0, _, total_distance => Except.ok total_distance
  | remaining + 1, i, total_distance =>
    match bus_route[i]?, bus_route[i + 1]? with
    | some a, some b =>
      match c.GetStop (c.stop a).name with
      | Except.error f => Except.error f
      | Except.ok from_ =>
        match c.GetStop (c.stop b).name with
        | Except.error f => Except.error f
        | Except.ok to_ =>
          let distance_between_stops := c.GetDistanceBetweenStops from_ to_
          if distance_between_stops ≠ -1 then
            measured_forward c bus_route remaining (i + 1)
              (total_distance + distance_between_stops)
          else Except.error Fault.assertion
    | _, _ => Except.error Fault.bad_subscript

/-- The return loop of `CalculateRouteDistanceUsingActualMeasurements`
(`for (int i = n - 1; i > 0; --i)`), by recursion on the loop variable. -/
def measured_return (c : TransportCatalogue) (bus_route : List StopPtr) :
    Nat → Int → Except Fault Int
  | 0, total_distance => Except.ok total_distance
  | i + 1, total_distance =>
    match bus_route[i + 1]?, bus_route[i]? with
    | some a, some b =>
      match c.GetStop (c.stop a).name with
      | Except.error f => Except.error f
      | Except.ok from_ =>
        match c.GetStop (c.stop b).name with
        | Except.error f => Except.error f
        | Except.ok to_ =>
          measured_return c bus_route i (total_distance + c.GetDistanceBetweenStops from_ to_)
    | _, _ => Except.error Fault.bad_subscript

def CalculateRouteDistanceUsingActualMeasurements (c : TransportCatalogue) (bus : BusPtr) :
    Except Fault Int :=
  let bus_route := (c.bus bus).stops
  let bus_route_length := bus_route.length
  match measured_forward c bus_route (bus_route_length - 1) 0 0 with
  | Except.error f => Except.error f
  | Except.ok total_distance =>
    if (c.bus bus).is_circular then Except.ok total_distance
    else measured_return c bus_route (bus_route_length - 1) total_distance

/-- The loop of `CalculateRouteDistanceUsingCoordinates`, `remaining` iterations
left; `ComputeDistance` is `geo::ComputeDistance`, which is declared in `geo.h`
and defined outside the sources at hand. -/
def direct_forward (ComputeDistance : Coordinates → Coordinates → Rat) (c : TransportCatalogue)
    (bus_route : List StopPtr) : Nat → Nat → Rat → Except Fault Rat
  | 0, _, distance => Except.ok distance
  | remaining + 1, i, distance =>
    match bus_route[i]?, bus_route[i + 1]? with
    | some a, some b =>
      direct_forward ComputeDistance c bus_route remaining (i + 1)
        (distance + ComputeDistance (c.stop a).coordinates (c.stop b).coordinates)
    | _, _ => Except.error Fault.bad_subscript

/-- The value of `size - 1` computed in the 64-bit unsigned type `size_t`, for a
container size `size < 2^64`: it is `(size + 2^64 - 1) mod 2^64`, that is
`2^64 - 1` for `size = 0` and `size - 1` otherwise. -/
def size_t_pred (size : Nat) : Nat :=
  if size = 0 then 18446744073709551615 else size - 1

/-- The member `CalculateRouteDistanceUsingCoordinates`. The loop bound
`bus_route.size() - 1` is computed in `size_t`, so it wraps around for an empty
route. -/
def CalculateRouteDistanceUsingCoordinates (ComputeDistance : Coordinates → Coordinates → Rat)
    (c : TransportCatalogue) (bus : BusPtr) : Except Fault Rat :=
  let bus_route := (c.bus bus).stops
  let bound := size_t_pred bus_route.length
  match direct_forward ComputeDistance c bus_route bound 0 0 with
  | Except.error f => Except.error f
  | Except.ok distance =>
    if (c.bus bus).is_circular then Except.ok distance else Except.ok (distance * 2)

/-- The `BusStatistics` record. -/
structure BusStatistics where
  total_stops : Int
  unique_stops : Int
  route_distance_measured : Int
  route_distance_direct : Rat
  deriving DecidableEq, Repr

/-- The member `GetBusStatistics`; the four initialisers of the braced list are
evaluated from left to right. -/
def GetBusStatistics (ComputeDistance : Coordinates → Coordinates → Rat)
    (c : TransportCatalogue) (bus : BusPtr) : Except Fault BusStatistics :=
  let total_stops := c.StopsOnRoute bus
  let unique_stops := c.UniqueStopsOnRoute bus
  match c.CalculateRouteDistanceUsingActualMeasurements bus with
  | Except.error f => Except.error f
  | Except.ok measured =>
    match c.CalculateRouteDistanceUsingCoordinates ComputeDistance bus with
    | Except.error f => Except.error f
    | Except.ok direct =>
      Except.ok
        { total_stops := total_stops
          unique_stops := unique_stops
          route_distance_measured := measured
          route_distance_direct := direct }

end TransportCatalogue

end transport_catalogue

/-! ## Reachable catalogue states -/

namespace transport_catalogue

/-- The catalogue states that the public mutators produce from the
default-constructed catalogue. A call of `AddBus` that faults ends the run, so
only calls that return normally lead to a further state. -/
inductive Reachable : TransportCatalogue → Prop
  | empty : Reachable TransportCatalogue.empty
  | add_stop (c : TransportCatalogue) (name : String) (coordinates : Coordinates) :
      Reachable c → Reachable (c.AddStop name coordinates)
  | add_bus (c : TransportCatalogue) (name : String) (stop_names : List String)
      (is_circular : Bool) :
      Reachable c → (c.AddBus name stop_names is_circular).1 = Except.ok () →
      Reachable (c.AddBus name stop_names is_circular).2
  | add_distances (c : TransportCatalogue) (from_ to_ : StopPtr) (distance : Int) :
      Reachable c → Reachable (c.AddDistancesBetweenStops from_ to_ distance)

end transport_catalogue

/-! ## Routing graph

The headers `graph.h` and `router.h` are not among the sources at hand. The
graph is modelled from the spec; the shortest-path solver is a parameter of
the route query. Weights (`double` minutes) are carried as `Rat`. -/

namespace graph

abbrev VertexId := Nat

abbrev EdgeId := Nat

/-- Modelled from the spec: `graph::Edge<Weight>` of `graph.h`, a directed edge
between two vertices with its weight. -/
structure Edge where
  from_ : VertexId
  to_ : VertexId
  weight : Rat
  deriving DecidableEq, Repr

/-- Modelled from the spec: `graph::DirectedWeightedGraph<Weight>` of `graph.h`:
a fixed number of vertices and the edges in the order in which they were added.
The identifier of an edge is its index in that order. -/
structure DirectedWeightedGraph where
  vertex_count : Nat
  edges_ : List Edge
  deriving DecidableEq, Repr

/-- Modelled from the spec: `DirectedWeightedGraph::AddEdge`, which appends the
edge and returns its identifier. -/
def DirectedWeightedGraph.AddEdge (g : DirectedWeightedGraph) (edge : Edge) :
    EdgeId × DirectedWeightedGraph :=
  (g.edges_.length, { g with edges_ := g.edges_ ++ [edge] })

/-- Modelled from the spec: `graph::Router<Weight>::RouteInfo` of `router.h`,
the weight of a path and the identifiers of its edges in path order. -/
structure RouteInfo where
  weight : Rat
  edges : List EdgeId
  deriving DecidableEq, Repr

end graph

namespace transport_catalogue

/-- The `RoutingSettings` record of `domain.h`. -/
structure RoutingSettings where
  wait_time : Int
  velocity : Rat
  deriving DecidableEq, Repr

/-- The `insert` member of `std::unordered_map`: the entry is added only when
the key is absent. -/
def map_insert {K V : Type} [DecidableEq K] (m : List (K × V)) (k : K) (v : V) :
    List (K × V) :=
  match map_find m k with
  | some _ => m
  | none => m ++ [(k, v)]

namespace router

abbrev Minutes := Rat

/-- The `VertexIds` record; both members are value-initialised to `0`. -/
structure VertexIds where
  in_ : graph.VertexId
  out : graph.VertexId
  deriving DecidableEq, Repr

/-- The `TransportRouter::BusRideInfo` record. -/
structure BusRideInfo where
  bus_name : String
  span_count : Int
  time : Minutes
  deriving DecidableEq, Repr

/-- The `TransportRouter::WaitInfo` record. -/
structure WaitInfo where
  stop_name : String
  time : Minutes
  deriving DecidableEq, Repr

/-- The variant `RouteItem = std::variant<std::monostate, WaitInfo, BusRideInfo>`. -/
inductive RouteItem where
  | monostate
  | wait (info : WaitInfo)
  | bus (info : BusRideInfo)
  deriving DecidableEq, Repr

/-- The data members of `TransportRouter`, without the solver `router_`, which
is a parameter of `GetRouteInfo`. -/
structure TransportRouter where
  catalogue_ : TransportCatalogue
  settings_ : RoutingSettings
  graph_ : graph.DirectedWeightedGraph
  vertexes_ : List (String × VertexIds)
  vertexes_counter_ : graph.VertexId
  wait_edges_ : List (graph.EdgeId × WaitInfo)
  bus_edges_ : List (graph.EdgeId × BusRideInfo)
  deriving DecidableEq, Repr

namespace TransportRouter

/-- The member `GenereateNewVertexId`: `return vertexes_counter_++`. -/
def GenereateNewVertexId (r : TransportRouter) : graph.VertexId × TransportRouter :=
  (r.vertexes_counter_, { r with vertexes_counter_ := r.vertexes_counter_ + 1 })

/-- The entry `vertexes_[name]`, value-initialised when the key is absent. -/
def vertexes_entry (r : TransportRouter) (name : String) : VertexIds :=
  match map_find r.vertexes_ name with
  | some ids => ids
  | none => { in_ := 0, out := 0 }

/-- The loop of `CreateVertexes`. -/
def CreateVertexes_loop : List Stop → TransportRouter → TransportRouter
  | [], r => r
  | stop :: rest, r =>
    let r1 := r.GenereateNewVertexId
    let r2 : TransportRouter :=
      { r1.2 with
        vertexes_ := map_assign r1.2.vertexes_ stop.name
          { r1.2.vertexes_entry stop.name with in_ := r1.1 } }
    let r3 := r2.GenereateNewVertexId
    let r4 : TransportRouter :=
      { r3.2 with
        vertexes_ := map_assign r3.2.vertexes_ stop.name
          { r3.2.vertexes_entry stop.name with out := r3.1 } }
    CreateVertexes_loop rest r4

def CreateVertexes (r : TransportRouter) (stops : List Stop) : Nat × TransportRouter :=
  ((CreateVertexes_loop stops r).vertexes_counter_, CreateVertexes_loop stops r)

def CreateWaitEdges : List Stop → TransportRouter → Except Fault TransportRouter
  | [], r => Except.ok r
  | stop :: rest, r =>
    match map_at r.vertexes_ stop.name with
    | Except.error f => Except.error f
    | Except.ok ids =>
      let added := r.graph_.AddEdge
        { from_ := ids.in_, to_ := ids.out, weight := (r.settings_.wait_time : Rat) }
      CreateWaitEdges rest
        { r with
          graph_ := added.2
          wait_edges_ := map_insert r.wait_edges_ added.1
            { stop_name := stop.name, time := (r.settings_.wait_time : Rat) } }

def CalculateTimeBetweenStations (r : TransportRouter) (from_ to_ : StopPtr) : Minutes :=
  60 * ((r.catalogue_.GetDistanceBetweenStops from_ to_ : Int) : Rat)
    / (1000 * r.settings_.velocity)

/-- The inner loop of `ConnectStations` for the boarding stop `from_stop`:
`prev` is `*prev(to_it)`, the list holds the stops from `to_it` to the end of
the range. -/
def ConnectStations_inner (bus_name : String) (from_stop : StopPtr) :
    StopPtr → List StopPtr → Minutes → Int → TransportRouter → Except Fault TransportRouter
  | _, [], _, _, r => Except.ok r
  | prev, to_stop :: rest, weight, span_count, r =>
    match map_at r.vertexes_ (r.catalogue_.stop from_stop).name with
    | Except.error f => Except.error f
    | Except.ok departure =>
      match map_at r.vertexes_ (r.catalogue_.stop to_stop).name with
      | Except.error f => Except.error f
      | Except.ok arrival =>
        let weight' := weight + r.CalculateTimeBetweenStations prev to_stop
        let span_count' := span_count + 1
        let added := r.graph_.AddEdge
          { from_ := departure.out, to_ := arrival.in_, weight := weight' }
        ConnectStations_inner bus_name from_stop to_stop rest weight' span_count'
          { r with
            graph_ := added.2
            bus_edges_ := map_assign r.bus_edges_ added.1
              { bus_name := bus_name, span_count := span_count', time := weight' } }

/-- The member template `ConnectStations` over the range given as a list (the
reverse iterators of a vector range over the reversed list). On an empty range
`std::prev(end)` leaves the range; this is the fault `bad_subscript`. -/
def ConnectStations : List StopPtr → String → TransportRouter → Except Fault TransportRouter
  | [], _, _ => Except.error Fault.bad_subscript
  | [_], _, r => Except.ok r
  | from_stop :: to_stop :: rest, bus_name, r =>
    match ConnectStations_inner bus_name from_stop from_stop (to_stop :: rest) 0 0 r with
    | Except.error f => Except.error f
    | Except.ok r' => ConnectStations (to_stop :: rest) bus_name r'

/-- The loop of `CreateBusEdges` over `catalogue.GetAllBuses()`. -/
def CreateBusEdges_loop : List Bus → TransportRouter → Except Fault TransportRouter
  | [], r => Except.ok r
  | bus :: rest, r =>
    match ConnectStations bus.stops bus.name r with
    | Except.error f => Except.error f
    | Except.ok r1 =>
      if bus.is_circular then CreateBusEdges_loop rest r1
      else
        match ConnectStations bus.stops.reverse bus.name r1 with
        | Except.error f => Except.error f
        | Except.ok r2 => CreateBusEdges_loop rest r2

def CreateBusEdges (r : TransportRouter) (catalogue : TransportCatalogue) :
    Except Fault TransportRouter :=
  CreateBusEdges_loop catalogue.GetAllBuses r

def CreateEdges (r : TransportRouter) (catalogue : TransportCatalogue) :
    Except Fault TransportRouter :=
  match CreateWaitEdges catalogue.GetAllStops r with
  | Except.error f => Except.error f
  | Except.ok r' => r'.CreateBusEdges catalogue

/-- The first two statements of the constructor
`TransportRouter::TransportRouter`: the vertices are created, the graph is
allocated and the edges are added. The last statement, the creation of the
solver from the finished graph, is added by `construct_with_solver`. -/
def construct (catalogue : TransportCatalogue) (settings : RoutingSettings) :
    Except Fault TransportRouter :=
  let r0 : TransportRouter :=
    { catalogue_ := catalogue, settings_ := settings, graph_ := ⟨0, []⟩, vertexes_ := [],
      vertexes_counter_ := 0, wait_edges_ := [], bus_edges_ := [] }
  let created := r0.CreateVertexes catalogue.GetAllStops
  let r1 : TransportRouter := { created.2 with graph_ := ⟨created.1, []⟩ }
  r1.CreateEdges catalogue

/-- The loop of `GetRouteInfo` over the edges of the route. -/
def GetRouteInfo_items (r : TransportRouter) : List graph.EdgeId → Except Fault (List RouteItem)
  | [] => Except.ok []
  | edge_id :: rest =>
    if map_count r.bus_edges_ edge_id > 0 then
      match map_at r.bus_edges_ edge_id with
      | Except.error f => Except.error f
      | Except.ok info =>
        match GetRouteInfo_items r rest with
        | Except.error f => Except.error f
        | Except.ok items => Except.ok (RouteItem.bus info :: items)
    else if map_count r.wait_edges_ edge_id > 0 then
      match map_at r.wait_edges_ edge_id with
      | Except.error f => Except.error f
      | Except.ok info =>
        match GetRouteInfo_items r rest with
        | Except.error f => Except.error f
        | Except.ok items => Except.ok (RouteItem.wait info :: items)
    else Except.error Fault.assertion

/-- The member `GetRouteInfo`; `BuildRoute` is `graph::Router::BuildRoute` of
the solver built from the graph. -/
def GetRouteInfo
    (BuildRoute : graph.DirectedWeightedGraph → graph.VertexId → graph.VertexId →
      Option graph.RouteInfo)
    (r : TransportRouter) (stop_from stop_to : StopPtr) :
    Except Fault (Option (Minutes × List RouteItem)) :=
  match map_at r.vertexes_ (r.catalogue_.stop stop_from).name with
  | Except.error f => Except.error f
  | Except.ok from_ids =>
    match map_at r.vertexes_ (r.catalogue_.stop stop_to).name with
    | Except.error f => Except.error f
    | Except.ok to_ids =>
      match BuildRoute r.graph_ from_ids.in_ to_ids.in_ with
      | none => Except.ok none
      | some route_info =>
        match GetRouteInfo_items r route_info.edges with
        | Except.error f => Except.error f
        | Except.ok items => Except.ok (some (route_info.weight, items))

end TransportRouter

end router

end transport_catalogue

/-! ## The edges a router is expected to hold

The following definitions are not members of `TransportRouter`; they state in
closed form which edges and tags the construction is expected to produce. -/

namespace transport_catalogue

namespace router

namespace TransportRouter

/-- The arrival vertex registered for the stop `p`. -/
def in_of (r : TransportRouter) (p : StopPtr) : graph.VertexId :=
  (r.vertexes_entry (r.catalogue_.stop p).name).in_

/-- The departure vertex registered for the stop `p`. -/
def out_of (r : TransportRouter) (p : StopPtr) : graph.VertexId :=
  (r.vertexes_entry (r.catalogue_.stop p).name).out

/-- The travel times of the spans `k = i, ..., j - 1` of `route`, added up in
that order starting from `0`. -/
def spec_ride_weight (r : TransportRouter) (route : List StopPtr) (i j : Nat) : Minutes :=
  (List.range' i (j - i)).foldl
    (fun w k => w + r.CalculateTimeBetweenStations (route.getD k 0) (route.getD (k + 1) 0)) 0

/-- The ride edge for boarding at index `i` and alighting at index `j` of
`route`, with its tag. -/
def spec_ride_edge (r : TransportRouter) (bus_name : String) (route : List StopPtr)
    (i j : Nat) : graph.Edge × BusRideInfo :=
  ({ from_ := r.out_of (route.getD i 0), to_ := r.in_of (route.getD j 0),
     weight := r.spec_ride_weight route i j },
   { bus_name := bus_name, span_count := ((j - i : Nat) : Int),
     time := r.spec_ride_weight route i j })

/-- One ride edge for every pair of indices `i < j` of `route`, ordered by `i`
and then by `j`. -/
def spec_rides_of_route (r : TransportRouter) (bus_name : String) (route : List StopPtr) :
    List (graph.Edge × BusRideInfo) :=
  (List.range (route.length - 1)).flatMap (fun i =>
    (List.range' (i + 1) (route.length - 1 - i)).map (r.spec_ride_edge bus_name route i))

/-- The ride edges of a line: those of its stop sequence, followed, when the
line is not circular, by those of the reversed stop sequence. -/
def spec_rides_of_bus (r : TransportRouter) (bus : Bus) : List (graph.Edge × BusRideInfo) :=
  r.spec_rides_of_route bus.name bus.stops ++
    (if bus.is_circular then [] else r.spec_rides_of_route bus.name bus.stops.reverse)

/-- The wait edge of a stop with its tag. -/
def spec_wait_edge (r : TransportRouter) (stop : Stop) : graph.Edge × WaitInfo :=
  ({ from_ := (r.vertexes_entry stop.name).in_, to_ := (r.vertexes_entry stop.name).out,
     weight := (r.settings_.wait_time : Rat) },
   { stop_name := stop.name, time := (r.settings_.wait_time : Rat) })

/-- The router state `r` after the ride edges `rides` have been appended to the
graph and tagged under their identifiers. -/
def with_rides (r : TransportRouter) (rides : List (graph.Edge × BusRideInfo)) :
    TransportRouter :=
  { r with
    graph_ := { r.graph_ with edges_ := r.graph_.edges_ ++ rides.map Prod.fst }
    bus_edges_ := r.bus_edges_ ++ (rides.map Prod.snd).enumFrom r.graph_.edges_.length }

/-- The router state `r` after the wait edges `waits` have been appended to the
graph and tagged under their identifiers. -/
def with_waits (r : TransportRouter) (waits : List (graph.Edge × WaitInfo)) :
    TransportRouter :=
  { r with
    graph_ := { r.graph_ with edges_ := r.graph_.edges_ ++ waits.map Prod.fst }
    wait_edges_ := r.wait_edges_ ++ (waits.map Prod.snd).enumFrom r.graph_.edges_.length }

end TransportRouter

end router

end transport_catalogue

namespace transport_catalogue

namespace router

namespace TransportRouter

/-- The router state after the first statement of the constructor: the
vertices are created and the graph is allocated with their number. -/
def construct_vertexes (catalogue : TransportCatalogue) (settings : RoutingSettings) :
    TransportRouter :=
  let r0 : TransportRouter :=
    { catalogue_ := catalogue, settings_ := settings, graph_ := ⟨0, []⟩, vertexes_ := [],
      vertexes_counter_ := 0, wait_edges_ := [], bus_edges_ := [] }
  let created := r0.CreateVertexes catalogue.GetAllStops
  { created.2 with graph_ := ⟨created.1, []⟩ }

/-- The itinerary step recorded for an edge identifier: the ride tag when there
is one, else the wait tag. -/
def spec_route_item (r : TransportRouter) (edge_id : graph.EdgeId) : RouteItem :=
  match map_find r.bus_edges_ edge_id with
  | some info => RouteItem.bus info
  | none =>
    match map_find r.wait_edges_ edge_id with
    | some info => RouteItem.wait info
    | none => RouteItem.monostate

end TransportRouter

end router

end transport_catalogue

/-! ## What the route query relies on from the solver

The header `router.h` is not among the sources at hand. The route query hands
the graph and two vertices to the solver and reads a weight and a sequence of
edge identifiers from its answer; what is assumed of that answer is stated
here, and so is what is assumed of the constructor of the solver, which the
constructor of the router calls on the finished graph. -/

namespace graph

/-- Modelled from the spec: the weight of the edge with identifier `e`; `0` for
an identifier that is not one of the graph. -/
def edge_weight (g : DirectedWeightedGraph) (e : EdgeId) : Rat :=
  match g.edges_[e]? with
  | some edge => edge.weight
  | none => 0

/-- Modelled from the spec: the vertex reached from `a` by following the edges
`path` in order, provided every identifier is an edge of the graph that leaves
the vertex reached so far. The empty sequence leads from `a` to `a`. -/
def route_end (g : DirectedWeightedGraph) : VertexId → List EdgeId → Option VertexId
  | a, [] => some a
  | a, e :: rest =>
    match g.edges_[e]? with
    | some edge => if edge.from_ = a then route_end g edge.to_ rest else none
    | none => none

/-- Modelled from the spec: the weight of a path, the sum of the weights of its
edges. -/
def route_weight (g : DirectedWeightedGraph) (path : List EdgeId) : Rat :=
  (path.map (edge_weight g)).sum

/-- Modelled from the spec: `answer` is an answer of a minimum-weight solver to
the query for a path from `a` to `b`. No answer means that no path leads from
`a` to `b`; an answer names a path from `a` to `b`, states its weight, and no
path from `a` to `b` weighs less. -/
def IsMinimumWeightAnswer (g : DirectedWeightedGraph) (a b : VertexId) :
    Option RouteInfo → Prop
  | none => ∀ path, route_end g a path ≠ some b
  | some info =>
    route_end g a info.edges = some b ∧ info.weight = route_weight g info.edges ∧
      ∀ path, route_end g a path = some b → info.weight ≤ route_weight g path

end graph

namespace transport_catalogue

namespace router

/-- The itinerary step is a wait step. -/
def RouteItem.is_wait : RouteItem → Bool
  | RouteItem.wait _ => true
  | _ => false

/-- The itinerary step is a ride step. -/
def RouteItem.is_bus : RouteItem → Bool
  | RouteItem.bus _ => true
  | _ => false

namespace TransportRouter

/-- The vertex `v` is registered as the arrival vertex of a stop name. -/
def is_arrival (r : TransportRouter) (v : graph.VertexId) : Bool :=
  r.vertexes_.any (fun entry => entry.2.in_ == v)

/-- The vertex `v` is registered as the departure vertex of a stop name. -/
def is_departure (r : TransportRouter) (v : graph.VertexId) : Bool :=
  r.vertexes_.any (fun entry => entry.2.out == v)

end TransportRouter

end router

end transport_catalogue

namespace transport_catalogue

namespace router

/-- The `time` member of an itinerary step; `0` for the empty alternative of
the variant. -/
def RouteItem.time : RouteItem → Minutes
  | RouteItem.monostate => 0
  | RouteItem.wait info => info.time
  | RouteItem.bus info => info.time

end router

end transport_catalogue

/-! ## Request handler -/

namespace json

/-- The `json::Node` variant of `json.h`. -/
inductive Node where
  | null
  | array (items : List Node)
  | dict (entries : List (String × Node))
  | bool (b : Bool)
  | int (i : Int)
  | double (d : Rat)
  | string (s : String)

/-- Modelled from the spec: `json::Builder` of `json_builder.h`, which is not
among the sources at hand. The chain
`Builder{}.StartDict().Key(k₁).Value(v₁) ... .EndDict().Build()` yields the
dictionary node that holds each value under its key. -/
def Builder_dict (entries : List (String × Node)) : Node :=
  Node.dict (entries.foldl (fun d e => transport_catalogue.map_assign d e.1 e.2) [])

end json

namespace transport_catalogue

/-- The `RequestHandler` of `request_handler.h`, reduced to the catalogue it
reads; the renderer and the router play no part in the members below. -/
structure RequestHandler where
  db_ : TransportCatalogue

namespace RequestHandler

def GetBusStat (ComputeDistance : Coordinates → Coordinates → Rat) (h : RequestHandler)
    (bus_name : String) : Except Fault (Option TransportCatalogue.BusStatistics) :=
  if h.db_.CountBus bus_name > 0 then
    match h.db_.GetBus bus_name with
    | Except.error f => Except.error f
    | Except.ok bus =>
      match h.db_.GetBusStatistics ComputeDistance bus with
      | Except.error f => Except.error f
      | Except.ok statistics => Except.ok (some statistics)
  else Except.ok none

def GetResponseToStopRequeset (h : RequestHandler) (name : String) (id : Int) :
    Except Fault json.Node :=
  if h.db_.CountStop name = 0 then
    Except.ok (json.Builder_dict
      [("request_id", json.Node.int id), ("error_message", json.Node.string "not found")])
  else
    match h.db_.GetStop name with
    | Except.error f => Except.error f
    | Except.ok stop =>
      let buses : List json.Node :=
        match h.db_.GetBusesThatPassStop stop with
        | some set => set.map (fun bus_ptr => json.Node.string (h.db_.bus bus_ptr).name)
        | none => []
      Except.ok (json.Builder_dict
        [("request_id", json.Node.int id), ("buses", json.Node.array buses)])

end RequestHandler

end transport_catalogue

/-! ## Map renderer

Of `map_renderer.cpp` the constructor of `MapRenderer` is embedded, which
stores one path per line. The header `svg.h` is not among the sources at hand;
the projection of coordinates to points of the map is a parameter. -/

namespace svg

/-- Modelled from the spec: `svg::Point` of `svg.h`, a point of the map. -/
structure Point where
  x : Rat
  y : Rat
  deriving DecidableEq, Repr

end svg

namespace renderer

open transport_catalogue

/-- The `Location` record of `map_renderer.h`. -/
structure Location where
  name : String
  point : svg.Point
  deriving DecidableEq, Repr

/-- The data member `data_` of `MapRenderer`, of type
`Routes = std::map<std::string, std::vector<Location>>`. -/
structure MapRenderer where
  data_ : List (String × List Location)
  deriving DecidableEq, Repr

namespace MapRenderer

/-- The loop `for (int i = before_last_index; i >= 0; --i)` of the constructor,
which appends `coordinates_on_map.at(i)`; the first argument is `i + 1`. -/
def construct_return : Nat → List Location → Except Fault (List Location)
  | 0, coordinates_on_map => Except.ok coordinates_on_map
  | i + 1, coordinates_on_map =>
    match coordinates_on_map[i]? with
    | some location => construct_return i (coordinates_on_map ++ [location])
    | none => Except.error Fault.out_of_range

/-- The body of the loop of the constructor for one line with at least one
stop: the path `coordinates_on_map` stored for the line. `sphere_projector` is
the projection built from the catalogue and the render settings. -/
def construct_route (sphere_projector : Coordinates → svg.Point) (c : TransportCatalogue)
    (bus : Bus) : Except Fault (List Location) :=
  let coordinates_on_map : List Location :=
    bus.stops.map (fun stop =>
      { name := (c.stop stop).name, point := sphere_projector (c.stop stop).coordinates })
  if !bus.is_circular then
    let before_last_index : Int := (coordinates_on_map.length : Int) - 2
    construct_return (before_last_index + 1).toNat coordinates_on_map
  else Except.ok coordinates_on_map

/-- The loop of the constructor over `GetAllBuses()`. -/
def construct_loop (sphere_projector : Coordinates → svg.Point) (c : TransportCatalogue) :
    List Bus → List (String × List Location) → Except Fault (List (String × List Location))
  | [], data => Except.ok data
  | bus :: rest, data =>
    if bus.stops.length = 0 then construct_loop sphere_projector c rest data
    else
      match construct_route sphere_projector c bus with
      | Except.error f => Except.error f
      | Except.ok coordinates_on_map =>
        construct_loop sphere_projector c rest (map_assign data bus.name coordinates_on_map)

/-- The constructor `MapRenderer::MapRenderer`, as far as `data_` goes. -/
def construct (sphere_projector : Coordinates → svg.Point) (c : TransportCatalogue) :
    Except Fault MapRenderer :=
  match construct_loop sphere_projector c c.GetAllBuses [] with
  | Except.error f => Except.error f
  | Except.ok data => Except.ok { data_ := data }

end MapRenderer

end renderer

/-! ## Reading the catalogue

Of `json.h` the accessors of `json::Node` used by the reader are embedded, of
`json_reader.cpp` the function `ReadTransportCatalogue`. A `json::Dict`
(`std::map<std::string, Node>`) is the list of its entries in iteration order. -/

namespace json

open transport_catalogue

namespace Node

def IsInt : Node → Bool
  | Node.int _ => true
  | _ => false

def AsInt : Node → Except Fault Int
  | Node.int i => Except.ok i
  | _ => Except.error Fault.logic_error

def IsPureDouble : Node → Bool
  | Node.double _ => true
  | _ => false

def IsDouble (n : Node) : Bool := n.IsInt || n.IsPureDouble

def AsDouble : Node → Except Fault Rat
  | Node.double d => Except.ok d
  | Node.int i => Except.ok (i : Rat)
  | _ => Except.error Fault.logic_error

def IsBool : Node → Bool
  | Node.bool _ => true
  | _ => false

def AsBool : Node → Except Fault Bool
  | Node.bool b => Except.ok b
  | _ => Except.error Fault.logic_error

def IsArray : Node → Bool
  | Node.array _ => true
  | _ => false

def AsArray : Node → Except Fault (List Node)
  | Node.array items => Except.ok items
  | _ => Except.error Fault.logic_error

def IsString : Node → Bool
  | Node.string _ => true
  | _ => false

def AsString : Node → Except Fault String
  | Node.string s => Except.ok s
  | _ => Except.error Fault.logic_error

def IsDict : Node → Bool
  | Node.dict _ => true
  | _ => false

def AsDict : Node → Except Fault (List (String × Node))
  | Node.dict entries => Except.ok entries
  | _ => Except.error Fault.logic_error

/-- The member `AsDict().at(key)`. -/
def AsDict_at (n : Node) (key : String) : Except Fault Node :=
  match n.AsDict with
  | Except.error f => Except.error f
  | Except.ok entries => map_at entries key

/-- The member template `At<std::string>`. -/
def At_string (n : Node) (key : String) : Except Fault String :=
  if n.IsDict then
    match n.AsDict_at key with
    | Except.error f => Except.error f
    | Except.ok value =>
      if value.IsString then value.AsString else Except.error Fault.logic_error
  else Except.error Fault.logic_error

/-- The member template `At<double>`. -/
def At_double (n : Node) (key : String) : Except Fault Rat :=
  if n.IsDict then
    match n.AsDict_at key with
    | Except.error f => Except.error f
    | Except.ok value =>
      if value.IsDouble then value.AsDouble else Except.error Fault.logic_error
  else Except.error Fault.logic_error

end Node

end json

namespace transport_catalogue

namespace json_reader

/-- The `BusBaseRequest` record of `json_reader.h`. -/
structure BusBaseRequest where
  name : String
  stop_names : List String
  is_roundtrip : Bool
  deriving DecidableEq, Repr

/-- The `StopBaseRequest` record of `json_reader.h`. -/
structure StopBaseRequest where
  name : String
  latitude : Rat
  longitude : Rat
  road_distances : List (String × Int)
  deriving DecidableEq, Repr

/-- The `TransportCatalogueDesctiption` record of `json_reader.h`. -/
structure TransportCatalogueDesctiption where
  buses : List BusBaseRequest
  stops : List StopBaseRequest
  deriving DecidableEq, Repr

/-- The loop over the array under `"stops"` of a Bus request. -/
def ReadStopNames : List json.Node → Except Fault (List String)
  | [] => Except.ok []
  | node_that_holds_stop_name :: rest =>
    match node_that_holds_stop_name.AsString with
    | Except.error f => Except.error f
    | Except.ok stop_name =>
      match ReadStopNames rest with
      | Except.error f => Except.error f
      | Except.ok stop_names => Except.ok (stop_name :: stop_names)

/-- The loop over the dictionary under `"road_distances"` of a Stop request. -/
def ReadRoadDistances : List (String × json.Node) → Except Fault (List (String × Int))
  | [] => Except.ok []
  | (stop_name, distance) :: rest =>
    match distance.AsInt with
    | Except.error f => Except.error f
    | Except.ok d =>
      match ReadRoadDistances rest with
      | Except.error f => Except.error f
      | Except.ok road_distances => Except.ok ((stop_name, d) :: road_distances)

/-- The branch of the first loop of `ReadTransportCatalogue` for a request of
type `"Bus"`. -/
def ReadBusBaseRequest (base_request : json.Node) : Except Fault BusBaseRequest :=
  match base_request.At_string "name" with
  | Except.error f => Except.error f
  | Except.ok name =>
    match base_request.AsDict_at "stops" with
    | Except.error f => Except.error f
    | Except.ok stops_node =>
      match stops_node.AsArray with
      | Except.error f => Except.error f
      | Except.ok stops_array =>
        match ReadStopNames stops_array with
        | Except.error f => Except.error f
        | Except.ok stop_names =>
          match base_request.AsDict_at "is_roundtrip" with
          | Except.error f => Except.error f
          | Except.ok is_roundtrip_node =>
            match is_roundtrip_node.AsBool with
            | Except.error f => Except.error f
            | Except.ok is_roundtrip =>
              Except.ok
                { name := name, stop_names := stop_names, is_roundtrip := is_roundtrip }

/-- The branch of the first loop of `ReadTransportCatalogue` for a request of
type `"Stop"`. -/
def ReadStopBaseRequest (base_request : json.Node) : Except Fault StopBaseRequest :=
  match base_request.At_string "name" with
  | Except.error f => Except.error f
  | Except.ok name =>
    match base_request.At_double "latitude" with
    | Except.error f => Except.error f
    | Except.ok latitude =>
      match base_request.At_double "longitude" with
      | Except.error f => Except.error f
      | Except.ok longitude =>
        match base_request.AsDict_at "road_distances" with
        | Except.error f => Except.error f
        | Except.ok road_distances_node =>
          match road_distances_node.AsDict with
          | Except.error f => Except.error f
          | Except.ok road_distances_dict =>
            match ReadRoadDistances road_distances_dict with
            | Except.error f => Except.error f
            | Except.ok road_distances =>
              Except.ok
                { name := name, latitude := latitude, longitude := longitude,
                  road_distances := road_distances }

/-- The body of the first loop of `ReadTransportCatalogue`: the record read
from one base request. -/
def ReadBaseRequest (base_request : json.Node) :
    Except Fault (BusBaseRequest ⊕ StopBaseRequest) :=
  if base_request.IsDict then
    match base_request.At_string "type" with
    | Except.error f => Except.error f
    | Except.ok type =>
      if type = "Bus" then
        match ReadBusBaseRequest base_request with
        | Except.error f => Except.error f
        | Except.ok bus => Except.ok (Sum.inl bus)
      else if type = "Stop" then
        match ReadStopBaseRequest base_request with
        | Except.error f => Except.error f
        | Except.ok stop => Except.ok (Sum.inr stop)
      else Except.error Fault.assertion
  else Except.error Fault.assertion

/-- The first loop of `ReadTransportCatalogue`, which fills `description`. -/
def ReadDescription :
    List json.Node → TransportCatalogueDesctiption → Except Fault TransportCatalogueDesctiption
  | [], description => Except.ok description
  | base_request :: rest, description =>
    match ReadBaseRequest base_request with
    | Except.error f => Except.error f
    | Except.ok (Sum.inl bus) =>
      ReadDescription rest { description with buses := description.buses ++ [bus] }
    | Except.ok (Sum.inr stop) =>
      ReadDescription rest { description with stops := description.stops ++ [stop] }

/-- The second loop of `ReadTransportCatalogue`: every stop is added. -/
def AddStops : List StopBaseRequest → TransportCatalogue → TransportCatalogue
  | [], output => output
  | stop :: rest, output =>
    AddStops rest (output.AddStop stop.name { lat := stop.latitude, lng := stop.longitude })

/-- The third loop of `ReadTransportCatalogue`: every line is added. -/
def AddBuses : List BusBaseRequest → TransportCatalogue → Except Fault TransportCatalogue
  | [], output => Except.ok output
  | bus :: rest, output =>
    match output.AddBus bus.name bus.stop_names bus.is_roundtrip with
    | (Except.error f, _) => Except.error f
    | (Except.ok _, output') => AddBuses rest output'

/-- The inner loop of the fourth loop of `ReadTransportCatalogue`: the road
distances of the stop `from_name` are added. -/
def AddRoadDistances (from_name : String) :
    List (String × Int) → TransportCatalogue → Except Fault TransportCatalogue
  | [], output => Except.ok output
  | (destination_name, distance) :: rest, output =>
    match output.GetStop from_name with
    | Except.error f => Except.error f
    | Except.ok from_ =>
      match output.GetStop destination_name with
      | Except.error f => Except.error f
      | Except.ok to_ =>
        AddRoadDistances from_name rest (output.AddDistancesBetweenStops from_ to_ distance)

/-- The fourth loop of `ReadTransportCatalogue`: the road distances of every
stop are added. -/
def AddDistances : List StopBaseRequest → TransportCatalogue → Except Fault TransportCatalogue
  | [], output => Except.ok output
  | stop :: rest, output =>
    match AddRoadDistances stop.name stop.road_distances output with
    | Except.error f => Except.error f
    | Except.ok output' => AddDistances rest output'

/-- The part of `ReadTransportCatalogue` after the description has been
read: stops, then lines, then road distances. -/
def BuildCatalogue (description : TransportCatalogueDesctiption) :
    Except Fault TransportCatalogue :=
  match AddBuses description.buses (AddStops description.stops TransportCatalogue.empty) with
  | Except.error f => Except.error f
  | Except.ok output => AddDistances description.stops output

/-- The function `json_reader::ReadTransportCatalogue`. -/
def ReadTransportCatalogue (base_requests_json : List json.Node) :
    Except Fault TransportCatalogue :=
  match ReadDescription base_requests_json { buses := [], stops := [] } with
  | Except.error f => Except.error f
  | Except.ok description => BuildCatalogue description

/-- The base request is read as a Bus record. -/
def is_bus_request (base_request : json.Node) : Bool :=
  match ReadBaseRequest base_request with
  | Except.ok (Sum.inl _) => true
  | _ => false

/-- The base request is read as a Stop record. -/
def is_stop_request (base_request : json.Node) : Bool :=
  match ReadBaseRequest base_request with
  | Except.ok (Sum.inr _) => true
  | _ => false

/-- The Bus records read from the base requests, in the order of the
requests. -/
def bus_requests (base_requests_json : List json.Node) : List BusBaseRequest :=
  base_requests_json.filterMap (fun base_request =>
    match ReadBaseRequest base_request with
    | Except.ok (Sum.inl bus) => some bus
    | _ => none)

/-- The Stop records read from the base requests, in the order of the
requests. -/
def stop_requests (base_requests_json : List json.Node) : List StopBaseRequest :=
  base_requests_json.filterMap (fun base_request =>
    match ReadBaseRequest base_request with
    | Except.ok (Sum.inr stop) => some stop
    | _ => none)

/-! The following definitions are not functions of the reader; they state in
members of the catalogue which catalogue is expected from the records. -/

/-- The catalogue expected after the Stop records: the member `AddStop` applied
to every record in order, starting from the empty catalogue. -/
def spec_with_stops (stops : List StopBaseRequest) : TransportCatalogue :=
  stops.foldl
    (fun c stop => c.AddStop stop.name { lat := stop.latitude, lng := stop.longitude })
    TransportCatalogue.empty

/-- The catalogue expected after the Bus records: the member `AddBus` applied
to every record in order. -/
def spec_with_buses (buses : List BusBaseRequest) (c : TransportCatalogue) :
    TransportCatalogue :=
  buses.foldl (fun c bus => (c.AddBus bus.name bus.stop_names bus.is_roundtrip).2) c

/-- The road distances of the Stop records as triples of the name of the
record, the name of the destination and the distance, in the order of the
records and of the entries of a record. -/
def spec_road_distances (stops : List StopBaseRequest) : List (String × String × Int) :=
  stops.flatMap (fun stop => stop.road_distances.map (fun rd => (stop.name, rd.1, rd.2)))

/-- The catalogue with the road distance `t` recorded: the member
`AddDistancesBetweenStops` applied to the stops that `GetStop` finds under the
two names. -/
def spec_with_distance (c : TransportCatalogue) (t : String × String × Int) :
    TransportCatalogue :=
  match c.GetStop t.1, c.GetStop t.2.1 with
  | Except.ok from_, Except.ok to_ => c.AddDistancesBetweenStops from_ to_ t.2.2
  | _, _ => c

/-- The catalogue expected from the Bus records and the Stop records: all stops,
then all lines, then all road distances. -/
def spec_catalogue (buses : List BusBaseRequest) (stops : List StopBaseRequest) :
    TransportCatalogue :=
  (spec_road_distances stops).foldl spec_with_distance
    (spec_with_buses buses (spec_with_stops stops))

end json_reader

end transport_catalogue

/-! ## Concrete catalogues

Small catalogues built through the public members, on which the theorems below
are instantiated. -/

namespace transport_catalogue

/-- Three stops `A`, `B`, `C` (positions `0`, `1`, `2`), no line, no distance. -/
def stops_ABC : TransportCatalogue :=
  ((TransportCatalogue.empty.AddStop "A" ⟨0, 0⟩).AddStop "B" ⟨0, 1⟩).AddStop "C" ⟨1, 1⟩

/-- The stops of `stops_ABC` with the distances `A → B = 5` and `B → C = 7`. -/
def chain_ABC : TransportCatalogue :=
  (stops_ABC.AddDistancesBetweenStops 0 1 5).AddDistancesBetweenStops 1 2 7

/-- The catalogue `chain_ABC` with the additional distance `B → A = 9`. -/
def asymmetric_ABC : TransportCatalogue :=
  chain_ABC.AddDistancesBetweenStops 1 0 9

/-- A catalogue with the single stop `A` at `(0, 0)`. -/
def one_stop_A : TransportCatalogue :=
  TransportCatalogue.empty.AddStop "A" ⟨0, 0⟩

/-- The catalogue `chain_ABC` with the non-circular line `L = [A, B, C]`. -/
def line_ABC : TransportCatalogue :=
  (chain_ABC.AddBus "L" ["A", "B", "C"] false).2

/-- The catalogue `chain_ABC` with the circular line `R = [A, B, C]`. -/
def ring_ABC : TransportCatalogue :=
  (chain_ABC.AddBus "R" ["A", "B", "C"] true).2

/-- The catalogue `chain_ABC` with the circular line `Z = [A, B, A]`, which
lists the stop `A` twice. -/
def ring_ABA : TransportCatalogue :=
  (chain_ABC.AddBus "Z" ["A", "B", "A"] true).2

/-- The catalogue `ring_ABA` with the non-circular line `Y = [B, A, A]`. -/
def ring_ABA_line_BAA : TransportCatalogue :=
  (ring_ABA.AddBus "Y" ["B", "A", "A"] false).2

/-- The catalogue `asymmetric_ABC` (`A → B = 5`, `B → A = 9`) with the
non-circular line `L = [A, B]`. -/
def asymmetric_line_AB : TransportCatalogue :=
  (asymmetric_ABC.AddBus "L" ["A", "B"] false).2

/-- The stops of `stops_ABC`, the recorded distance `A → B = -1` and the
circular line `R = [A, B]`. -/
def minus_one_ring_AB : TransportCatalogue :=
  ((stops_ABC.AddDistancesBetweenStops 0 1 (-1)).AddBus "R" ["A", "B"] true).2

/-- The stops of `stops_ABC`, the recorded distances `A → B = 5` and
`B → A = -1`, and the non-circular line `L = [A, B]`. -/
def return_minus_one_line_AB : TransportCatalogue :=
  (((stops_ABC.AddDistancesBetweenStops 0 1 5).AddDistancesBetweenStops 1 0 (-1)).AddBus
    "L" ["A", "B"] false).2

/-- The catalogue `stops_ABC` after `AddBus("E", [], false)`. -/
def empty_line_E : TransportCatalogue :=
  (stops_ABC.AddBus "E" [] false).2

/-- The catalogue `stops_ABC` with the line `M = [A, B]` added first and the
line `L = [B, A, B]` added second: the lines `L` (position `1`) and `M`
(position `0`) both serve `A` and `B`, no line serves `C`. -/
def lines_M_L : TransportCatalogue :=
  ((stops_ABC.AddBus "M" ["A", "B"] true).2.AddBus "L" ["B", "A", "B"] false).2

/-- Routing settings with a wait time of `6` minutes and a velocity of
`60` km/h. -/
def settings_6_60 : RoutingSettings := { wait_time := 6, velocity := 60 }

/-- The router state expected for `line_ABC` under `settings_6_60`: three wait
edges `0, 1, 2` and six ride edges `3, ..., 8`. -/
def router_line_ABC : router.TransportRouter :=
  ((router.TransportRouter.construct_vertexes line_ABC settings_6_60).with_waits
      (line_ABC.GetAllStops.map
        (router.TransportRouter.construct_vertexes line_ABC settings_6_60).spec_wait_edge)).with_rides
    (line_ABC.GetAllBuses.flatMap
      (router.TransportRouter.construct_vertexes line_ABC settings_6_60).spec_rides_of_bus)

/-- A solver stand-in that reports, from vertex `0` to vertex `2`, the path of
the edges `0` and `3`, and no path otherwise. -/
def solver_A_to_B (_ : graph.DirectedWeightedGraph) (from_ to_ : graph.VertexId) :
    Option graph.RouteInfo :=
  if from_ = 0 ∧ to_ = 2 then some { weight := 7, edges := [0, 3] } else none

/-- The scenario of the spec: the stops `X` (position `0`) and `Y` (position
`1`), the non-circular line `L = [X, Y]` and the road distance `X → Y = 1000`. -/
def scenario_XY : TransportCatalogue :=
  (((TransportCatalogue.empty.AddStop "X" ⟨0, 0⟩).AddStop "Y" ⟨0, 1⟩).AddBus
    "L" ["X", "Y"] false).2.AddDistancesBetweenStops 0 1 1000

/-- The router state expected for `scenario_XY` at a velocity of `60` km/h and
a wait time of `w` minutes: the wait edges `0` (at `X`) and `1` (at `Y`), the
ride edges `2` (from `X` to `Y`) and `3` (from `Y` to `X`). -/
def router_scenario_XY (w : Int) : router.TransportRouter :=
  { catalogue_ := scenario_XY
    settings_ := { wait_time := w, velocity := 60 }
    graph_ := ⟨4, [⟨0, 1, (w : Rat)⟩, ⟨2, 3, (w : Rat)⟩, ⟨1, 2, 1⟩, ⟨3, 0, 1⟩]⟩
    vertexes_ := [("X", ⟨0, 1⟩), ("Y", ⟨2, 3⟩)]
    vertexes_counter_ := 4
    wait_edges_ := [(0, ⟨"X", (w : Rat)⟩), (1, ⟨"Y", (w : Rat)⟩)]
    bus_edges_ := [(2, ⟨"L", 1, 1⟩), (3, ⟨"L", 1, 1⟩)] }

/-- A solver stand-in that reports, from vertex `0` to vertex `2`, the path of
the edges `0` and `2` with the weight this path has in the graph, and no path
otherwise. -/
def solver_X_to_Y (g : graph.DirectedWeightedGraph) (from_ to_ : graph.VertexId) :
    Option graph.RouteInfo :=
  if from_ = 0 ∧ to_ = 2 then some { weight := graph.route_weight g [0, 2], edges := [0, 2] }
  else none

/-- The catalogue with the single stop `A` and the non-circular line `L = [A]`. -/
def one_stop_line_A : TransportCatalogue :=
  (one_stop_A.AddBus "L" ["A"] false).2

/-- A solver stand-in that reports, from a vertex to itself, the empty path of
weight `0`, and no path otherwise. -/
def solver_self (_ : graph.DirectedWeightedGraph) (from_ to_ : graph.VertexId) :
    Option graph.RouteInfo :=
  if from_ = to_ then some { weight := 0, edges := [] } else none

/-- The catalogue `line_ABC` with a second line of the name `L`, stored later:
the non-circular line `[A]`. -/
def line_ABC_then_L_A : TransportCatalogue :=
  (line_ABC.AddBus "L" ["A"] false).2

/-- The stops `A`, `B` (positions `0`, `1`), the non-circular line `L = [A, B]`,
the distance `A → B = 5`, and then a second stop of the name `A` (position
`2`). -/
def renamed_stop_line_AB : TransportCatalogue :=
  ((((TransportCatalogue.empty.AddStop "A" ⟨0, 0⟩).AddStop "B" ⟨0, 1⟩).AddBus
      "L" ["A", "B"] false).2.AddDistancesBetweenStops 0 1 5).AddStop "A" ⟨1, 1⟩

/-- The base request of the circular line `L = [A, B]`. -/
def request_bus_L : json.Node :=
  json.Node.dict
    [("is_roundtrip", json.Node.bool true), ("name", json.Node.string "L"),
     ("stops", json.Node.array [json.Node.string "A", json.Node.string "B"]),
     ("type", json.Node.string "Bus")]

/-- The base request of the stop `A` with the road distance `5` to `B`. -/
def request_stop_A : json.Node :=
  json.Node.dict
    [("latitude", json.Node.double 0), ("longitude", json.Node.int 0),
     ("name", json.Node.string "A"),
     ("road_distances", json.Node.dict [("B", json.Node.int 5)]),
     ("type", json.Node.string "Stop")]

/-- The base request of the stop `B` without road distances. -/
def request_stop_B : json.Node :=
  json.Node.dict
    [("latitude", json.Node.double 0), ("longitude", json.Node.double 1),
     ("name", json.Node.string "B"), ("road_distances", json.Node.dict []),
     ("type", json.Node.string "Stop")]

end transport_catalogue

/-! # Theorems -/

namespace transport_catalogue

/-! ## Associative containers -/

section maps

variable {K V : Type} [DecidableEq K]

theorem map_find_assign_self (m : List (K × V)) (k : K) (v : V) :
    map_find (map_assign m k v) k = some v := by
  induction m with
  | nil => simp [map_assign, map_find]
  | cons e rest ih =>
    obtain ⟨k', v'⟩ := e
    by_cases h : k' = k
    · simp [map_assign, map_find, h]
    · simp [map_assign, map_find, h, ih]

theorem map_find_assign_ne (m : List (K × V)) (k k' : K) (v : V) (h : k' ≠ k) :
    map_find (map_assign m k v) k' = map_find m k' := by
  induction m with
  | nil => simp [map_assign, map_find, Ne.symm h]
  | cons e rest ih =>
    obtain ⟨k₀, v₀⟩ := e
    by_cases h₀ : k₀ = k
    · have h₁ : ¬ k₀ = k' := fun e => h (e.symm.trans h₀)
      simp [map_assign, map_find, h₀, h₁, Ne.symm h]
    · by_cases h₁ : k₀ = k'
      · subst h₁
        simp [map_assign, map_find, h₀]
      · simp [map_assign, map_find, h₀, h₁, ih]

theorem map_count_assign_self (m : List (K × V)) (k : K) (v : V) :
    map_count (map_assign m k v) k = 1 := by
  simp [map_count, map_find_assign_self]

theorem map_count_assign_ne (m : List (K × V)) (k k' : K) (v : V) (h : k' ≠ k) :
    map_count (map_assign m k v) k' = map_count m k' := by
  simp [map_count, map_find_assign_ne m k k' v h]

theorem map_at_assign_self (m : List (K × V)) (k : K) (v : V) :
    map_at (map_assign m k v) k = Except.ok v := by
  simp [map_at, map_find_assign_self]

theorem map_at_assign_ne (m : List (K × V)) (k k' : K) (v : V) (h : k' ≠ k) :
    map_at (map_assign m k v) k' = map_at m k' := by
  simp [map_at, map_find_assign_ne m k k' v h]

theorem map_find_mem (m : List (K × V)) (k : K) (v : V) (h : map_find m k = some v) :
    (k, v) ∈ m := by
  induction m with
  | nil => simp [map_find] at h
  | cons e rest ih =>
    obtain ⟨k', v'⟩ := e
    by_cases hk : k' = k
    · simp only [map_find, hk, if_true, Option.some.injEq] at h
      subst hk; subst h
      exact List.mem_cons_self _ _
    · simp only [map_find, hk, if_false] at h
      exact List.mem_cons_of_mem _ (ih h)

theorem map_count_eq_zero_iff (m : List (K × V)) (k : K) :
    map_count m k = 0 ↔ map_find m k = none := by
  unfold map_count
  cases map_find m k <;> simp

theorem map_count_pos_iff (m : List (K × V)) (k : K) :
    map_count m k > 0 ↔ ∃ v, map_find m k = some v := by
  unfold map_count
  cases map_find m k <;> simp

end maps


/-! ## Road distances -/

namespace TransportCatalogue

/-- C1: `GetDistanceBetweenStops(from, to)` returns the value stored for the
exact ordered pair when there is one; otherwise the value stored for the
reversed pair when there is one; otherwise `-1`. When both directions are
stored, the value of the exact pair is returned. -/
theorem GetDistanceBetweenStops_exact_then_reversed (c : TransportCatalogue)
    (from_ to_ : StopPtr) :
    (∀ d, map_find c.distances_between_stops_ (from_, to_) = some d →
      c.GetDistanceBetweenStops from_ to_ = d) ∧
    (c.ContainsDistanceBetweenStops from_ to_ = false →
      ∀ d, map_find c.distances_between_stops_ (to_, from_) = some d →
        c.GetDistanceBetweenStops from_ to_ = d) ∧
    (c.ContainsDistanceBetweenStops from_ to_ = false →
      c.ContainsDistanceBetweenStops to_ from_ = false →
        c.GetDistanceBetweenStops from_ to_ = -1) ∧
    (∀ d₁ d₂, map_find c.distances_between_stops_ (from_, to_) = some d₁ →
      map_find c.distances_between_stops_ (to_, from_) = some d₂ →
        c.GetDistanceBetweenStops from_ to_ = d₁) := by
  have hcont : ∀ x y : StopPtr, c.ContainsDistanceBetweenStops x y = false →
      map_find c.distances_between_stops_ (x, y) = none := by
    intro x y h
    have h0 : map_count c.distances_between_stops_ (x, y) = 0 := by
      simpa [ContainsDistanceBetweenStops] using h
    exact (map_count_eq_zero_iff _ _).1 h0
  refine ⟨?_, ?_, ?_, ?_⟩
  · intro d h
    simp [GetDistanceBetweenStops, h]
  · intro hn d h
    simp [GetDistanceBetweenStops, hcont _ _ hn, h]
  · intro hn hr
    simp [GetDistanceBetweenStops, hcont _ _ hn, hcont _ _ hr]
  · intro d₁ d₂ h _
    simp [GetDistanceBetweenStops, h]

/-- Instance of C1 on `asymmetric_ABC`: with `A → B = 5` and `B → A = 9` both
stored, the lookups in the two directions return `5` and `9`. -/
theorem GetDistanceBetweenStops_exact_then_reversed_witness :
    map_find asymmetric_ABC.distances_between_stops_ (0, 1) = some 5 ∧
    map_find asymmetric_ABC.distances_between_stops_ (1, 0) = some 9 ∧
    asymmetric_ABC.GetDistanceBetweenStops 0 1 = 5 :=
  ⟨by decide, by decide,
    (GetDistanceBetweenStops_exact_then_reversed asymmetric_ABC 0 1).2.2.2 5 9
      (by decide) (by decide)⟩

/-- C2: in a catalogue whose only recorded distances are `A → B = d₁` and
`B → C = d₂`, for distinct stops `A`, `B`, `C`, the lookup `(B, A)` falls back
to `d₁` and the lookup `(C, A)` is `-1`: distances are not chained. -/
theorem GetDistanceBetweenStops_not_chained (c : TransportCatalogue) (A B C : StopPtr)
    (d₁ d₂ : Int) (hAB : A ≠ B) (hBC : B ≠ C) (hAC : A ≠ C)
    (honly : ∀ x y : StopPtr, map_find c.distances_between_stops_ (x, y) =
      if (x, y) = (A, B) then some d₁ else if (x, y) = (B, C) then some d₂ else none) :
    c.GetDistanceBetweenStops B A = d₁ ∧ c.GetDistanceBetweenStops C A = -1 := by
  have e1 : map_find c.distances_between_stops_ (B, A) = none := by
    rw [honly]
    have h1 : ¬ (B = A ∧ A = B) := fun h => hAB h.2
    have h2 : ¬ (A = C) := hAC
    simp [h1, h2]
  have e2 : map_find c.distances_between_stops_ (A, B) = some d₁ := by
    rw [honly]; simp
  have e3 : map_find c.distances_between_stops_ (C, A) = none := by
    rw [honly]
    have h1 : ¬ (C = A ∧ A = B) := fun h => hAB h.2
    have h2 : ¬ (C = B ∧ A = C) := fun h => hAC h.2
    simp [h1, h2]
  have e4 : map_find c.distances_between_stops_ (A, C) = none := by
    rw [honly]
    have h1 : ¬ (C = B) := fun h => hBC h.symm
    have h2 : ¬ (A = B) := hAB
    simp [h1, h2]
  constructor
  · simp [GetDistanceBetweenStops, e1, e2]
  · simp [GetDistanceBetweenStops, e3, e4]

/-- Instance of C2 on `chain_ABC` (`A → B = 5`, `B → C = 7`, nothing else). -/
theorem GetDistanceBetweenStops_not_chained_witness :
    chain_ABC.GetDistanceBetweenStops 1 0 = 5 ∧ chain_ABC.GetDistanceBetweenStops 2 0 = -1 :=
  GetDistanceBetweenStops_not_chained chain_ABC 0 1 2 5 7 (by decide) (by decide) (by decide)
    (by
      intro x y
      have h : chain_ABC.distances_between_stops_ = [((0, 1), 5), ((1, 2), 7)] := by decide
      rw [h]
      by_cases h1 : (x, y) = ((0 : StopPtr), (1 : StopPtr))
      · simp [map_find, h1]
      · by_cases h2 : (x, y) = ((1 : StopPtr), (2 : StopPtr))
        · simp [map_find, h2]
        · have h1' : ¬ (((0 : StopPtr), (1 : StopPtr)) = (x, y)) := fun e => h1 e.symm
          have h2' : ¬ (((1 : StopPtr), (2 : StopPtr)) = (x, y)) := fun e => h2 e.symm
          simp only [map_find, if_neg h1, if_neg h2, if_neg h1', if_neg h2'])

/-- C3: `AddDistancesBetweenStops(from, to, d)` makes `d` the value stored for
the ordered pair `(from, to)`, whatever was stored before, and leaves every
other ordered pair (presence and value), the stops, the lines and the
stop-to-lines index as they were. -/
theorem AddDistancesBetweenStops_frame (c : TransportCatalogue) (from_ to_ : StopPtr)
    (d : Int) :
    map_find (c.AddDistancesBetweenStops from_ to_ d).distances_between_stops_ (from_, to_)
      = some d ∧
    (c.AddDistancesBetweenStops from_ to_ d).ContainsDistanceBetweenStops from_ to_ = true ∧
    (∀ x y : StopPtr, (x, y) ≠ (from_, to_) →
      (c.AddDistancesBetweenStops from_ to_ d).ContainsDistanceBetweenStops x y
        = c.ContainsDistanceBetweenStops x y ∧
      map_find (c.AddDistancesBetweenStops from_ to_ d).distances_between_stops_ (x, y)
        = map_find c.distances_between_stops_ (x, y)) ∧
    (from_ ≠ to_ →
      (c.AddDistancesBetweenStops from_ to_ d).ContainsDistanceBetweenStops to_ from_
        = c.ContainsDistanceBetweenStops to_ from_ ∧
      map_find (c.AddDistancesBetweenStops from_ to_ d).distances_between_stops_ (to_, from_)
        = map_find c.distances_between_stops_ (to_, from_)) ∧
    (c.AddDistancesBetweenStops from_ to_ d).stop_storage_ = c.stop_storage_ ∧
    (c.AddDistancesBetweenStops from_ to_ d).stops_ = c.stops_ ∧
    (c.AddDistancesBetweenStops from_ to_ d).buses_storage_ = c.buses_storage_ ∧
    (c.AddDistancesBetweenStops from_ to_ d).buses_ = c.buses_ ∧
    (c.AddDistancesBetweenStops from_ to_ d).stop_to_buses_ = c.stop_to_buses_ := by
  have hframe : ∀ x y : StopPtr, (x, y) ≠ (from_, to_) →
      (c.AddDistancesBetweenStops from_ to_ d).ContainsDistanceBetweenStops x y
        = c.ContainsDistanceBetweenStops x y ∧
      map_find (c.AddDistancesBetweenStops from_ to_ d).distances_between_stops_ (x, y)
        = map_find c.distances_between_stops_ (x, y) := by
    intro x y hne
    constructor
    · simp only [ContainsDistanceBetweenStops, AddDistancesBetweenStops,
        map_count_assign_ne _ _ _ _ hne]
    · simp only [AddDistancesBetweenStops]
      exact map_find_assign_ne _ _ _ _ hne
  refine ⟨?_, ?_, hframe, ?_, rfl, rfl, rfl, rfl, rfl⟩
  · simp only [AddDistancesBetweenStops]
    exact map_find_assign_self _ _ _
  · simp [ContainsDistanceBetweenStops, AddDistancesBetweenStops, map_count_assign_self]
  · intro hne
    apply hframe
    intro h
    exact hne (congrArg Prod.fst h).symm

/-- Instance of C3 on `chain_ABC`: overwriting `A → B` with `11` leaves
`B → C = 7` stored and the reversed pair `B → A` absent. -/
theorem AddDistancesBetweenStops_frame_witness :
    map_find (chain_ABC.AddDistancesBetweenStops 0 1 11).distances_between_stops_ (0, 1)
      = some 11 ∧
    map_find (chain_ABC.AddDistancesBetweenStops 0 1 11).distances_between_stops_ (1, 2)
      = some 7 ∧
    (chain_ABC.AddDistancesBetweenStops 0 1 11).ContainsDistanceBetweenStops 1 0 = false :=
  ⟨(AddDistancesBetweenStops_frame chain_ABC 0 1 11).1,
    (((AddDistancesBetweenStops_frame chain_ABC 0 1 11).2.2.1 1 2 (by decide)).2).trans
      (by decide),
    (((AddDistancesBetweenStops_frame chain_ABC 0 1 11).2.2.2.1 (by decide)).1).trans
      (by decide)⟩

end TransportCatalogue

/-! ## Adding stops -/

namespace TransportCatalogue

theorem stop_AddStop_new (c : TransportCatalogue) (name : String) (coordinates : Coordinates) :
    (c.AddStop name coordinates).stop c.stop_storage_.length
      = { name := name, coordinates := coordinates } := by
  simp [stop, AddStop, List.getD_eq_getElem?_getD]

theorem stop_AddStop_old (c : TransportCatalogue) (name : String) (coordinates : Coordinates)
    (p : StopPtr) (hp : p < c.stop_storage_.length) :
    (c.AddStop name coordinates).stop p = c.stop p := by
  simp [stop, AddStop, List.getD_eq_getElem?_getD, List.getElem?_append_left hp]

theorem GetStop_AddStop_self (c : TransportCatalogue) (name : String)
    (coordinates : Coordinates) :
    (c.AddStop name coordinates).GetStop name = Except.ok c.stop_storage_.length := by
  simp [GetStop, AddStop, map_at_assign_self]

theorem CountStop_AddStop_self (c : TransportCatalogue) (name : String)
    (coordinates : Coordinates) :
    (c.AddStop name coordinates).CountStop name = 1 := by
  simp [CountStop, AddStop, map_count_assign_self]

/-- The name index stays sound under `AddStop`: if every indexed name leads to
a stored stop carrying that name, the same holds after the call. -/
theorem AddStop_name_index (c : TransportCatalogue) (name : String)
    (coordinates : Coordinates)
    (hidx : ∀ n p, map_find c.stops_ n = some p →
      p < c.stop_storage_.length ∧ (c.stop p).name = n) :
    ∀ n p, map_find (c.AddStop name coordinates).stops_ n = some p →
      p < (c.AddStop name coordinates).stop_storage_.length ∧
      ((c.AddStop name coordinates).stop p).name = n := by
  intro n p h
  have hlen : (c.AddStop name coordinates).stop_storage_.length
      = c.stop_storage_.length + 1 := by
    simp [AddStop]
  by_cases hn : n = name
  · subst hn
    have e : map_find (c.AddStop n coordinates).stops_ n = some c.stop_storage_.length := by
      simp [AddStop, map_find_assign_self]
    rw [e] at h
    simp only [Option.some.injEq] at h
    subst h
    exact ⟨by rw [hlen]; exact Nat.lt_succ_self _, by rw [stop_AddStop_new]⟩
  · have e : map_find (c.AddStop name coordinates).stops_ n = map_find c.stops_ n := by
      simp only [AddStop]
      exact map_find_assign_ne _ _ _ _ hn
    rw [e] at h
    obtain ⟨hp, hname⟩ := hidx n p h
    exact ⟨by rw [hlen]; exact Nat.lt_succ_of_lt hp,
      by rw [stop_AddStop_old c name coordinates p hp, hname]⟩

/-- C8, as the code has it: `AddStop` on a name that is already present does
not fail. It appends a second stop with that name and points the name index to
it, so `CountStop` stays `1`, `GetStop` returns the stop added by this call,
and the stops added earlier stay where they were in `GetAllStops`. -/
theorem AddStop_present_repoints (c : TransportCatalogue) (name : String)
    (coordinates : Coordinates) (_hpresent : c.CountStop name > 0) :
    (c.AddStop name coordinates).CountStop name = 1 ∧
    (c.AddStop name coordinates).GetStop name = Except.ok c.stop_storage_.length ∧
    (c.AddStop name coordinates).stop c.stop_storage_.length
      = { name := name, coordinates := coordinates } ∧
    (c.AddStop name coordinates).GetAllStops
      = c.GetAllStops ++ [{ name := name, coordinates := coordinates }] ∧
    (∀ p : StopPtr, p < c.stop_storage_.length →
      (c.AddStop name coordinates).stop p = c.stop p) :=
  ⟨CountStop_AddStop_self c name coordinates, GetStop_AddStop_self c name coordinates,
    stop_AddStop_new c name coordinates, rfl,
    fun p hp => stop_AddStop_old c name coordinates p hp⟩

/-- Instance of C8, as the code has it, on `one_stop_A`: `A` is added again at
`(5, 5)`. -/
theorem AddStop_present_repoints_witness :
    one_stop_A.CountStop "A" > 0 ∧
    (one_stop_A.AddStop "A" ⟨5, 5⟩).GetStop "A" = Except.ok 1 ∧
    (one_stop_A.AddStop "A" ⟨5, 5⟩).stop 1 = { name := "A", coordinates := ⟨5, 5⟩ } :=
  ⟨by decide, (AddStop_present_repoints one_stop_A "A" ⟨5, 5⟩ (by decide)).2.1,
    (AddStop_present_repoints one_stop_A "A" ⟨5, 5⟩ (by decide)).2.2.1⟩

/-- C8 as stated fails: in `one_stop_A` the name `A` is present and `GetStop`
returns position `0`; `AddStop "A"` nevertheless stores a second stop, and
afterwards `GetStop "A"` returns position `1`, the new stop at `(5, 5)`. -/
theorem AddStop_duplicate_not_rejected :
    one_stop_A.CountStop "A" = 1 ∧
    one_stop_A.GetStop "A" = Except.ok 0 ∧
    one_stop_A.stop 0 = { name := "A", coordinates := ⟨0, 0⟩ } ∧
    (one_stop_A.AddStop "A" ⟨5, 5⟩).GetAllStops
      = [{ name := "A", coordinates := ⟨0, 0⟩ }, { name := "A", coordinates := ⟨5, 5⟩ }] ∧
    (one_stop_A.AddStop "A" ⟨5, 5⟩).GetStop "A" = Except.ok 1 ∧
    (one_stop_A.AddStop "A" ⟨5, 5⟩).stop 1 = { name := "A", coordinates := ⟨5, 5⟩ } ∧
    (one_stop_A.AddStop "A" ⟨5, 5⟩).GetStop "A" ≠ one_stop_A.GetStop "A" := by
  refine ⟨by decide, by decide, by decide, by decide, by decide, by decide, by decide⟩

/-- C9: after `AddStop(name, c)` on a name not yet present, `CountStop(name)`
is `1` and `GetStop(name)` is a stop with that name and coordinates;
`GetAllStops` is the previous sequence with the new stop appended; for every
other name `CountStop` and `GetStop` answer as before, and every stop stored
before is unchanged; lines, distances and the stop-to-lines index are
unchanged. -/
theorem AddStop_frame (c : TransportCatalogue) (name : String) (coordinates : Coordinates)
    (_hnew : c.CountStop name = 0) :
    (c.AddStop name coordinates).CountStop name = 1 ∧
    (∃ p : StopPtr, (c.AddStop name coordinates).GetStop name = Except.ok p ∧
      (c.AddStop name coordinates).stop p = { name := name, coordinates := coordinates }) ∧
    (c.AddStop name coordinates).GetAllStops
      = c.GetAllStops ++ [{ name := name, coordinates := coordinates }] ∧
    (∀ other : String, other ≠ name →
      (c.AddStop name coordinates).CountStop other = c.CountStop other ∧
      (c.AddStop name coordinates).GetStop other = c.GetStop other) ∧
    (∀ p : StopPtr, p < c.stop_storage_.length →
      (c.AddStop name coordinates).stop p = c.stop p) ∧
    (c.AddStop name coordinates).buses_storage_ = c.buses_storage_ ∧
    (c.AddStop name coordinates).buses_ = c.buses_ ∧
    (c.AddStop name coordinates).distances_between_stops_ = c.distances_between_stops_ ∧
    (c.AddStop name coordinates).stop_to_buses_ = c.stop_to_buses_ := by
  refine ⟨CountStop_AddStop_self c name coordinates,
    ⟨c.stop_storage_.length, GetStop_AddStop_self c name coordinates,
      stop_AddStop_new c name coordinates⟩,
    rfl, ?_, fun p hp => stop_AddStop_old c name coordinates p hp, rfl, rfl, rfl, rfl⟩
  intro other hne
  constructor
  · simp only [CountStop, AddStop]
    exact map_count_assign_ne _ _ _ _ hne
  · simp only [GetStop, AddStop]
    exact map_at_assign_ne _ _ _ _ hne

/-- Instance of C9 on `one_stop_A`, adding the new name `B`: `A` still resolves
to position `0`. -/
theorem AddStop_frame_witness :
    one_stop_A.CountStop "B" = 0 ∧
    (one_stop_A.AddStop "B" ⟨0, 1⟩).CountStop "B" = 1 ∧
    (one_stop_A.AddStop "B" ⟨0, 1⟩).GetStop "A" = Except.ok 0 :=
  ⟨by decide, (AddStop_frame one_stop_A "B" ⟨0, 1⟩ (by decide)).1,
    (((AddStop_frame one_stop_A "B" ⟨0, 1⟩ (by decide)).2.2.2.1 "A" (by decide)).2).trans
      (by decide)⟩

end TransportCatalogue

/-! ## Adding lines -/

namespace TransportCatalogue

theorem AddBus_resolve_unknown (c : TransportCatalogue) (stop_names : List String)
    (h : ∃ s ∈ stop_names, c.CountStop s = 0) :
    c.AddBus_resolve stop_names = Except.error Fault.assertion := by
  induction stop_names with
  | nil => simp at h
  | cons stop rest ih =>
    unfold AddBus_resolve
    by_cases hc : map_count c.stops_ stop > 0
    · rw [if_pos hc]
      obtain ⟨p, hp⟩ := (map_count_pos_iff _ _).1 hc
      have hrest : ∃ s ∈ rest, c.CountStop s = 0 := by
        obtain ⟨s, hs, hs0⟩ := h
        rcases List.mem_cons.1 hs with rfl | hmem
        · exfalso
          have : map_count c.stops_ s = 0 := hs0
          omega
        · exact ⟨s, hmem, hs0⟩
      simp [map_at, hp, ih hrest]
    · rw [if_neg hc]

theorem AddBus_resolve_mem (c : TransportCatalogue) :
    ∀ (stop_names : List String) (stops : List StopPtr),
      c.AddBus_resolve stop_names = Except.ok stops →
        ∀ p ∈ stops, ∃ n ∈ stop_names, map_find c.stops_ n = some p := by
  intro stop_names
  induction stop_names with
  | nil =>
    intro stops h p hp
    simp only [AddBus_resolve, Except.ok.injEq] at h
    subst h
    simp at hp
  | cons stop rest ih =>
    intro stops h p hp
    unfold AddBus_resolve at h
    split at h
    · unfold map_at at h
      cases hf : map_find c.stops_ stop with
      | none => simp [hf] at h
      | some q =>
        cases hr : c.AddBus_resolve rest with
        | error f => simp [hf, hr] at h
        | ok ps =>
          simp only [hf, hr, Except.ok.injEq] at h
          subst h
          rcases List.mem_cons.1 hp with rfl | hmem
          · exact ⟨stop, List.mem_cons_self _ _, hf⟩
          · obtain ⟨n, hn, hnp⟩ := ih ps hr p hmem
            exact ⟨n, List.mem_cons_of_mem _ hn, hnp⟩
    · cases h

theorem AddBus_register_frame (bus : BusPtr) :
    ∀ (stop_names : List String) (c : TransportCatalogue),
      (AddBus_register bus stop_names c).2.stops_ = c.stops_ ∧
      (AddBus_register bus stop_names c).2.stop_storage_ = c.stop_storage_ ∧
      (AddBus_register bus stop_names c).2.buses_storage_ = c.buses_storage_ ∧
      (AddBus_register bus stop_names c).2.buses_ = c.buses_ ∧
      (AddBus_register bus stop_names c).2.distances_between_stops_
        = c.distances_between_stops_ := by
  intro stop_names
  induction stop_names with
  | nil => intro c; exact ⟨rfl, rfl, rfl, rfl, rfl⟩
  | cons stop rest ih =>
    intro c
    unfold AddBus_register
    cases hg : c.GetStop stop with
    | error f => exact ⟨rfl, rfl, rfl, rfl, rfl⟩
    | ok stored_stop => exact ih _

/-- A line stored by `AddBus` lists, for every stop, the stop registered under
that stop's name, provided the name index of the catalogue maps every name to a
stop carrying that name. -/
theorem AddBus_listed_stops_resolve (c : TransportCatalogue) (name : String)
    (stop_names : List String) (is_circular : Bool)
    (hidx : ∀ n p, map_find c.stops_ n = some p → (c.stop p).name = n)
    (hok : (c.AddBus name stop_names is_circular).1 = Except.ok ()) :
    ((c.AddBus name stop_names is_circular).2.bus c.buses_storage_.length).name = name ∧
    ((c.AddBus name stop_names is_circular).2.bus c.buses_storage_.length).is_circular
      = is_circular ∧
    ∀ p ∈ ((c.AddBus name stop_names is_circular).2.bus c.buses_storage_.length).stops,
      (c.AddBus name stop_names is_circular).2.GetStop
        (((c.AddBus name stop_names is_circular).2.stop p).name) = Except.ok p := by
  unfold AddBus at hok ⊢
  cases hr : c.AddBus_resolve stop_names with
  | error f => simp [hr] at hok
  | ok stops =>
    simp only [hr, List.length_append, List.length_singleton, Nat.add_sub_cancel]
    obtain ⟨h1, h2, h3, _, _⟩ := AddBus_register_frame c.buses_storage_.length stop_names
      { c with
        buses_storage_ := c.buses_storage_ ++ [⟨name, stops, is_circular⟩]
        buses_ := map_assign c.buses_ name c.buses_storage_.length }
    simp only [] at h1 h2 h3
    have hbus : TransportCatalogue.bus
        (AddBus_register c.buses_storage_.length stop_names
          { c with
            buses_storage_ := c.buses_storage_ ++ [⟨name, stops, is_circular⟩]
            buses_ := map_assign c.buses_ name c.buses_storage_.length }).2
        c.buses_storage_.length = ⟨name, stops, is_circular⟩ := by
      simp only [TransportCatalogue.bus, h3]
      simp [List.getD_eq_getElem?_getD]
    rw [hbus]
    refine ⟨rfl, rfl, ?_⟩
    intro p hp
    obtain ⟨n, _, hn⟩ := AddBus_resolve_mem c stop_names stops hr p hp
    have hname := hidx n p hn
    simp only [GetStop, TransportCatalogue.stop, h1, h2, map_at] at hname ⊢
    rw [hname, hn]

/-- C11, as the code has it: `AddBus` called with an empty list of stop names
does not fail. It stores a line with zero stops, indexes it by name and leaves
the stops, the distances and the stop-to-lines index as they were, so that
`CountBus(name)` is `1` afterwards and `GetBus(name)` is a line without stops. -/
theorem AddBus_empty_stores_line (c : TransportCatalogue) (name : String)
    (is_circular : Bool) :
    (c.AddBus name [] is_circular).1 = Except.ok () ∧
    (c.AddBus name [] is_circular).2.GetAllBuses
      = c.GetAllBuses ++ [{ name := name, stops := [], is_circular := is_circular }] ∧
    (c.AddBus name [] is_circular).2.CountBus name = 1 ∧
    (c.AddBus name [] is_circular).2.GetBus name = Except.ok c.buses_storage_.length ∧
    ((c.AddBus name [] is_circular).2.bus c.buses_storage_.length).stops = [] ∧
    (c.AddBus name [] is_circular).2.stop_storage_ = c.stop_storage_ ∧
    (c.AddBus name [] is_circular).2.stops_ = c.stops_ ∧
    (c.AddBus name [] is_circular).2.stop_to_buses_ = c.stop_to_buses_ ∧
    (c.AddBus name [] is_circular).2.distances_between_stops_
      = c.distances_between_stops_ := by
  refine ⟨rfl, rfl, ?_, ?_, ?_, rfl, rfl, rfl, rfl⟩
  · simp [AddBus, AddBus_resolve, AddBus_register, CountBus, map_count_assign_self]
  · simp [AddBus, AddBus_resolve, AddBus_register, GetBus, map_at_assign_self]
  · simp [AddBus, AddBus_resolve, AddBus_register, TransportCatalogue.bus,
      List.getD_eq_getElem?_getD]

/-- C11 as stated fails: on `stops_ABC`, which holds no line, the call
`AddBus("E", [], false)` succeeds, and afterwards the catalogue stores the line
`E` with zero stops. -/
theorem AddBus_empty_not_rejected :
    stops_ABC.GetAllBuses = [] ∧
    (stops_ABC.AddBus "E" [] false).1 = Except.ok () ∧
    empty_line_E.GetAllBuses = [{ name := "E", stops := [], is_circular := false }] ∧
    empty_line_E.CountBus "E" = 1 ∧
    empty_line_E.GetBus "E" = Except.ok 0 ∧
    (empty_line_E.bus 0).stops.length = 0 := by
  refine ⟨by decide, by decide, by decide, by decide, by decide, by decide⟩

/-- C10: `AddBus(name, stop_names, is_circular)` fails whenever some name in
`stop_names` is not a stop of the catalogue, and the catalogue is then left as
it was: no line is stored, `CountBus` answers as before and no stop's set of
serving lines changes. -/
theorem AddBus_unknown_stop_fails (c : TransportCatalogue) (name : String)
    (stop_names : List String) (is_circular : Bool)
    (h : ∃ s ∈ stop_names, c.CountStop s = 0) :
    (c.AddBus name stop_names is_circular).1 = Except.error Fault.assertion ∧
    (c.AddBus name stop_names is_circular).2 = c ∧
    (c.AddBus name stop_names is_circular).2.GetAllBuses = c.GetAllBuses ∧
    (∀ n : String, (c.AddBus name stop_names is_circular).2.CountBus n = c.CountBus n) ∧
    (∀ p : StopPtr, (c.AddBus name stop_names is_circular).2.GetBusesThatPassStop p
      = c.GetBusesThatPassStop p) := by
  have e : c.AddBus name stop_names is_circular = (Except.error Fault.assertion, c) := by
    simp [AddBus, AddBus_resolve_unknown c stop_names h]
  rw [e]
  exact ⟨rfl, rfl, rfl, fun _ => rfl, fun _ => rfl⟩

/-- Instance of C10 on `stops_ABC`: the name `X` is unknown, so adding the line
`L = [A, X, C]` fails and stores nothing. -/
theorem AddBus_unknown_stop_fails_witness :
    (∃ s ∈ ["A", "X", "C"], stops_ABC.CountStop s = 0) ∧
    (stops_ABC.AddBus "L" ["A", "X", "C"] false).1 = Except.error Fault.assertion ∧
    (stops_ABC.AddBus "L" ["A", "X", "C"] false).2 = stops_ABC :=
  ⟨⟨"X", by decide, by decide⟩,
    (AddBus_unknown_stop_fails stops_ABC "L" ["A", "X", "C"] false
      ⟨"X", by decide, by decide⟩).1,
    (AddBus_unknown_stop_fails stops_ABC "L" ["A", "X", "C"] false
      ⟨"X", by decide, by decide⟩).2.1⟩

end TransportCatalogue

/-! ## Line statistics -/

namespace TransportCatalogue

theorem getElem?_of_lt (l : List StopPtr) (i : Nat) (h : i < l.length) :
    l[i]? = some (l.getD i 0) := by
  simp [List.getD_eq_getElem?_getD, List.getElem?_eq_getElem h]

theorem direct_forward_ok (ComputeDistance : Coordinates → Coordinates → Rat)
    (c : TransportCatalogue) (bus_route : List StopPtr) :
    ∀ (remaining i : Nat) (distance : Rat), i + remaining + 1 ≤ bus_route.length →
      ∃ d, direct_forward ComputeDistance c bus_route remaining i distance = Except.ok d := by
  intro remaining
  induction remaining with
  | zero => intro i distance _; exact ⟨distance, rfl⟩
  | succ k ih =>
    intro i distance h
    have h1 := getElem?_of_lt bus_route i (by omega)
    have h2 := getElem?_of_lt bus_route (i + 1) (by omega)
    simp only [direct_forward, h1, h2]
    exact ih (i + 1) _ (by omega)

theorem size_t_pred_eq_mod (size : Nat) (h : size < 18446744073709551616) :
    size_t_pred size = (size + 18446744073709551616 - 1) % 18446744073709551616 := by
  unfold size_t_pred
  split <;> omega

theorem CalculateRouteDistanceUsingCoordinates_ok
    (ComputeDistance : Coordinates → Coordinates → Rat) (c : TransportCatalogue) (bus : BusPtr)
    (hn : 1 ≤ (c.bus bus).stops.length) :
    ∃ d, c.CalculateRouteDistanceUsingCoordinates ComputeDistance bus = Except.ok d := by
  have hb : 0 + size_t_pred (c.bus bus).stops.length + 1 ≤ (c.bus bus).stops.length := by
    unfold size_t_pred
    split <;> omega
  obtain ⟨d, hd⟩ := direct_forward_ok ComputeDistance c (c.bus bus).stops
    (size_t_pred (c.bus bus).stops.length) 0 0 hb
  unfold CalculateRouteDistanceUsingCoordinates
  simp only [hd]
  by_cases hc : (c.bus bus).is_circular
  · exact ⟨d, by simp [hc]⟩
  · exact ⟨d * 2, by simp [hc]⟩

theorem GetBusStatistics_ok_inv (ComputeDistance : Coordinates → Coordinates → Rat)
    (c : TransportCatalogue) (bus : BusPtr) (st : BusStatistics)
    (h : c.GetBusStatistics ComputeDistance bus = Except.ok st) :
    st.total_stops = c.StopsOnRoute bus ∧ st.unique_stops = c.UniqueStopsOnRoute bus ∧
    c.CalculateRouteDistanceUsingActualMeasurements bus = Except.ok st.route_distance_measured ∧
    c.CalculateRouteDistanceUsingCoordinates ComputeDistance bus
      = Except.ok st.route_distance_direct := by
  unfold GetBusStatistics at h
  cases hm : c.CalculateRouteDistanceUsingActualMeasurements bus with
  | error f => simp [hm] at h
  | ok m =>
    cases hd : c.CalculateRouteDistanceUsingCoordinates ComputeDistance bus with
    | error f => simp [hm, hd] at h
    | ok d =>
      simp only [hm, hd, Except.ok.injEq] at h
      subst h
      exact ⟨rfl, rfl, rfl, rfl⟩

theorem GetBusStatistics_of_measured (ComputeDistance : Coordinates → Coordinates → Rat)
    (c : TransportCatalogue) (bus : BusPtr) (m : Int)
    (hn : 1 ≤ (c.bus bus).stops.length)
    (hm : c.CalculateRouteDistanceUsingActualMeasurements bus = Except.ok m) :
    ∃ st, c.GetBusStatistics ComputeDistance bus = Except.ok st ∧
      st.total_stops = c.StopsOnRoute bus ∧ st.unique_stops = c.UniqueStopsOnRoute bus ∧
      st.route_distance_measured = m := by
  obtain ⟨d, hd⟩ := CalculateRouteDistanceUsingCoordinates_ok ComputeDistance c bus hn
  refine ⟨⟨c.StopsOnRoute bus, c.UniqueStopsOnRoute bus, m, d⟩, ?_, rfl, rfl, rfl⟩
  simp only [GetBusStatistics, hm, hd]

/-- C4: for a line with `n ≥ 1` listed stops, the `total_stops` field of
`GetBusStatistics` is `n` when the line is circular and `2 * n - 1` when it is
not; statistics are produced whenever the road length is. -/
theorem GetBusStatistics_total_stops (ComputeDistance : Coordinates → Coordinates → Rat)
    (c : TransportCatalogue) (bus : BusPtr) (hn : 1 ≤ (c.bus bus).stops.length) :
    c.StopsOnRoute bus
      = (if (c.bus bus).is_circular then ((c.bus bus).stops.length : Int)
         else 2 * ((c.bus bus).stops.length : Int) - 1) ∧
    (∀ st, c.GetBusStatistics ComputeDistance bus = Except.ok st →
      st.total_stops = (if (c.bus bus).is_circular then ((c.bus bus).stops.length : Int)
        else 2 * ((c.bus bus).stops.length : Int) - 1)) ∧
    (∀ m, c.CalculateRouteDistanceUsingActualMeasurements bus = Except.ok m →
      ∃ st, c.GetBusStatistics ComputeDistance bus = Except.ok st ∧
        st.total_stops = (if (c.bus bus).is_circular then ((c.bus bus).stops.length : Int)
          else 2 * ((c.bus bus).stops.length : Int) - 1)) := by
  have e : c.StopsOnRoute bus
      = (if (c.bus bus).is_circular then ((c.bus bus).stops.length : Int)
         else 2 * ((c.bus bus).stops.length : Int) - 1) := by
    unfold StopsOnRoute
    by_cases hc : (c.bus bus).is_circular
    · simp [hc]
    · simp [hc]; ring
  refine ⟨e, ?_, ?_⟩
  · intro st hst
    rw [(GetBusStatistics_ok_inv ComputeDistance c bus st hst).1, e]
  · intro m hm
    obtain ⟨st, hst, ht, _, _⟩ := GetBusStatistics_of_measured ComputeDistance c bus m hn hm
    exact ⟨st, hst, by rw [ht, e]⟩

/-- Instance of C4: the stops `[A, B, C]` give `total_stops = 5` as a
non-circular line and `total_stops = 3` as a circular line. -/
theorem GetBusStatistics_total_stops_witness :
    1 ≤ (line_ABC.bus 0).stops.length ∧ line_ABC.StopsOnRoute 0 = 5 ∧
    1 ≤ (ring_ABC.bus 0).stops.length ∧ ring_ABC.StopsOnRoute 0 = 3 :=
  ⟨by decide,
    ((GetBusStatistics_total_stops (fun _ _ => 0) line_ABC 0 (by decide)).1).trans (by decide),
    by decide,
    ((GetBusStatistics_total_stops (fun _ _ => 0) ring_ABC 0 (by decide)).1).trans (by decide)⟩

theorem foldl_uset_insert (names acc : List String) (hacc : acc.Nodup) :
    (names.foldl uset_insert acc).Nodup ∧
    (names.foldl uset_insert acc).toFinset = acc.toFinset ∪ names.toFinset := by
  induction names generalizing acc with
  | nil => simp [hacc]
  | cons x rest ih =>
    simp only [List.foldl_cons]
    by_cases hx : x ∈ acc
    · have e : uset_insert acc x = acc := by simp [uset_insert, hx]
      rw [e]
      refine ⟨(ih acc hacc).1, ?_⟩
      rw [(ih acc hacc).2]
      ext y
      simp only [Finset.mem_union, List.mem_toFinset, List.mem_cons]
      constructor
      · rintro (h | h)
        · exact Or.inl h
        · exact Or.inr (Or.inr h)
      · rintro (h | rfl | h)
        · exact Or.inl h
        · exact Or.inl hx
        · exact Or.inr h
    · have e : uset_insert acc x = x :: acc := by simp [uset_insert, hx]
      rw [e]
      have hn : (x :: acc).Nodup := List.nodup_cons.2 ⟨hx, hacc⟩
      refine ⟨(ih _ hn).1, ?_⟩
      rw [(ih _ hn).2]
      ext y
      simp only [Finset.mem_union, List.mem_toFinset, List.mem_cons]
      constructor
      · rintro ((rfl | h) | h)
        · exact Or.inr (Or.inl rfl)
        · exact Or.inl h
        · exact Or.inr (Or.inr h)
      · rintro (h | rfl | h)
        · exact Or.inl (Or.inr h)
        · exact Or.inl (Or.inl rfl)
        · exact Or.inr h

theorem UniqueStopsOnRoute_eq_card (c : TransportCatalogue) (bus : BusPtr) :
    c.UniqueStopsOnRoute bus
      = ((((c.bus bus).stops.map (fun p => (c.stop p).name)).toFinset.card : Nat) : Int) := by
  have h := foldl_uset_insert ((c.bus bus).stops.map (fun p => (c.stop p).name)) []
    List.nodup_nil
  have e : (c.bus bus).stops.foldl (fun s stop => uset_insert s (c.stop stop).name) []
      = ((c.bus bus).stops.map (fun p => (c.stop p).name)).foldl uset_insert [] := by
    rw [List.foldl_map]
  unfold UniqueStopsOnRoute
  simp only [e]
  rw [← List.toFinset_card_of_nodup h.1, h.2]
  simp

/-- C7: the `unique_stops` field of `GetBusStatistics` is the number of
distinct stop names among the line's listed stops; for `n ≥ 1` listed stops it
lies between `1` and `n`; it is the same for any line listing the same stops in
another order, whatever the circularity flags. -/
theorem GetBusStatistics_unique_stops (ComputeDistance : Coordinates → Coordinates → Rat)
    (c : TransportCatalogue) (bus : BusPtr) :
    c.UniqueStopsOnRoute bus
      = ((((c.bus bus).stops.map (fun p => (c.stop p).name)).toFinset.card : Nat) : Int) ∧
    (∀ st, c.GetBusStatistics ComputeDistance bus = Except.ok st →
      st.unique_stops
        = ((((c.bus bus).stops.map (fun p => (c.stop p).name)).toFinset.card : Nat) : Int)) ∧
    (1 ≤ (c.bus bus).stops.length →
      1 ≤ c.UniqueStopsOnRoute bus ∧
      c.UniqueStopsOnRoute bus ≤ ((c.bus bus).stops.length : Int) ∧
      ∀ m, c.CalculateRouteDistanceUsingActualMeasurements bus = Except.ok m →
        ∃ st, c.GetBusStatistics ComputeDistance bus = Except.ok st ∧
          st.unique_stops = c.UniqueStopsOnRoute bus) ∧
    (∀ (c' : TransportCatalogue) (bus' : BusPtr), c'.stop_storage_ = c.stop_storage_ →
      List.Perm (c'.bus bus').stops (c.bus bus).stops →
        c'.UniqueStopsOnRoute bus' = c.UniqueStopsOnRoute bus) := by
  refine ⟨UniqueStopsOnRoute_eq_card c bus, ?_, ?_, ?_⟩
  · intro st hst
    rw [(GetBusStatistics_ok_inv ComputeDistance c bus st hst).2.1,
      UniqueStopsOnRoute_eq_card]
  · intro hn
    rw [UniqueStopsOnRoute_eq_card]
    refine ⟨?_, ?_, ?_⟩
    · obtain ⟨p, hp⟩ := List.exists_mem_of_length_pos (Nat.lt_of_lt_of_le Nat.zero_lt_one hn)
      have hmem : (c.stop p).name
          ∈ ((c.bus bus).stops.map (fun p => (c.stop p).name)).toFinset :=
        List.mem_toFinset.2 (List.mem_map.2 ⟨p, hp, rfl⟩)
      have hpos := Finset.card_pos.2 ⟨_, hmem⟩
      exact_mod_cast hpos
    · have hle := List.toFinset_card_le ((c.bus bus).stops.map (fun p => (c.stop p).name))
      rw [List.length_map] at hle
      exact_mod_cast hle
    · intro m hm
      obtain ⟨st, hst, _, hu, _⟩ := GetBusStatistics_of_measured ComputeDistance c bus m hn hm
      exact ⟨st, hst, by rw [hu, UniqueStopsOnRoute_eq_card]⟩
  · intro c' bus' hs hperm
    rw [UniqueStopsOnRoute_eq_card, UniqueStopsOnRoute_eq_card]
    have hstop : ∀ p, c'.stop p = c.stop p := fun p => by simp [stop, hs]
    have hp : List.Perm ((c'.bus bus').stops.map (fun p => (c'.stop p).name))
        ((c.bus bus).stops.map (fun p => (c.stop p).name)) := by
      have : (fun p => (c'.stop p).name) = (fun p => (c.stop p).name) := by
        funext p; rw [hstop]
      rw [this]
      exact hperm.map _
    rw [List.toFinset_eq_of_perm _ _ hp]

/-- Instance of C7: the circular line `[A, B, A]` and the non-circular line
`[B, A, A]` both have `3` listed stops and `2` unique stops. -/
theorem GetBusStatistics_unique_stops_witness :
    1 ≤ (ring_ABA_line_BAA.bus 0).stops.length ∧
    ring_ABA_line_BAA.UniqueStopsOnRoute 0 = 2 ∧
    List.Perm (ring_ABA_line_BAA.bus 1).stops (ring_ABA_line_BAA.bus 0).stops ∧
    ring_ABA_line_BAA.UniqueStopsOnRoute 1 = ring_ABA_line_BAA.UniqueStopsOnRoute 0 :=
  ⟨by decide, by decide, by decide,
    (GetBusStatistics_unique_stops (fun _ _ => 0) ring_ABA_line_BAA 0).2.2.2
      ring_ABA_line_BAA 1 rfl (by decide)⟩

theorem measured_forward_eq (c : TransportCatalogue) (bus_route : List StopPtr)
    (hres : ∀ p ∈ bus_route, c.GetStop (c.stop p).name = Except.ok p) :
    ∀ (remaining i : Nat) (total : Int), i + remaining ≤ bus_route.length - 1 →
      measured_forward c bus_route remaining i total =
        if ∀ j, j < remaining →
            c.GetDistanceBetweenStops (bus_route.getD (i + j) 0) (bus_route.getD (i + j + 1) 0)
              ≠ -1
        then Except.ok (total + Finset.sum (Finset.range remaining) (fun j =>
          c.GetDistanceBetweenStops (bus_route.getD (i + j) 0) (bus_route.getD (i + j + 1) 0)))
        else Except.error Fault.assertion := by
  intro remaining
  induction remaining with
  | zero => intro i total _; simp [measured_forward]
  | succ k ih =>
    intro i total h
    have hi : i < bus_route.length := by omega
    have hi1 : i + 1 < bus_route.length := by omega
    have h1 := getElem?_of_lt bus_route i hi
    have h2 := getElem?_of_lt bus_route (i + 1) hi1
    have m1 : bus_route.getD i 0 ∈ bus_route := by
      rw [List.getD_eq_getElem _ _ hi]; exact List.getElem_mem hi
    have m2 : bus_route.getD (i + 1) 0 ∈ bus_route := by
      rw [List.getD_eq_getElem _ _ hi1]; exact List.getElem_mem hi1
    simp only [measured_forward, h1, h2, hres _ m1, hres _ m2]
    by_cases h0 : c.GetDistanceBetweenStops (bus_route.getD i 0) (bus_route.getD (i + 1) 0) = -1
    · have hne : ¬ ∀ j, j < k + 1 →
          c.GetDistanceBetweenStops (bus_route.getD (i + j) 0)
            (bus_route.getD (i + j + 1) 0) ≠ -1 := by
        intro hall
        exact hall 0 (Nat.succ_pos k) (by simpa using h0)
      rw [if_neg hne, if_neg (not_not.2 h0)]
    · rw [if_pos h0, ih (i + 1) _ (by omega)]
      have hshift : ∀ j, i + 1 + j = i + (j + 1) := fun j => by omega
      by_cases hall : ∀ j, j < k →
          c.GetDistanceBetweenStops (bus_route.getD (i + 1 + j) 0)
            (bus_route.getD (i + 1 + j + 1) 0) ≠ -1
      · have hall' : ∀ j, j < k + 1 →
            c.GetDistanceBetweenStops (bus_route.getD (i + j) 0)
              (bus_route.getD (i + j + 1) 0) ≠ -1 := by
          intro j hj
          cases j with
          | zero => simpa using h0
          | succ j =>
            have := hall j (by omega)
            rw [hshift j] at this
            exact this
        rw [if_pos hall, if_pos hall', Finset.sum_range_succ']
        simp only [hshift, Nat.add_zero]
        congr 1
        ring
      · have hall' : ¬ ∀ j, j < k + 1 →
            c.GetDistanceBetweenStops (bus_route.getD (i + j) 0)
              (bus_route.getD (i + j + 1) 0) ≠ -1 := by
          intro h'
          apply hall
          intro j hj
          have := h' (j + 1) (by omega)
          rw [← hshift j] at this
          exact this
        rw [if_neg hall, if_neg hall']

theorem measured_return_eq (c : TransportCatalogue) (bus_route : List StopPtr)
    (hres : ∀ p ∈ bus_route, c.GetStop (c.stop p).name = Except.ok p) :
    ∀ (i : Nat) (total : Int), i ≤ bus_route.length - 1 →
      measured_return c bus_route i total =
        Except.ok (total + Finset.sum (Finset.range i) (fun j =>
          c.GetDistanceBetweenStops (bus_route.getD (j + 1) 0) (bus_route.getD j 0))) := by
  intro i
  induction i with
  | zero => intro total _; simp [measured_return]
  | succ k ih =>
    intro total h
    have hi : k < bus_route.length := by omega
    have hi1 : k + 1 < bus_route.length := by omega
    have h1 := getElem?_of_lt bus_route k hi
    have h2 := getElem?_of_lt bus_route (k + 1) hi1
    have m1 : bus_route.getD k 0 ∈ bus_route := by
      rw [List.getD_eq_getElem _ _ hi]; exact List.getElem_mem hi
    have m2 : bus_route.getD (k + 1) 0 ∈ bus_route := by
      rw [List.getD_eq_getElem _ _ hi1]; exact List.getElem_mem hi1
    simp only [measured_return, h1, h2, hres _ m1, hres _ m2]
    rw [ih _ (by omega), Finset.sum_range_succ]
    congr 1
    ring

theorem CalculateRouteDistanceUsingActualMeasurements_eq (c : TransportCatalogue)
    (bus : BusPtr)
    (hres : ∀ p ∈ (c.bus bus).stops, c.GetStop (c.stop p).name = Except.ok p) :
    c.CalculateRouteDistanceUsingActualMeasurements bus =
      if ∀ i, i < (c.bus bus).stops.length - 1 →
          c.GetDistanceBetweenStops ((c.bus bus).stops.getD i 0)
            ((c.bus bus).stops.getD (i + 1) 0) ≠ -1
      then Except.ok
        (Finset.sum (Finset.range ((c.bus bus).stops.length - 1)) (fun i =>
            c.GetDistanceBetweenStops ((c.bus bus).stops.getD i 0)
              ((c.bus bus).stops.getD (i + 1) 0))
          + (if (c.bus bus).is_circular then 0
             else Finset.sum (Finset.range ((c.bus bus).stops.length - 1)) (fun i =>
              c.GetDistanceBetweenStops ((c.bus bus).stops.getD (i + 1) 0)
                ((c.bus bus).stops.getD i 0))))
      else Except.error Fault.assertion := by
  unfold CalculateRouteDistanceUsingActualMeasurements
  simp only []
  rw [measured_forward_eq c _ hres _ 0 0 (by omega)]
  simp only [Nat.zero_add, Int.zero_add]
  by_cases hall : ∀ i, i < (c.bus bus).stops.length - 1 →
      c.GetDistanceBetweenStops ((c.bus bus).stops.getD i 0)
        ((c.bus bus).stops.getD (i + 1) 0) ≠ -1
  · simp only [if_pos hall]
    by_cases hc : (c.bus bus).is_circular
    · simp [hc]
    · simp only [hc]
      rw [measured_return_eq c _ hres _ _ (le_refl _)]
      simp
  · simp only [if_neg hall]

/-- C5, as the code has it: when every listed stop is the stop registered
under its own name and every forward lookup between consecutive listed stops
is known, `route_distance_measured` is the forward sum of
`GetDistanceBetweenStops(stop[i], stop[i+1])` for a circular line, and that
forward sum plus the return sum of `GetDistanceBetweenStops(stop[i+1], stop[i])`
for a non-circular line; the latter is twice the forward sum when the two
lookups agree on every consecutive pair. -/
theorem route_distance_measured_sum (ComputeDistance : Coordinates → Coordinates → Rat)
    (c : TransportCatalogue) (bus : BusPtr)
    (hres : ∀ p ∈ (c.bus bus).stops, c.GetStop (c.stop p).name = Except.ok p)
    (hknown : ∀ i, i < (c.bus bus).stops.length - 1 →
      c.GetDistanceBetweenStops ((c.bus bus).stops.getD i 0)
        ((c.bus bus).stops.getD (i + 1) 0) ≠ -1) :
    c.CalculateRouteDistanceUsingActualMeasurements bus
      = Except.ok
        (Finset.sum (Finset.range ((c.bus bus).stops.length - 1)) (fun i =>
            c.GetDistanceBetweenStops ((c.bus bus).stops.getD i 0)
              ((c.bus bus).stops.getD (i + 1) 0))
          + (if (c.bus bus).is_circular then 0
             else Finset.sum (Finset.range ((c.bus bus).stops.length - 1)) (fun i =>
              c.GetDistanceBetweenStops ((c.bus bus).stops.getD (i + 1) 0)
                ((c.bus bus).stops.getD i 0)))) ∧
    (1 ≤ (c.bus bus).stops.length →
      ∃ st, c.GetBusStatistics ComputeDistance bus = Except.ok st ∧
        st.route_distance_measured
          = Finset.sum (Finset.range ((c.bus bus).stops.length - 1)) (fun i =>
              c.GetDistanceBetweenStops ((c.bus bus).stops.getD i 0)
                ((c.bus bus).stops.getD (i + 1) 0))
            + (if (c.bus bus).is_circular then 0
               else Finset.sum (Finset.range ((c.bus bus).stops.length - 1)) (fun i =>
                c.GetDistanceBetweenStops ((c.bus bus).stops.getD (i + 1) 0)
                  ((c.bus bus).stops.getD i 0)))) ∧
    ((∀ i, i < (c.bus bus).stops.length - 1 →
        c.GetDistanceBetweenStops ((c.bus bus).stops.getD (i + 1) 0)
          ((c.bus bus).stops.getD i 0)
        = c.GetDistanceBetweenStops ((c.bus bus).stops.getD i 0)
          ((c.bus bus).stops.getD (i + 1) 0)) →
      c.CalculateRouteDistanceUsingActualMeasurements bus
        = Except.ok
          (if (c.bus bus).is_circular then
            Finset.sum (Finset.range ((c.bus bus).stops.length - 1)) (fun i =>
              c.GetDistanceBetweenStops ((c.bus bus).stops.getD i 0)
                ((c.bus bus).stops.getD (i + 1) 0))
           else
            2 * Finset.sum (Finset.range ((c.bus bus).stops.length - 1)) (fun i =>
              c.GetDistanceBetweenStops ((c.bus bus).stops.getD i 0)
                ((c.bus bus).stops.getD (i + 1) 0)))) := by
  have e := CalculateRouteDistanceUsingActualMeasurements_eq c bus hres
  rw [if_pos hknown] at e
  refine ⟨e, ?_, ?_⟩
  · intro hn
    obtain ⟨st, hst, _, _, hm⟩ := GetBusStatistics_of_measured ComputeDistance c bus _ hn e
    exact ⟨st, hst, hm⟩
  · intro hsym
    rw [e]
    have hsum : Finset.sum (Finset.range ((c.bus bus).stops.length - 1)) (fun i =>
          c.GetDistanceBetweenStops ((c.bus bus).stops.getD (i + 1) 0)
            ((c.bus bus).stops.getD i 0))
        = Finset.sum (Finset.range ((c.bus bus).stops.length - 1)) (fun i =>
          c.GetDistanceBetweenStops ((c.bus bus).stops.getD i 0)
            ((c.bus bus).stops.getD (i + 1) 0)) :=
      Finset.sum_congr rfl (fun i hi => hsym i (Finset.mem_range.1 hi))
    rw [hsum]
    by_cases hc : (c.bus bus).is_circular
    · simp [hc]
    · simp only [hc]
      congr 1
      simp only [Bool.false_eq_true, if_false]
      ring

/-- Instance of C5, as the code has it, on `line_ABC` (`A → B = 5`, `B → C = 7`, line
`[A, B, C]` not circular): the road length is `2 * (5 + 7)`. -/
theorem route_distance_measured_sum_witness :
    (∀ p ∈ (line_ABC.bus 0).stops, line_ABC.GetStop (line_ABC.stop p).name = Except.ok p) ∧
    (∀ i, i < (line_ABC.bus 0).stops.length - 1 →
      line_ABC.GetDistanceBetweenStops ((line_ABC.bus 0).stops.getD i 0)
        ((line_ABC.bus 0).stops.getD (i + 1) 0) ≠ -1) ∧
    line_ABC.CalculateRouteDistanceUsingActualMeasurements 0 = Except.ok 24 :=
  ⟨by decide, by decide,
    ((route_distance_measured_sum (fun _ _ => 0) line_ABC 0 (by decide) (by decide)).1).trans
      (by decide)⟩

/-- C5 as stated fails for a non-circular line: in `asymmetric_line_AB` the
line `[A, B]` has the forward lookup `A → B = 5`, so twice the forward sum is
`10`, while `route_distance_measured` is `14`, the return leg using `B → A = 9`. -/
theorem route_distance_measured_not_doubled :
    (asymmetric_line_AB.bus 0).stops = [0, 1] ∧
    (asymmetric_line_AB.bus 0).is_circular = false ∧
    asymmetric_line_AB.GetDistanceBetweenStops 0 1 = 5 ∧
    Except.map BusStatistics.route_distance_measured
      (asymmetric_line_AB.GetBusStatistics (fun _ _ => 0) 0) = Except.ok 14 ∧
    (14 : Int) ≠ 2 * 5 := by
  refine ⟨by decide, by decide, by decide, by decide, by decide⟩

theorem direct_forward_fault (ComputeDistance : Coordinates → Coordinates → Rat)
    (c : TransportCatalogue) (bus_route : List StopPtr) :
    ∀ (remaining i : Nat) (distance : Rat) (f : Fault),
      direct_forward ComputeDistance c bus_route remaining i distance = Except.error f →
        f = Fault.bad_subscript := by
  intro remaining
  induction remaining with
  | zero => intro i distance f h; simp [direct_forward] at h
  | succ k ih =>
    intro i distance f h
    unfold direct_forward at h
    split at h
    · exact ih _ _ _ h
    · simp only [Except.error.injEq] at h
      exact h.symm

theorem CalculateRouteDistanceUsingCoordinates_fault
    (ComputeDistance : Coordinates → Coordinates → Rat) (c : TransportCatalogue) (bus : BusPtr)
    (f : Fault) (h : c.CalculateRouteDistanceUsingCoordinates ComputeDistance bus
      = Except.error f) :
    f = Fault.bad_subscript := by
  unfold CalculateRouteDistanceUsingCoordinates at h
  simp only [] at h
  split at h
  · next f' hf =>
    simp only [Except.error.injEq] at h
    subst h
    exact direct_forward_fault ComputeDistance c _ _ _ _ _ hf
  · split at h <;> simp at h

theorem GetBusStatistics_assertion_iff (ComputeDistance : Coordinates → Coordinates → Rat)
    (c : TransportCatalogue) (bus : BusPtr) :
    c.GetBusStatistics ComputeDistance bus = Except.error Fault.assertion ↔
      c.CalculateRouteDistanceUsingActualMeasurements bus = Except.error Fault.assertion := by
  unfold GetBusStatistics
  cases hm : c.CalculateRouteDistanceUsingActualMeasurements bus with
  | error f => simp
  | ok m =>
    cases hd : c.CalculateRouteDistanceUsingCoordinates ComputeDistance bus with
    | error f =>
      have := CalculateRouteDistanceUsingCoordinates_fault ComputeDistance c bus f hd
      subst this
      simp
    | ok d => simp

theorem GetDistanceBetweenStops_unknown_iff (c : TransportCatalogue)
    (hno : ∀ e ∈ c.distances_between_stops_, e.2 ≠ -1) (a b : StopPtr) :
    c.GetDistanceBetweenStops a b = -1 ↔
      (c.ContainsDistanceBetweenStops a b = false ∧
        c.ContainsDistanceBetweenStops b a = false) := by
  unfold GetDistanceBetweenStops ContainsDistanceBetweenStops map_count
  cases h1 : map_find c.distances_between_stops_ (a, b) with
  | some d =>
    have := hno _ (map_find_mem _ _ _ h1)
    simpa using this
  | none =>
    cases h2 : map_find c.distances_between_stops_ (b, a) with
    | some d =>
      have := hno _ (map_find_mem _ _ _ h2)
      simpa using this
    | none => simp

/-- C6, as the code has it: in a catalogue in which no recorded distance is
`-1` (and every listed stop is the stop registered under its own name),
`GetBusStatistics` fails by assertion exactly when some pair of consecutive
listed stops has no distance recorded in either direction; for a line with at
least one stop that is the only way it fails; and whenever it succeeds every
lookup of the forward and of the return leg is different from `-1`, the road
length being the sum of those lookups. -/
theorem GetBusStatistics_unknown_distance_fatal
    (ComputeDistance : Coordinates → Coordinates → Rat) (c : TransportCatalogue) (bus : BusPtr)
    (hres : ∀ p ∈ (c.bus bus).stops, c.GetStop (c.stop p).name = Except.ok p)
    (hno : ∀ e ∈ c.distances_between_stops_, e.2 ≠ -1) :
    (c.GetBusStatistics ComputeDistance bus = Except.error Fault.assertion ↔
      ∃ i, i < (c.bus bus).stops.length - 1 ∧
        c.ContainsDistanceBetweenStops ((c.bus bus).stops.getD i 0)
          ((c.bus bus).stops.getD (i + 1) 0) = false ∧
        c.ContainsDistanceBetweenStops ((c.bus bus).stops.getD (i + 1) 0)
          ((c.bus bus).stops.getD i 0) = false) ∧
    (1 ≤ (c.bus bus).stops.length →
      ((∃ f, c.GetBusStatistics ComputeDistance bus = Except.error f) ↔
        ∃ i, i < (c.bus bus).stops.length - 1 ∧
          c.ContainsDistanceBetweenStops ((c.bus bus).stops.getD i 0)
            ((c.bus bus).stops.getD (i + 1) 0) = false ∧
          c.ContainsDistanceBetweenStops ((c.bus bus).stops.getD (i + 1) 0)
            ((c.bus bus).stops.getD i 0) = false)) ∧
    (∀ st, c.GetBusStatistics ComputeDistance bus = Except.ok st →
      (∀ i, i < (c.bus bus).stops.length - 1 →
        c.GetDistanceBetweenStops ((c.bus bus).stops.getD i 0)
          ((c.bus bus).stops.getD (i + 1) 0) ≠ -1 ∧
        c.GetDistanceBetweenStops ((c.bus bus).stops.getD (i + 1) 0)
          ((c.bus bus).stops.getD i 0) ≠ -1) ∧
      st.route_distance_measured
        = Finset.sum (Finset.range ((c.bus bus).stops.length - 1)) (fun i =>
            c.GetDistanceBetweenStops ((c.bus bus).stops.getD i 0)
              ((c.bus bus).stops.getD (i + 1) 0))
          + (if (c.bus bus).is_circular then 0
             else Finset.sum (Finset.range ((c.bus bus).stops.length - 1)) (fun i =>
              c.GetDistanceBetweenStops ((c.bus bus).stops.getD (i + 1) 0)
                ((c.bus bus).stops.getD i 0)))) := by
  have e := CalculateRouteDistanceUsingActualMeasurements_eq c bus hres
  have hmiss : (¬ ∀ i, i < (c.bus bus).stops.length - 1 →
        c.GetDistanceBetweenStops ((c.bus bus).stops.getD i 0)
          ((c.bus bus).stops.getD (i + 1) 0) ≠ -1) ↔
      ∃ i, i < (c.bus bus).stops.length - 1 ∧
        c.ContainsDistanceBetweenStops ((c.bus bus).stops.getD i 0)
          ((c.bus bus).stops.getD (i + 1) 0) = false ∧
        c.ContainsDistanceBetweenStops ((c.bus bus).stops.getD (i + 1) 0)
          ((c.bus bus).stops.getD i 0) = false := by
    constructor
    · intro h
      by_contra hex
      apply h
      intro i hi hd
      exact hex ⟨i, hi, (GetDistanceBetweenStops_unknown_iff c hno _ _).1 hd⟩
    · rintro ⟨i, hi, hc⟩ hall
      exact hall i hi ((GetDistanceBetweenStops_unknown_iff c hno _ _).2 hc)
  have hmeasured : c.CalculateRouteDistanceUsingActualMeasurements bus
        = Except.error Fault.assertion ↔
      ∃ i, i < (c.bus bus).stops.length - 1 ∧
        c.ContainsDistanceBetweenStops ((c.bus bus).stops.getD i 0)
          ((c.bus bus).stops.getD (i + 1) 0) = false ∧
        c.ContainsDistanceBetweenStops ((c.bus bus).stops.getD (i + 1) 0)
          ((c.bus bus).stops.getD i 0) = false := by
    rw [← hmiss, e]
    by_cases hall : ∀ i, i < (c.bus bus).stops.length - 1 →
        c.GetDistanceBetweenStops ((c.bus bus).stops.getD i 0)
          ((c.bus bus).stops.getD (i + 1) 0) ≠ -1
    · simp only [if_pos hall]
      constructor
      · intro h; cases h
      · intro h; exact absurd hall h
    · simp only [if_neg hall]
      exact ⟨fun _ => hall, fun _ => trivial⟩
  refine ⟨(GetBusStatistics_assertion_iff ComputeDistance c bus).trans hmeasured, ?_, ?_⟩
  · intro hn
    constructor
    · rintro ⟨f, hf⟩
      apply hmeasured.1
      cases hm : c.CalculateRouteDistanceUsingActualMeasurements bus with
      | error f' =>
        rw [e] at hm
        split at hm
        · cases hm
        · exact hm ▸ rfl
      | ok m =>
        obtain ⟨st, hst, _⟩ := GetBusStatistics_of_measured ComputeDistance c bus m hn hm
        rw [hst] at hf
        cases hf
    · intro h
      exact ⟨Fault.assertion,
        (GetBusStatistics_assertion_iff ComputeDistance c bus).2 (hmeasured.2 h)⟩
  · intro st hst
    have hm := (GetBusStatistics_ok_inv ComputeDistance c bus st hst).2.2.1
    rw [e] at hm
    by_cases hall : ∀ i, i < (c.bus bus).stops.length - 1 →
        c.GetDistanceBetweenStops ((c.bus bus).stops.getD i 0)
          ((c.bus bus).stops.getD (i + 1) 0) ≠ -1
    · simp only [if_pos hall, Except.ok.injEq] at hm
      refine ⟨fun i hi => ⟨hall i hi, ?_⟩, hm.symm⟩
      intro hback
      have hc := (GetDistanceBetweenStops_unknown_iff c hno _ _).1 hback
      exact hall i hi ((GetDistanceBetweenStops_unknown_iff c hno _ _).2 ⟨hc.2, hc.1⟩)
    · simp only [if_neg hall] at hm
      cases hm

/-- Instance of C6, as the code has it, on `line_ABC`: no recorded distance is `-1`, the
statistics are produced and the lookups of both legs of `[A, B, C]` are known. -/
theorem GetBusStatistics_unknown_distance_fatal_witness :
    (∀ p ∈ (line_ABC.bus 0).stops, line_ABC.GetStop (line_ABC.stop p).name = Except.ok p) ∧
    (∀ e ∈ line_ABC.distances_between_stops_, e.2 ≠ -1) ∧
    ¬ (line_ABC.GetBusStatistics (fun _ _ => 0) 0 = Except.error Fault.assertion) :=
  ⟨by decide, by decide,
    fun h =>
      absurd ((GetBusStatistics_unknown_distance_fatal (fun _ _ => 0) line_ABC 0
        (by decide) (by decide)).1.1 h) (by decide)⟩

/-- C6 as stated fails where `-1` is itself a recorded distance. In
`minus_one_ring_AB` the pair `(A, B)` has a recorded distance, yet the
statistics of the circular line `[A, B]` fail by assertion. In
`return_minus_one_line_AB` the statistics of the non-circular line `[A, B]`
succeed with road length `4 = 5 + (-1)`: the return lookup `B → A` is `-1`
and has been added. -/
theorem GetBusStatistics_recorded_minus_one :
    minus_one_ring_AB.ContainsDistanceBetweenStops 0 1 = true ∧
    (minus_one_ring_AB.bus 0).stops = [0, 1] ∧
    minus_one_ring_AB.GetBusStatistics (fun _ _ => 0) 0 = Except.error Fault.assertion ∧
    (return_minus_one_line_AB.bus 0).stops = [0, 1] ∧
    (return_minus_one_line_AB.bus 0).is_circular = false ∧
    return_minus_one_line_AB.GetDistanceBetweenStops 0 1 = 5 ∧
    return_minus_one_line_AB.GetDistanceBetweenStops 1 0 = -1 ∧
    Except.map BusStatistics.route_distance_measured
      (return_minus_one_line_AB.GetBusStatistics (fun _ _ => 0) 0) = Except.ok 4 := by
  refine ⟨by decide, by decide, by decide, by decide, by decide, by decide, by decide,
    by decide⟩

end TransportCatalogue

end transport_catalogue

/-! ## The stop-to-lines index -/

namespace transport_catalogue

section set_order

variable {α : Type} [LinearOrder α]

theorem set_insert_ne_nil (less : BusPtr → BusPtr → Bool) (s : List BusPtr) (x : BusPtr) :
    set_insert less s x ≠ [] := by
  cases s with
  | nil => simp [set_insert]
  | cons y rest =>
    unfold set_insert
    split
    · simp
    · split <;> simp

theorem set_insert_spec (f : BusPtr → α) (less : BusPtr → BusPtr → Bool)
    (hless : ∀ a b, less a b = true ↔ f a < f b) (x : BusPtr) :
    ∀ s : List BusPtr, s.Pairwise (fun a b => f a < f b) →
      (∀ y ∈ s, y ≠ x → f y ≠ f x) →
      (set_insert less s x).Pairwise (fun a b => f a < f b) ∧
      ∀ b, b ∈ set_insert less s x ↔ b = x ∨ b ∈ s := by
  intro s
  induction s with
  | nil =>
    intro _ _
    simp [set_insert]
  | cons y rest ih =>
    intro hs hx
    obtain ⟨hy, hrest⟩ := List.pairwise_cons.1 hs
    unfold set_insert
    by_cases h1 : f x < f y
    · rw [if_pos ((hless x y).2 h1)]
      refine ⟨List.pairwise_cons.2 ⟨?_, hs⟩, fun b => by simp⟩
      intro z hz
      rcases List.mem_cons.1 hz with rfl | hz'
      · exact h1
      · exact lt_trans h1 (hy z hz')
    · have n1 : ¬ less x y = true := fun h => h1 ((hless x y).1 h)
      rw [if_neg n1]
      by_cases h2 : f y < f x
      · rw [if_pos ((hless y x).2 h2)]
        obtain ⟨hp, hm⟩ := ih hrest (fun z hz => hx z (List.mem_cons_of_mem _ hz))
        refine ⟨List.pairwise_cons.2 ⟨?_, hp⟩, ?_⟩
        · intro z hz
          rcases (hm z).1 hz with rfl | hz'
          · exact h2
          · exact hy z hz'
        · intro b
          simp only [List.mem_cons, hm b]
          tauto
      · have n2 : ¬ less y x = true := fun h => h2 ((hless y x).1 h)
        rw [if_neg n2]
        have hfeq : f y = f x := by
          rcases lt_trichotomy (f y) (f x) with h | h | h
          · exact absurd h h2
          · exact h
          · exact absurd h h1
        have hyx : y = x := by
          by_contra hne
          exact hx y (List.mem_cons_self _ _) hne hfeq
        refine ⟨hs, fun b => ?_⟩
        simp only [List.mem_cons, hyx]
        tauto

theorem set_insert_names (f : BusPtr → α) (less : BusPtr → BusPtr → Bool)
    (hless : ∀ a b, less a b = true ↔ f a < f b) (x : BusPtr) :
    ∀ s : List BusPtr, s.Pairwise (fun a b => f a < f b) →
      (set_insert less s x).Pairwise (fun a b => f a < f b) ∧
      (∀ b ∈ set_insert less s x, b = x ∨ b ∈ s) ∧
      (∀ b ∈ s, b ∈ set_insert less s x) ∧
      (∃ b' ∈ set_insert less s x, f b' = f x) := by
  intro s
  induction s with
  | nil =>
    intro _
    simp [set_insert]
  | cons y rest ih =>
    intro hs
    obtain ⟨hy, hrest⟩ := List.pairwise_cons.1 hs
    unfold set_insert
    by_cases h1 : f x < f y
    · rw [if_pos ((hless x y).2 h1)]
      refine ⟨List.pairwise_cons.2 ⟨?_, hs⟩, ?_, ?_, ⟨x, List.mem_cons_self _ _, rfl⟩⟩
      · intro z hz
        rcases List.mem_cons.1 hz with rfl | hz'
        · exact h1
        · exact lt_trans h1 (hy z hz')
      · intro b hb
        rcases List.mem_cons.1 hb with rfl | hb'
        · exact Or.inl rfl
        · exact Or.inr hb'
      · intro b hb
        exact List.mem_cons_of_mem _ hb
    · have n1 : ¬ less x y = true := fun h => h1 ((hless x y).1 h)
      rw [if_neg n1]
      by_cases h2 : f y < f x
      · rw [if_pos ((hless y x).2 h2)]
        obtain ⟨hp, hsub, hsup, b', hb', hfb'⟩ := ih hrest
        refine ⟨List.pairwise_cons.2 ⟨?_, hp⟩, ?_, ?_, ⟨b', List.mem_cons_of_mem _ hb', hfb'⟩⟩
        · intro z hz
          rcases hsub z hz with rfl | hz'
          · exact h2
          · exact hy z hz'
        · intro b hb
          rcases List.mem_cons.1 hb with rfl | hb''
          · exact Or.inr (List.mem_cons_self _ _)
          · rcases hsub b hb'' with rfl | hin
            · exact Or.inl rfl
            · exact Or.inr (List.mem_cons_of_mem _ hin)
        · intro b hb
          rcases List.mem_cons.1 hb with rfl | hb''
          · exact List.mem_cons_self _ _
          · exact List.mem_cons_of_mem _ (hsup b hb'')
      · have n2 : ¬ less y x = true := fun h => h2 ((hless y x).1 h)
        rw [if_neg n2]
        have hfeq : f y = f x := by
          rcases lt_trichotomy (f y) (f x) with h | h | h
          · exact absurd h h2
          · exact h
          · exact absurd h h1
        exact ⟨hs, fun b hb => Or.inr hb, fun b hb => hb, ⟨y, List.mem_cons_self _ _, hfeq⟩⟩

end set_order

namespace TransportCatalogue

theorem AddBus_resolve_forall₂ (c : TransportCatalogue) :
    ∀ (stop_names : List String) (stops : List StopPtr),
      c.AddBus_resolve stop_names = Except.ok stops →
        List.Forall₂ (fun n p => map_find c.stops_ n = some p) stop_names stops := by
  intro stop_names
  induction stop_names with
  | nil =>
    intro stops h
    simp only [AddBus_resolve, Except.ok.injEq] at h
    subst h
    exact List.Forall₂.nil
  | cons stop rest ih =>
    intro stops h
    unfold AddBus_resolve at h
    split at h
    · unfold map_at at h
      cases hf : map_find c.stops_ stop with
      | none => simp [hf] at h
      | some q =>
        cases hr : c.AddBus_resolve rest with
        | error f => simp [hf, hr] at h
        | ok ps =>
          simp only [hf, hr, Except.ok.injEq] at h
          subst h
          exact List.Forall₂.cons hf (ih ps hr)
    · cases h

theorem AddBus_eq_register (c : TransportCatalogue) (name : String)
    (stop_names : List String) (is_circular : Bool) (stops : List StopPtr)
    (hr : c.AddBus_resolve stop_names = Except.ok stops) :
    c.AddBus name stop_names is_circular
      = AddBus_register c.buses_storage_.length stop_names
          { c with
            buses_storage_ := c.buses_storage_ ++ [⟨name, stops, is_circular⟩]
            buses_ := map_assign c.buses_ name c.buses_storage_.length } := by
  unfold AddBus
  simp only [hr, List.length_append, List.length_singleton, Nat.add_sub_cancel]

theorem AddBus_ok_resolve (c : TransportCatalogue) (name : String)
    (stop_names : List String) (is_circular : Bool)
    (hok : (c.AddBus name stop_names is_circular).1 = Except.ok ()) :
    ∃ stops, c.AddBus_resolve stop_names = Except.ok stops := by
  cases hr : c.AddBus_resolve stop_names with
  | error f => simp [AddBus, hr] at hok
  | ok stops => exact ⟨stops, rfl⟩

theorem AddBus_register_keys (bus : BusPtr) :
    ∀ (stop_names : List String) (stops : List StopPtr) (cur : TransportCatalogue),
      List.Forall₂ (fun n p => map_find cur.stops_ n = some p) stop_names stops →
      (AddBus_register bus stop_names cur).1 = Except.ok () ∧
      (∀ s, map_find (AddBus_register bus stop_names cur).2.stop_to_buses_ s = none ↔
        (map_find cur.stop_to_buses_ s = none ∧ s ∉ stops)) ∧
      ((∀ s set, map_find cur.stop_to_buses_ s = some set → set ≠ []) →
        ∀ s set, map_find (AddBus_register bus stop_names cur).2.stop_to_buses_ s = some set →
          set ≠ []) := by
  intro stop_names
  induction stop_names with
  | nil =>
    intro stops cur h
    cases h
    exact ⟨rfl, fun s => by simp [AddBus_register], fun hne => hne⟩
  | cons n rest ih =>
    intro stops cur h
    cases h with
    | cons hn hrest =>
      rename_i p ps
      have hg : cur.GetStop n = Except.ok p := by simp [GetStop, map_at, hn]
      unfold AddBus_register
      simp only [hg]
      obtain ⟨h1, h2, h3⟩ := ih ps
        { cur with
          stop_to_buses_ := map_assign cur.stop_to_buses_ p
            (set_insert cur.BusPointerComparator
              (match map_find cur.stop_to_buses_ p with
                | some s => s
                | none => []) bus) } hrest
      refine ⟨h1, ?_, ?_⟩
      · intro s
        rw [h2 s]
        simp only []
        by_cases hs : s = p
        · subst hs
          simp [map_find_assign_self]
        · rw [map_find_assign_ne _ _ _ _ hs]
          simp [hs]
      · intro hne
        apply h3
        intro s set hset
        simp only [] at hset
        by_cases hs : s = p
        · subst hs
          rw [map_find_assign_self] at hset
          simp only [Option.some.injEq] at hset
          subst hset
          exact set_insert_ne_nil _ _ _
        · rw [map_find_assign_ne _ _ _ _ hs] at hset
          exact hne s set hset

theorem GetBusesThatPassStop_eq_find (c : TransportCatalogue) (s : StopPtr) :
    c.GetBusesThatPassStop s = map_find c.stop_to_buses_ s := by
  unfold GetBusesThatPassStop map_count map_at
  cases map_find c.stop_to_buses_ s <;> simp

theorem Reachable_index_keys (c : TransportCatalogue) (h : Reachable c) :
    (∀ s, map_find c.stop_to_buses_ s = none ↔ ∀ b ∈ c.buses_storage_, s ∉ b.stops) ∧
    (∀ s set, map_find c.stop_to_buses_ s = some set → set ≠ []) := by
  induction h with
  | empty =>
    exact ⟨fun s => by simp [TransportCatalogue.empty, map_find],
      fun s set hs => by simp [TransportCatalogue.empty, map_find] at hs⟩
  | add_stop c name coordinates _ ih => exact ih
  | add_distances c from_ to_ distance _ ih => exact ih
  | add_bus c name stop_names is_circular _ hok ih =>
    obtain ⟨stops, hr⟩ := AddBus_ok_resolve c name stop_names is_circular hok
    rw [AddBus_eq_register c name stop_names is_circular stops hr]
    obtain ⟨_, hkeys, hne⟩ := AddBus_register_keys c.buses_storage_.length stop_names stops
      { c with
        buses_storage_ := c.buses_storage_ ++ [⟨name, stops, is_circular⟩]
        buses_ := map_assign c.buses_ name c.buses_storage_.length }
      (AddBus_resolve_forall₂ c stop_names stops hr)
    obtain ⟨_, _, hst, _, _⟩ := AddBus_register_frame c.buses_storage_.length stop_names
      { c with
        buses_storage_ := c.buses_storage_ ++ [⟨name, stops, is_circular⟩]
        buses_ := map_assign c.buses_ name c.buses_storage_.length }
    refine ⟨?_, hne ih.2⟩
    intro s
    rw [hkeys s, hst]
    simp only [List.mem_append, List.mem_singleton]
    rw [ih.1 s]
    constructor
    · rintro ⟨hold, hnew⟩ b (hb | rfl)
      · exact hold b hb
      · exact hnew
    · intro hall
      exact ⟨fun b hb => hall b (Or.inl hb), hall _ (Or.inr rfl)⟩

theorem Reachable_stops_ABC : Reachable stops_ABC :=
  Reachable.add_stop _ "C" ⟨1, 1⟩
    (Reachable.add_stop _ "B" ⟨0, 1⟩ (Reachable.add_stop _ "A" ⟨0, 0⟩ Reachable.empty))

theorem Reachable_lines_M_L : Reachable lines_M_L :=
  Reachable.add_bus _ "L" ["B", "A", "B"] false
    (Reachable.add_bus _ "M" ["A", "B"] true Reachable_stops_ABC (by decide)) (by decide)

/-- C13: in every reachable catalogue state and for every stop `s`,
`GetBusesThatPassStop(s)` is empty-optional exactly when no line added so far
lists `s`; a set it returns is never empty, and the stop-to-lines index holds
no empty entry. -/
theorem GetBusesThatPassStop_none_iff (c : TransportCatalogue) (h : Reachable c)
    (s : StopPtr) :
    (c.GetBusesThatPassStop s = none ↔ ∀ b ∈ c.GetAllBuses, s ∉ b.stops) ∧
    (∀ set, c.GetBusesThatPassStop s = some set → set ≠ []) ∧
    (∀ set, map_find c.stop_to_buses_ s = some set → set ≠ []) := by
  obtain ⟨hkeys, hne⟩ := Reachable_index_keys c h
  refine ⟨?_, ?_, hne s⟩
  · rw [GetBusesThatPassStop_eq_find]
    exact hkeys s
  · intro set hset
    rw [GetBusesThatPassStop_eq_find] at hset
    exact hne s set hset

theorem AddBus_register_sets (bus : BusPtr) (S : List Bus) :
    ∀ (stop_names : List String) (stops : List StopPtr) (cur : TransportCatalogue),
      cur.buses_storage_ = S →
      List.Forall₂ (fun n p => map_find cur.stops_ n = some p) stop_names stops →
      (∀ s set, map_find cur.stop_to_buses_ s = some set →
        set.Pairwise (fun a b => (S.getD a default).name < (S.getD b default).name) ∧
        ∀ b ∈ set, b ≠ bus → (S.getD b default).name ≠ (S.getD bus default).name) →
      (∀ s set, map_find (AddBus_register bus stop_names cur).2.stop_to_buses_ s = some set →
        set.Pairwise (fun a b => (S.getD a default).name < (S.getD b default).name) ∧
        ∀ b ∈ set, b ≠ bus → (S.getD b default).name ≠ (S.getD bus default).name) ∧
      (∀ s b,
        (∃ set, map_find (AddBus_register bus stop_names cur).2.stop_to_buses_ s = some set ∧
          b ∈ set) ↔
        ((∃ set, map_find cur.stop_to_buses_ s = some set ∧ b ∈ set) ∨
          (b = bus ∧ s ∈ stops))) := by
  intro stop_names
  induction stop_names with
  | nil =>
    intro stops cur _ h hbase
    cases h
    exact ⟨hbase, fun s b => by simp [AddBus_register]⟩
  | cons n rest ih =>
    intro stops cur hS h hbase
    cases h with
    | cons hn hrest =>
      rename_i p ps
      have hg : cur.GetStop n = Except.ok p := by simp [GetStop, map_at, hn]
      have hless : ∀ a b, cur.BusPointerComparator a b = true ↔
          (S.getD a default).name < (S.getD b default).name := by
        intro a b
        simp [BusPointerComparator, TransportCatalogue.bus, hS]
      have hold : (match map_find cur.stop_to_buses_ p with
            | some s => s
            | none => []).Pairwise
              (fun a b => (S.getD a default).name < (S.getD b default).name) ∧
          ∀ b ∈ (match map_find cur.stop_to_buses_ p with
            | some s => s
            | none => []), b ≠ bus →
              (S.getD b default).name ≠ (S.getD bus default).name := by
        cases hf : map_find cur.stop_to_buses_ p with
        | none => simp
        | some set => exact hbase p set hf
      obtain ⟨hpw, hmem⟩ := set_insert_spec (fun b => (S.getD b default).name)
        cur.BusPointerComparator hless bus _ hold.1 hold.2
      unfold AddBus_register
      simp only [hg]
      obtain ⟨h1, h2⟩ := ih ps
        { cur with
          stop_to_buses_ := map_assign cur.stop_to_buses_ p
            (set_insert cur.BusPointerComparator
              (match map_find cur.stop_to_buses_ p with
                | some s => s
                | none => []) bus) } hS hrest
        (by
          intro s set hset
          simp only [] at hset
          by_cases hs : s = p
          · subst hs
            rw [map_find_assign_self] at hset
            simp only [Option.some.injEq] at hset
            subst hset
            refine ⟨hpw, ?_⟩
            intro b hb hne
            rcases (hmem b).1 hb with rfl | hb'
            · exact absurd rfl hne
            · exact hold.2 b hb' hne
          · rw [map_find_assign_ne _ _ _ _ hs] at hset
            exact hbase s set hset)
      refine ⟨h1, ?_⟩
      intro s b
      rw [h2 s b]
      simp only []
      by_cases hs : s = p
      · subst hs
        rw [map_find_assign_self]
        constructor
        · rintro (⟨set, hset, hb⟩ | ⟨rfl, hsp⟩)
          · simp only [Option.some.injEq] at hset
            subst hset
            rcases (hmem b).1 hb with rfl | hb'
            · exact Or.inr ⟨rfl, List.mem_cons_self _ _⟩
            · cases hf : map_find cur.stop_to_buses_ s with
              | none => simp [hf] at hb'
              | some set0 =>
                simp only [hf] at hb'
                exact Or.inl ⟨set0, rfl, hb'⟩
          · exact Or.inr ⟨rfl, List.mem_cons_self _ _⟩
        · rintro (⟨set, hset, hb⟩ | ⟨rfl, _⟩)
          · refine Or.inl ⟨_, rfl, (hmem b).2 (Or.inr ?_)⟩
            simp only [hset]
            exact hb
          · exact Or.inl ⟨_, rfl, (hmem b).2 (Or.inl rfl)⟩
      · rw [map_find_assign_ne _ _ _ _ hs]
        constructor
        · rintro (h | ⟨rfl, hsp⟩)
          · exact Or.inl h
          · exact Or.inr ⟨rfl, List.mem_cons_of_mem _ hsp⟩
        · rintro (h | ⟨rfl, hsp⟩)
          · exact Or.inl h
          · rcases List.mem_cons.1 hsp with rfl | hsp'
            · exact absurd rfl hs
            · exact Or.inr ⟨rfl, hsp'⟩

theorem getD_append_singleton_left (l : List Bus) (x : Bus) (b : Nat) (hb : b < l.length) :
    (l ++ [x]).getD b default = l.getD b default := by
  simp [List.getD_eq_getElem?_getD, List.getElem?_append_left hb]

theorem getD_append_singleton_length (l : List Bus) (x : Bus) :
    (l ++ [x]).getD l.length default = x := by
  simp [List.getD_eq_getElem?_getD]

theorem bus_mem_storage (c : TransportCatalogue) (b : BusPtr)
    (hb : b < c.buses_storage_.length) : c.bus b ∈ c.buses_storage_ := by
  unfold TransportCatalogue.bus
  rw [List.getD_eq_getElem _ _ hb]
  exact List.getElem_mem hb

theorem Reachable_index_sets (c : TransportCatalogue) (h : Reachable c) :
    (c.buses_storage_.map Bus.name).Nodup →
    ∀ s set, map_find c.stop_to_buses_ s = some set →
      set.Pairwise (fun a b => (c.bus a).name < (c.bus b).name) ∧
      ∀ b, b ∈ set ↔ (b < c.buses_storage_.length ∧ s ∈ (c.bus b).stops) := by
  induction h with
  | empty =>
    intro _ s set hs
    simp [TransportCatalogue.empty, map_find] at hs
  | add_stop c name coordinates _ ih => exact ih
  | add_distances c from_ to_ distance _ ih => exact ih
  | add_bus c name stop_names is_circular hreach hok ih =>
    obtain ⟨stops, hr⟩ := AddBus_ok_resolve c name stop_names is_circular hok
    rw [AddBus_eq_register c name stop_names is_circular stops hr]
    obtain ⟨_, _, hst, _, _⟩ := AddBus_register_frame c.buses_storage_.length stop_names
      { c with
        buses_storage_ := c.buses_storage_ ++ [⟨name, stops, is_circular⟩]
        buses_ := map_assign c.buses_ name c.buses_storage_.length }
    simp only [] at hst
    intro hnames s set hset
    rw [hst, List.map_append, List.map_singleton] at hnames
    have hnodup : (c.buses_storage_.map Bus.name).Nodup := (List.nodup_append.1 hnames).1
    have hfresh : name ∉ c.buses_storage_.map Bus.name := by
      intro hmem
      exact (List.nodup_append.1 hnames).2.2 hmem (List.mem_singleton_self _)
    have hkeys := (Reachable_index_keys c hreach).1
    have hold := ih hnodup
    obtain ⟨h1, h2⟩ := AddBus_register_sets c.buses_storage_.length
      (c.buses_storage_ ++ [⟨name, stops, is_circular⟩]) stop_names stops
      { c with
        buses_storage_ := c.buses_storage_ ++ [⟨name, stops, is_circular⟩]
        buses_ := map_assign c.buses_ name c.buses_storage_.length }
      rfl (AddBus_resolve_forall₂ c stop_names stops hr)
      (by
        intro s' set' hs'
        obtain ⟨hpw, hmem⟩ := hold s' set' hs'
        constructor
        · refine List.Pairwise.imp_of_mem ?_ hpw
          intro a b ha hb hab
          rw [getD_append_singleton_left _ _ a ((hmem a).1 ha).1,
            getD_append_singleton_left _ _ b ((hmem b).1 hb).1]
          exact hab
        · intro b hb _ heq
          rw [getD_append_singleton_left _ _ b ((hmem b).1 hb).1,
            getD_append_singleton_length] at heq
          have heq' : (c.bus b).name = name := heq
          apply hfresh
          rw [← heq']
          exact List.mem_map.2 ⟨_, bus_mem_storage c b ((hmem b).1 hb).1, rfl⟩)
    have hbusR : ∀ b, TransportCatalogue.bus
        (AddBus_register c.buses_storage_.length stop_names
          { c with
            buses_storage_ := c.buses_storage_ ++ [(⟨name, stops, is_circular⟩ : Bus)]
            buses_ := map_assign c.buses_ name c.buses_storage_.length }).2 b
        = (c.buses_storage_ ++ [(⟨name, stops, is_circular⟩ : Bus)]).getD b default := by
      intro b
      simp only [TransportCatalogue.bus, hst]
    constructor
    · have := (h1 s set hset).1
      simp only [hbusR]
      exact this
    · intro b
      have hex : b ∈ set ↔ ∃ set', map_find
          (AddBus_register c.buses_storage_.length stop_names
            { c with
              buses_storage_ := c.buses_storage_ ++ [⟨name, stops, is_circular⟩]
              buses_ := map_assign c.buses_ name c.buses_storage_.length }).2.stop_to_buses_ s
            = some set' ∧ b ∈ set' := by
        constructor
        · intro hb; exact ⟨set, hset, hb⟩
        · rintro ⟨set', hs', hb⟩
          rw [hset] at hs'
          simp only [Option.some.injEq] at hs'
          subst hs'
          exact hb
      rw [hex, h2 s b, hst, hbusR, List.length_append, List.length_singleton]
      simp only []
      constructor
      · rintro (⟨set0, hs0, hb0⟩ | ⟨rfl, hsp⟩)
        · have hb := (hold s set0 hs0).2 b
          have hlt := (hb.1 hb0).1
          refine ⟨Nat.lt_succ_of_lt hlt, ?_⟩
          rw [getD_append_singleton_left _ _ b hlt]
          exact (hb.1 hb0).2
        · refine ⟨Nat.lt_succ_self _, ?_⟩
          rw [getD_append_singleton_length]
          exact hsp
      · rintro ⟨hlt, hsb⟩
        rcases Nat.lt_succ_iff_lt_or_eq.1 hlt with hlt' | heq
        · rw [getD_append_singleton_left _ _ b hlt'] at hsb
          left
          cases hf : map_find c.stop_to_buses_ s with
          | none =>
            exact absurd hsb ((hkeys s).1 hf _ (bus_mem_storage c b hlt'))
          | some set0 =>
            exact ⟨set0, rfl, ((hold s set0 hf).2 b).2 ⟨hlt', hsb⟩⟩
        · subst heq
          rw [getD_append_singleton_length] at hsb
          exact Or.inr ⟨rfl, hsb⟩

/-- C12: in every catalogue built by `AddStop` / `AddBus` /
`AddDistancesBetweenStops` calls whose lines carry pairwise distinct names, for
every stop `s` the set returned by `GetBusesThatPassStop(s)` holds exactly the
lines whose stop list contains `s`, each once, in strictly ascending order of
line name; when nothing is returned, no line lists `s`. -/
theorem GetBusesThatPassStop_sorted_exact (c : TransportCatalogue) (h : Reachable c)
    (hlines : (c.GetAllBuses.map Bus.name).Nodup) (s : StopPtr) :
    (∀ set, c.GetBusesThatPassStop s = some set →
      set.Pairwise (fun a b => (c.bus a).name < (c.bus b).name) ∧ set.Nodup ∧
      ∀ b, b ∈ set ↔ (b < c.GetAllBuses.length ∧ s ∈ (c.bus b).stops)) ∧
    (c.GetBusesThatPassStop s = none →
      ∀ b, b < c.GetAllBuses.length → s ∉ (c.bus b).stops) := by
  constructor
  · intro set hset
    rw [GetBusesThatPassStop_eq_find] at hset
    obtain ⟨hpw, hmem⟩ := Reachable_index_sets c h hlines s set hset
    refine ⟨hpw, ?_, hmem⟩
    refine List.Pairwise.imp ?_ hpw
    intro a b hab heq
    rw [heq] at hab
    exact lt_irrefl _ hab
  · intro hnone b hb
    rw [GetBusesThatPassStop_eq_find] at hnone
    exact (Reachable_index_keys c h).1 s |>.1 hnone _ (bus_mem_storage c b hb)

/-- Instance of C12 on `lines_M_L`: the stop `B` is served by `L` and `M`; the
set lists `L` (added second, position `1`) before `M` (position `0`). -/
theorem GetBusesThatPassStop_sorted_exact_witness :
    Reachable lines_M_L ∧ (lines_M_L.GetAllBuses.map Bus.name).Nodup ∧
    lines_M_L.GetBusesThatPassStop 1 = some [1, 0] ∧
    [1, 0].Pairwise (fun a b => (lines_M_L.bus a).name < (lines_M_L.bus b).name) ∧
    (lines_M_L.GetBusesThatPassStop 2 = none →
      ∀ b, b < lines_M_L.GetAllBuses.length → 2 ∉ (lines_M_L.bus b).stops) :=
  ⟨Reachable_lines_M_L, by decide,
    by simp [lines_M_L, stops_ABC, TransportCatalogue.empty, AddBus, AddBus_resolve,
      AddBus_register, AddStop, GetStop, map_at, map_find, map_count, map_assign,
      set_insert, BusPointerComparator, TransportCatalogue.bus, GetBusesThatPassStop,
      String.lt_iff_toList_lt],
    ((GetBusesThatPassStop_sorted_exact lines_M_L Reachable_lines_M_L (by decide) 1).1 [1, 0]
      (by simp [lines_M_L, stops_ABC, TransportCatalogue.empty, AddBus, AddBus_resolve,
        AddBus_register, AddStop, GetStop, map_at, map_find, map_count, map_assign,
        set_insert, BusPointerComparator, TransportCatalogue.bus, GetBusesThatPassStop,
        String.lt_iff_toList_lt])).1,
    (GetBusesThatPassStop_sorted_exact lines_M_L Reachable_lines_M_L (by decide) 2).2⟩

/-- Instance of C13 on `lines_M_L`: no line lists the stop `C`, so nothing is
returned for it. -/
theorem GetBusesThatPassStop_none_iff_witness :
    Reachable lines_M_L ∧ (∀ b ∈ lines_M_L.GetAllBuses, 2 ∉ b.stops) ∧
    lines_M_L.GetBusesThatPassStop 2 = none :=
  ⟨Reachable_lines_M_L, by decide,
    (GetBusesThatPassStop_none_iff lines_M_L Reachable_lines_M_L 2).1.2 (by decide)⟩

theorem AddBus_register_names (bus : BusPtr) (S : List Bus) :
    ∀ (stop_names : List String) (stops : List StopPtr) (cur : TransportCatalogue),
      cur.buses_storage_ = S →
      List.Forall₂ (fun n p => map_find cur.stops_ n = some p) stop_names stops →
      (∀ s set, map_find cur.stop_to_buses_ s = some set →
        set.Pairwise (fun a b => (S.getD a default).name < (S.getD b default).name)) →
      (∀ s set, map_find (AddBus_register bus stop_names cur).2.stop_to_buses_ s = some set →
        set.Pairwise (fun a b => (S.getD a default).name < (S.getD b default).name)) ∧
      (∀ s set b, map_find (AddBus_register bus stop_names cur).2.stop_to_buses_ s = some set →
        b ∈ set →
          (∃ set0, map_find cur.stop_to_buses_ s = some set0 ∧ b ∈ set0) ∨
            (b = bus ∧ s ∈ stops)) ∧
      (∀ s set0 b, map_find cur.stop_to_buses_ s = some set0 → b ∈ set0 →
        ∃ set, map_find (AddBus_register bus stop_names cur).2.stop_to_buses_ s = some set ∧
          b ∈ set) ∧
      (∀ s ∈ stops, ∃ set b',
        map_find (AddBus_register bus stop_names cur).2.stop_to_buses_ s = some set ∧
          b' ∈ set ∧ (S.getD b' default).name = (S.getD bus default).name) := by
  intro stop_names
  induction stop_names with
  | nil =>
    intro stops cur _ h hbase
    cases h
    refine ⟨hbase, ?_, ?_, ?_⟩
    · intro s set b hs hb
      exact Or.inl ⟨set, hs, hb⟩
    · intro s set0 b hs hb
      exact ⟨set0, hs, hb⟩
    · intro s hs
      simp at hs
  | cons n rest ih =>
    intro stops cur hS h hbase
    cases h with
    | cons hn hrest =>
      rename_i p ps
      have hg : cur.GetStop n = Except.ok p := by simp [GetStop, map_at, hn]
      have hless : ∀ a b, cur.BusPointerComparator a b = true ↔
          (S.getD a default).name < (S.getD b default).name := by
        intro a b
        simp [BusPointerComparator, TransportCatalogue.bus, hS]
      have hold : (match map_find cur.stop_to_buses_ p with
            | some s => s
            | none => []).Pairwise
              (fun a b => (S.getD a default).name < (S.getD b default).name) := by
        cases hf : map_find cur.stop_to_buses_ p with
        | none => simp
        | some set => exact hbase p set hf
      obtain ⟨hpw, hsub, hsup, b0, hb0, hfb0⟩ :=
        set_insert_names (fun b => (S.getD b default).name)
          cur.BusPointerComparator hless bus _ hold
      unfold AddBus_register
      simp only [hg]
      obtain ⟨h1, h2, h3, h4⟩ := ih ps
        { cur with
          stop_to_buses_ := map_assign cur.stop_to_buses_ p
            (set_insert cur.BusPointerComparator
              (match map_find cur.stop_to_buses_ p with
                | some s => s
                | none => []) bus) } hS hrest
        (by
          intro s set hset
          simp only [] at hset
          by_cases hs : s = p
          · subst hs
            rw [map_find_assign_self] at hset
            simp only [Option.some.injEq] at hset
            subst hset
            exact hpw
          · rw [map_find_assign_ne _ _ _ _ hs] at hset
            exact hbase s set hset)
      simp only [] at h2 h3 h4
      refine ⟨h1, ?_, ?_, ?_⟩
      · intro s set b hs hb
        rcases h2 s set b hs hb with ⟨set0, hs0, hb0'⟩ | ⟨rfl, hsp⟩
        · by_cases hsp : s = p
          · subst hsp
            rw [map_find_assign_self] at hs0
            simp only [Option.some.injEq] at hs0
            subst hs0
            rcases hsub b hb0' with rfl | hin
            · exact Or.inr ⟨rfl, List.mem_cons_self _ _⟩
            · cases hf : map_find cur.stop_to_buses_ s with
              | none => simp [hf] at hin
              | some set1 =>
                simp only [hf] at hin
                exact Or.inl ⟨set1, rfl, hin⟩
          · rw [map_find_assign_ne _ _ _ _ hsp] at hs0
            exact Or.inl ⟨set0, hs0, hb0'⟩
        · exact Or.inr ⟨rfl, List.mem_cons_of_mem _ hsp⟩
      · intro s set0 b hs hb
        by_cases hsp : s = p
        · subst hsp
          apply h3 s _ b (map_find_assign_self _ _ _)
          apply hsup
          simp only [hs]
          exact hb
        · apply h3 s set0 b _ hb
          rw [map_find_assign_ne _ _ _ _ hsp]
          exact hs
      · intro s hs
        rcases List.mem_cons.1 hs with rfl | hs'
        · obtain ⟨set, hset, hin⟩ := h3 s _ b0 (map_find_assign_self _ _ _) hb0
          exact ⟨set, b0, hset, hin, hfb0⟩
        · exact h4 s hs'

theorem Reachable_index_names (c : TransportCatalogue) (h : Reachable c) :
    ∀ s set, map_find c.stop_to_buses_ s = some set →
      set.Pairwise (fun a b => (c.bus a).name < (c.bus b).name) ∧
      (∀ b ∈ set, b < c.buses_storage_.length ∧ s ∈ (c.bus b).stops) ∧
      (∀ b, b < c.buses_storage_.length → s ∈ (c.bus b).stops →
        ∃ b' ∈ set, (c.bus b').name = (c.bus b).name) := by
  induction h with
  | empty =>
    intro s set hs
    simp [TransportCatalogue.empty, map_find] at hs
  | add_stop c name coordinates _ ih => exact ih
  | add_distances c from_ to_ distance _ ih => exact ih
  | add_bus c name stop_names is_circular hreach hok ih =>
    obtain ⟨stops, hr⟩ := AddBus_ok_resolve c name stop_names is_circular hok
    rw [AddBus_eq_register c name stop_names is_circular stops hr]
    obtain ⟨_, _, hst, _, _⟩ := AddBus_register_frame c.buses_storage_.length stop_names
      { c with
        buses_storage_ := c.buses_storage_ ++ [⟨name, stops, is_circular⟩]
        buses_ := map_assign c.buses_ name c.buses_storage_.length }
    simp only [] at hst
    intro s set hset
    have hkeys := (Reachable_index_keys c hreach).1
    obtain ⟨h1, h2, h3, h4⟩ := AddBus_register_names c.buses_storage_.length
      (c.buses_storage_ ++ [⟨name, stops, is_circular⟩]) stop_names stops
      { c with
        buses_storage_ := c.buses_storage_ ++ [⟨name, stops, is_circular⟩]
        buses_ := map_assign c.buses_ name c.buses_storage_.length }
      rfl (AddBus_resolve_forall₂ c stop_names stops hr)
      (by
        intro s' set' hs'
        obtain ⟨hpw, hmem, _⟩ := ih s' set' hs'
        refine List.Pairwise.imp_of_mem ?_ hpw
        intro a b ha hb hab
        rw [getD_append_singleton_left _ _ a (hmem a ha).1,
          getD_append_singleton_left _ _ b (hmem b hb).1]
        exact hab)
    simp only [] at h2 h3 h4
    have hbusR : ∀ b, TransportCatalogue.bus
        (AddBus_register c.buses_storage_.length stop_names
          { c with
            buses_storage_ := c.buses_storage_ ++ [(⟨name, stops, is_circular⟩ : Bus)]
            buses_ := map_assign c.buses_ name c.buses_storage_.length }).2 b
        = (c.buses_storage_ ++ [(⟨name, stops, is_circular⟩ : Bus)]).getD b default := by
      intro b
      simp only [TransportCatalogue.bus, hst]
    simp only [hbusR, hst, List.length_append, List.length_singleton]
    refine ⟨h1 s set hset, ?_, ?_⟩
    · intro b hb
      rcases h2 s set b hset hb with ⟨set0, hs0, hb0⟩ | ⟨rfl, hsp⟩
      · obtain ⟨hlt, hin⟩ := (ih s set0 hs0).2.1 b hb0
        refine ⟨Nat.lt_succ_of_lt hlt, ?_⟩
        rw [getD_append_singleton_left _ _ b hlt]
        exact hin
      · refine ⟨Nat.lt_succ_self _, ?_⟩
        rw [getD_append_singleton_length]
        exact hsp
    · intro b hlt hsb
      rcases Nat.lt_succ_iff_lt_or_eq.1 hlt with hlt' | heq
      · rw [getD_append_singleton_left _ _ b hlt'] at hsb ⊢
        cases hf : map_find c.stop_to_buses_ s with
        | none => exact absurd hsb ((hkeys s).1 hf _ (bus_mem_storage c b hlt'))
        | some set0 =>
          obtain ⟨b', hb', hname⟩ := (ih s set0 hf).2.2 b hlt' hsb
          obtain ⟨set', hs', hin'⟩ := h3 s set0 b' hf hb'
          rw [hset] at hs'
          simp only [Option.some.injEq] at hs'
          subst hs'
          refine ⟨b', hin', ?_⟩
          rw [getD_append_singleton_left _ _ b' ((ih s set0 hf).2.1 b' hb').1]
          exact hname
      · subst heq
        rw [getD_append_singleton_length] at hsb
        obtain ⟨set', b', hs', hin', hname⟩ := h4 s hsb
        rw [hset] at hs'
        simp only [Option.some.injEq] at hs'
        subst hs'
        exact ⟨b', hin', hname⟩

theorem Reachable_stops_index (c : TransportCatalogue) (h : Reachable c) :
    (∀ n, map_find c.stops_ n = none ↔ n ∉ c.stop_storage_.map Stop.name) ∧
    (∀ n p, map_find c.stops_ n = some p →
      p < c.stop_storage_.length ∧ (c.stop p).name = n) := by
  induction h with
  | empty =>
    exact ⟨fun n => by simp [TransportCatalogue.empty, map_find],
      fun n p hp => by simp [TransportCatalogue.empty, map_find] at hp⟩
  | add_stop c name coordinates _ ih =>
    refine ⟨?_, AddStop_name_index c name coordinates ih.2⟩
    intro n
    by_cases hn : n = name
    · subst hn
      simp [AddStop, map_find_assign_self]
    · have e : map_find (c.AddStop name coordinates).stops_ n = map_find c.stops_ n := by
        simp only [AddStop]
        exact map_find_assign_ne _ _ _ _ hn
      rw [e, ih.1 n]
      simp [AddStop, hn]
  | add_distances c from_ to_ distance _ ih => exact ih
  | add_bus c name stop_names is_circular _ hok ih =>
    obtain ⟨stops, hr⟩ := AddBus_ok_resolve c name stop_names is_circular hok
    rw [AddBus_eq_register c name stop_names is_circular stops hr]
    obtain ⟨h1, h2, _, _, _⟩ := AddBus_register_frame c.buses_storage_.length stop_names
      { c with
        buses_storage_ := c.buses_storage_ ++ [⟨name, stops, is_circular⟩]
        buses_ := map_assign c.buses_ name c.buses_storage_.length }
    simp only [] at h1 h2
    simp only [TransportCatalogue.stop, h1, h2]
    exact ih

theorem Reachable_buses_index (c : TransportCatalogue) (h : Reachable c) :
    (∀ n, map_find c.buses_ n = none ↔ n ∉ c.buses_storage_.map Bus.name) ∧
    (∀ n p, map_find c.buses_ n = some p →
      p < c.buses_storage_.length ∧ (c.bus p).name = n) := by
  induction h with
  | empty =>
    exact ⟨fun n => by simp [TransportCatalogue.empty, map_find],
      fun n p hp => by simp [TransportCatalogue.empty, map_find] at hp⟩
  | add_stop c name coordinates _ ih => exact ih
  | add_distances c from_ to_ distance _ ih => exact ih
  | add_bus c name stop_names is_circular _ hok ih =>
    obtain ⟨stops, hr⟩ := AddBus_ok_resolve c name stop_names is_circular hok
    rw [AddBus_eq_register c name stop_names is_circular stops hr]
    obtain ⟨_, _, h3, h4, _⟩ := AddBus_register_frame c.buses_storage_.length stop_names
      { c with
        buses_storage_ := c.buses_storage_ ++ [⟨name, stops, is_circular⟩]
        buses_ := map_assign c.buses_ name c.buses_storage_.length }
    simp only [] at h3 h4
    simp only [TransportCatalogue.bus, h3, h4, List.length_append, List.length_singleton,
      List.map_append, List.map_singleton, List.mem_append, List.mem_singleton]
    constructor
    · intro n
      by_cases hn : n = name
      · subst hn
        simp [map_find_assign_self]
      · rw [map_find_assign_ne _ _ _ _ hn, ih.1 n]
        simp [hn]
    · intro n p hp
      by_cases hn : n = name
      · subst hn
        rw [map_find_assign_self] at hp
        simp only [Option.some.injEq] at hp
        subst hp
        exact ⟨Nat.lt_succ_self _, by rw [getD_append_singleton_length]⟩
      · rw [map_find_assign_ne _ _ _ _ hn] at hp
        obtain ⟨hlt, hname⟩ := ih.2 n p hp
        exact ⟨Nat.lt_succ_of_lt hlt, by
          rw [getD_append_singleton_left _ _ p hlt]; exact hname⟩

end TransportCatalogue

/-! ## Request handler -/

namespace RequestHandler

theorem mem_storage_bus (c : TransportCatalogue) (b : Bus) (hb : b ∈ c.buses_storage_) :
    ∃ i, i < c.buses_storage_.length ∧ c.bus i = b := by
  obtain ⟨i, hi, hib⟩ := List.mem_iff_getElem.1 hb
  refine ⟨i, hi, ?_⟩
  unfold TransportCatalogue.bus
  rw [List.getD_eq_getElem _ _ hi]
  exact hib

theorem serving_names (c : TransportCatalogue) (hreach : Reachable c) (stop : StopPtr) :
    ((match c.GetBusesThatPassStop stop with
      | some set => set.map (fun bus_ptr => (c.bus bus_ptr).name)
      | none => []).Pairwise (fun a b => a < b)) ∧
    (∀ n, n ∈ (match c.GetBusesThatPassStop stop with
        | some set => set.map (fun bus_ptr => (c.bus bus_ptr).name)
        | none => []) ↔
      ∃ b ∈ c.GetAllBuses, b.name = n ∧ stop ∈ b.stops) := by
  rw [TransportCatalogue.GetBusesThatPassStop_eq_find]
  have hkeys := (TransportCatalogue.Reachable_index_keys c hreach).1 stop
  cases hf : map_find c.stop_to_buses_ stop with
  | none =>
    refine ⟨List.Pairwise.nil, ?_⟩
    intro n
    simp only [List.not_mem_nil, false_iff]
    rintro ⟨b, hb, _, hs⟩
    exact (hkeys.1 hf) b hb hs
  | some set =>
    obtain ⟨hpw, hsub, hsup⟩ := TransportCatalogue.Reachable_index_names c hreach stop set hf
    refine ⟨List.pairwise_map.2 hpw, ?_⟩
    intro n
    simp only [List.mem_map]
    constructor
    · rintro ⟨b, hb, rfl⟩
      exact ⟨c.bus b, TransportCatalogue.bus_mem_storage c b (hsub b hb).1, rfl,
        (hsub b hb).2⟩
    · rintro ⟨b, hb, rfl, hs⟩
      obtain ⟨i, hi, rfl⟩ := mem_storage_bus c b hb
      obtain ⟨b', hb', hname⟩ := hsup i hi hs
      exact ⟨b', hb', hname⟩

theorem Builder_dict_buses_ne_error (id : Int) (buses : List json.Node) :
    json.Builder_dict [("request_id", json.Node.int id), ("buses", json.Node.array buses)]
      ≠ json.Builder_dict
        [("request_id", json.Node.int id), ("error_message", json.Node.string "not found")] := by
  simp [json.Builder_dict, map_assign]

/-- C14: the response to a Stop request is the error dictionary
`"error_message": "not found"` exactly when the named stop is not in the
catalogue; for a stop that exists it is the dictionary with the key `buses`,
whose list holds the names of the lines serving the stop in strictly ascending
order, and is the empty list when no line serves the stop. -/
theorem GetResponseToStopRequeset_spec (h : RequestHandler) (hreach : Reachable h.db_)
    (name : String) (id : Int) :
    (h.GetResponseToStopRequeset name id
        = Except.ok (json.Builder_dict
          [("request_id", json.Node.int id),
            ("error_message", json.Node.string "not found")]) ↔
      h.db_.CountStop name = 0) ∧
    (h.db_.CountStop name = 0 ↔ ∀ st ∈ h.db_.GetAllStops, st.name ≠ name) ∧
    (h.db_.CountStop name ≠ 0 →
      ∃ (stop : StopPtr) (names : List String),
        h.db_.GetStop name = Except.ok stop ∧ (h.db_.stop stop).name = name ∧
        h.GetResponseToStopRequeset name id
          = Except.ok (json.Builder_dict
            [("request_id", json.Node.int id),
              ("buses", json.Node.array (names.map json.Node.string))]) ∧
        names.Pairwise (fun a b => a < b) ∧
        (∀ n, n ∈ names ↔ ∃ b ∈ h.db_.GetAllBuses, b.name = n ∧ stop ∈ b.stops) ∧
        ((∀ b ∈ h.db_.GetAllBuses, stop ∉ b.stops) → names = [])) := by
  have hidx := TransportCatalogue.Reachable_stops_index h.db_ hreach
  have hexists : h.db_.CountStop name ≠ 0 →
      ∃ (stop : StopPtr) (names : List String),
        h.db_.GetStop name = Except.ok stop ∧ (h.db_.stop stop).name = name ∧
        h.GetResponseToStopRequeset name id
          = Except.ok (json.Builder_dict
            [("request_id", json.Node.int id),
              ("buses", json.Node.array (names.map json.Node.string))]) ∧
        names.Pairwise (fun a b => a < b) ∧
        (∀ n, n ∈ names ↔ ∃ b ∈ h.db_.GetAllBuses, b.name = n ∧ stop ∈ b.stops) ∧
        ((∀ b ∈ h.db_.GetAllBuses, stop ∉ b.stops) → names = []) := by
    intro hc
    have hpos : map_count h.db_.stops_ name > 0 := Nat.pos_of_ne_zero hc
    obtain ⟨stop, hstop⟩ := (map_count_pos_iff _ _).1 hpos
    have hget : h.db_.GetStop name = Except.ok stop := by
      simp [TransportCatalogue.GetStop, map_at, hstop]
    obtain ⟨hpw, hmem⟩ := serving_names h.db_ hreach stop
    refine ⟨stop, _, hget, (hidx.2 name stop hstop).2, ?_, hpw, hmem, ?_⟩
    · unfold GetResponseToStopRequeset
      rw [if_neg hc]
      simp only [hget]
      cases h.db_.GetBusesThatPassStop stop with
      | none => simp
      | some set => simp [List.map_map, Function.comp_def]
    · intro hnone
      apply List.eq_nil_iff_forall_not_mem.2
      intro n hn
      obtain ⟨b, hb, _, hs⟩ := (hmem n).1 hn
      exact hnone b hb hs
  refine ⟨?_, ?_, hexists⟩
  · constructor
    · intro hresp
      by_contra hc
      obtain ⟨stop, names, _, _, hr, _⟩ := hexists hc
      rw [hr] at hresp
      simp only [Except.ok.injEq] at hresp
      exact Builder_dict_buses_ne_error id _ hresp
    · intro hc
      unfold GetResponseToStopRequeset
      rw [if_pos hc]
  · have e : h.db_.CountStop name = 0 ↔ map_find h.db_.stops_ name = none :=
      map_count_eq_zero_iff _ _
    rw [e, hidx.1 name]
    simp only [TransportCatalogue.GetAllStops, List.mem_map, not_exists, not_and]

/-- Instance of C14 on `lines_M_L`: the name `X` is no stop, so the response is
the error dictionary; the stop `C` exists and is served by no line, so the
response is a `buses` dictionary. -/
theorem GetResponseToStopRequeset_spec_witness :
    Reachable lines_M_L ∧
    (RequestHandler.mk lines_M_L).GetResponseToStopRequeset "X" 7
      = Except.ok (json.Builder_dict
          [("request_id", json.Node.int 7),
            ("error_message", json.Node.string "not found")]) ∧
    (∃ names : List String,
      (RequestHandler.mk lines_M_L).GetResponseToStopRequeset "C" 8
        = Except.ok (json.Builder_dict
          [("request_id", json.Node.int 8),
            ("buses", json.Node.array (names.map json.Node.string))]) ∧
      names = []) := by
  refine ⟨TransportCatalogue.Reachable_lines_M_L,
    (GetResponseToStopRequeset_spec ⟨lines_M_L⟩ TransportCatalogue.Reachable_lines_M_L
      "X" 7).1.2 (by decide), ?_⟩
  obtain ⟨stop, names, hget, _, hresp, _, _, hempty⟩ :=
    (GetResponseToStopRequeset_spec ⟨lines_M_L⟩ TransportCatalogue.Reachable_lines_M_L
      "C" 8).2.2 (by decide)
  have h2 : stop = 2 := by
    have e : lines_M_L.GetStop "C" = Except.ok 2 := by decide
    rw [e] at hget
    simp only [Except.ok.injEq] at hget
    exact hget.symm
  subst h2
  exact ⟨names, hresp, hempty (by decide)⟩

/-- C15: `GetBusStat(name)` returns no value exactly when the catalogue indexes
no line under that name, that is when no stored line carries the name; for an
indexed name it returns the statistics of the line the index resolves the name
to, which carries that name; so a missing line is told apart from every
statistics value. -/
theorem GetBusStat_spec (ComputeDistance : Coordinates → Coordinates → Rat)
    (h : RequestHandler) (hreach : Reachable h.db_) (bus_name : String) :
    (h.GetBusStat ComputeDistance bus_name = Except.ok none ↔ h.db_.CountBus bus_name = 0) ∧
    (h.db_.CountBus bus_name = 0 ↔ ∀ b ∈ h.db_.GetAllBuses, b.name ≠ bus_name) ∧
    (h.db_.CountBus bus_name ≠ 0 →
      ∃ bus : BusPtr, h.db_.GetBus bus_name = Except.ok bus ∧
        bus < h.db_.GetAllBuses.length ∧ (h.db_.bus bus).name = bus_name ∧
        h.GetBusStat ComputeDistance bus_name
          = Except.map some (h.db_.GetBusStatistics ComputeDistance bus)) ∧
    (∀ st, h.GetBusStat ComputeDistance bus_name = Except.ok (some st) →
      h.db_.CountBus bus_name ≠ 0) := by
  have hidx := TransportCatalogue.Reachable_buses_index h.db_ hreach
  have hexists : h.db_.CountBus bus_name ≠ 0 →
      ∃ bus : BusPtr, h.db_.GetBus bus_name = Except.ok bus ∧
        bus < h.db_.GetAllBuses.length ∧ (h.db_.bus bus).name = bus_name ∧
        h.GetBusStat ComputeDistance bus_name
          = Except.map some (h.db_.GetBusStatistics ComputeDistance bus) := by
    intro hc
    have hpos : map_count h.db_.buses_ bus_name > 0 := Nat.pos_of_ne_zero hc
    obtain ⟨bus, hbus⟩ := (map_count_pos_iff _ _).1 hpos
    have hget : h.db_.GetBus bus_name = Except.ok bus := by
      simp [TransportCatalogue.GetBus, map_at, hbus]
    refine ⟨bus, hget, (hidx.2 bus_name bus hbus).1, (hidx.2 bus_name bus hbus).2, ?_⟩
    unfold GetBusStat
    have hpos' : h.db_.CountBus bus_name > 0 := hpos
    rw [if_pos hpos']
    simp only [hget]
    cases h.db_.GetBusStatistics ComputeDistance bus <;> rfl
  have hnone : h.db_.CountBus bus_name = 0 →
      h.GetBusStat ComputeDistance bus_name = Except.ok none := by
    intro hc
    unfold GetBusStat
    rw [if_neg (by omega)]
  refine ⟨⟨?_, hnone⟩, ?_, hexists, ?_⟩
  · intro hres
    by_contra hc
    obtain ⟨bus, _, _, _, hr⟩ := hexists hc
    rw [hr] at hres
    cases hst : h.db_.GetBusStatistics ComputeDistance bus with
    | error f => rw [hst] at hres; cases hres
    | ok st => rw [hst] at hres; cases hres
  · have e : h.db_.CountBus bus_name = 0 ↔ map_find h.db_.buses_ bus_name = none :=
      map_count_eq_zero_iff _ _
    rw [e, hidx.1 bus_name]
    simp only [TransportCatalogue.GetAllBuses, List.mem_map, not_exists, not_and]
  · intro st hst hc
    rw [hnone hc] at hst
    cases hst

/-- Instance of C15 on `lines_M_L`: the name `N` was never added, so no value
is returned; the name `L` resolves to the line at position `1`. -/
theorem GetBusStat_spec_witness :
    Reachable lines_M_L ∧
    (RequestHandler.mk lines_M_L).GetBusStat (fun _ _ => 0) "N" = Except.ok none ∧
    (∃ bus : BusPtr, lines_M_L.GetBus "L" = Except.ok bus ∧ (lines_M_L.bus bus).name = "L") := by
  refine ⟨TransportCatalogue.Reachable_lines_M_L,
    (GetBusStat_spec (fun _ _ => 0) ⟨lines_M_L⟩ TransportCatalogue.Reachable_lines_M_L
      "N").1.2 (by decide), ?_⟩
  obtain ⟨bus, hget, _, hname, _⟩ :=
    (GetBusStat_spec (fun _ _ => 0) ⟨lines_M_L⟩ TransportCatalogue.Reachable_lines_M_L
      "L").2.2.1 (by decide)
  exact ⟨bus, hget, hname⟩

end RequestHandler

end transport_catalogue

/-! ## Routing graph -/

namespace transport_catalogue

section maps

variable {K V : Type} [DecidableEq K]

theorem map_find_append (m₁ m₂ : List (K × V)) (k : K) :
    map_find (m₁ ++ m₂) k =
      match map_find m₁ k with
      | some v => some v
      | none => map_find m₂ k := by
  induction m₁ with
  | nil => simp [map_find]
  | cons e rest ih =>
    obtain ⟨k', v'⟩ := e
    by_cases h : k' = k
    · simp [map_find, h]
    · simp only [List.cons_append, map_find, h, if_false]
      exact ih

theorem map_assign_fresh (m : List (K × V)) (k : K) (v : V) (h : map_find m k = none) :
    map_assign m k v = m ++ [(k, v)] := by
  induction m with
  | nil => rfl
  | cons e rest ih =>
    obtain ⟨k', v'⟩ := e
    by_cases hk : k' = k
    · simp [map_find, hk] at h
    · simp only [map_find, hk, if_false] at h
      simp [map_assign, hk, ih h]

theorem map_insert_fresh (m : List (K × V)) (k : K) (v : V) (h : map_find m k = none) :
    map_insert m k v = m ++ [(k, v)] := by
  simp [map_insert, h]

end maps

theorem map_find_enumFrom {V : Type} (l : List V) (base e : Nat) :
    map_find (l.enumFrom base) e = if base ≤ e then l[e - base]? else none := by
  induction l generalizing base with
  | nil => simp [map_find]
  | cons x rest ih =>
    simp only [List.enumFrom_cons, map_find]
    by_cases h : base = e
    · subst h
      simp
    · rw [if_neg h, ih]
      by_cases h1 : base ≤ e
      · have h2 : base + 1 ≤ e := by omega
        have h3 : e - base = (e - (base + 1)) + 1 := by omega
        rw [if_pos h1, if_pos h2, h3, List.getElem?_cons_succ]
      · have h2 : ¬ base + 1 ≤ e := by omega
        rw [if_neg h1, if_neg h2]

namespace router

namespace TransportRouter

theorem with_rides_nil (r : TransportRouter) : r.with_rides [] = r := by
  cases r with
  | mk c st g v k w b =>
    cases g
    simp [with_rides]

theorem with_rides_append (r : TransportRouter) (l₁ l₂ : List (graph.Edge × BusRideInfo)) :
    (r.with_rides l₁).with_rides l₂ = r.with_rides (l₁ ++ l₂) := by
  simp [with_rides, List.enumFrom_append, Nat.add_comm]

theorem with_rides_fresh (r : TransportRouter) (l : List (graph.Edge × BusRideInfo))
    (hfresh : ∀ e, r.graph_.edges_.length ≤ e → map_find r.bus_edges_ e = none) :
    ∀ e, (r.with_rides l).graph_.edges_.length ≤ e →
      map_find (r.with_rides l).bus_edges_ e = none := by
  intro e he
  simp only [with_rides, List.length_append, List.length_map] at he ⊢
  rw [map_find_append, hfresh e (by omega), map_find_enumFrom]
  simp only []
  rw [if_pos (by omega)]
  apply List.getElem?_eq_none
  simp only [List.length_map]
  omega

theorem spec_ride_weight_self (r : TransportRouter) (route : List StopPtr) (i : Nat) :
    r.spec_ride_weight route i i = 0 := by
  simp [spec_ride_weight]

theorem spec_ride_weight_succ (r : TransportRouter) (route : List StopPtr) (i t : Nat) :
    r.spec_ride_weight route i (i + t + 1)
      = r.spec_ride_weight route i (i + t)
        + r.CalculateTimeBetweenStations (route.getD (i + t) 0) (route.getD (i + t + 1) 0) := by
  unfold spec_ride_weight
  have e1 : i + t + 1 - i = t + 1 := by omega
  have e2 : i + t - i = t := by omega
  rw [e1, e2, List.range'_concat, List.foldl_append]
  simp

theorem getD_mem_of_lt (route : List StopPtr) (k : Nat) (hk : k < route.length) :
    route.getD k 0 ∈ route := by
  rw [List.getD_eq_getElem _ _ hk]
  exact List.getElem_mem hk

theorem ConnectStations_inner_eq (bus_name : String) (route : List StopPtr) (i : Nat) :
    ∀ (d t : Nat) (r : TransportRouter), i + t + 1 + d = route.length →
      (∀ p ∈ route, ∃ ids, map_find r.vertexes_ (r.catalogue_.stop p).name = some ids) →
      (∀ e, r.graph_.edges_.length ≤ e → map_find r.bus_edges_ e = none) →
      ConnectStations_inner bus_name (route.getD i 0) (route.getD (i + t) 0)
          (route.drop (i + t + 1)) (r.spec_ride_weight route i (i + t)) (t : Int) r
        = Except.ok (r.with_rides
            ((List.range' (i + t + 1) d).map (r.spec_ride_edge bus_name route i))) := by
  intro d
  induction d with
  | zero =>
    intro t r hlen _ _
    have hdrop : route.drop (i + t + 1) = [] := List.drop_eq_nil_of_le (by omega)
    rw [hdrop]
    simp [ConnectStations_inner, with_rides_nil]
  | succ d ih =>
    intro t r hlen hv hfresh
    have hlt : i + t + 1 < route.length := by omega
    rw [List.drop_eq_getElem_cons hlt, ← List.getD_eq_getElem route 0 hlt]
    obtain ⟨dep, hdep⟩ := hv _ (getD_mem_of_lt route i (by omega))
    obtain ⟨arr, harr⟩ := hv _ (getD_mem_of_lt route (i + t + 1) hlt)
    have hnew : ({ r with
          graph_ := (r.graph_.AddEdge
            { from_ := dep.out, to_ := arr.in_,
              weight := r.spec_ride_weight route i (i + t)
                + r.CalculateTimeBetweenStations (route.getD (i + t) 0)
                    (route.getD (i + t + 1) 0) }).2
          bus_edges_ := map_assign r.bus_edges_
            (r.graph_.AddEdge
              { from_ := dep.out, to_ := arr.in_,
                weight := r.spec_ride_weight route i (i + t)
                  + r.CalculateTimeBetweenStations (route.getD (i + t) 0)
                      (route.getD (i + t + 1) 0) }).1
            { bus_name := bus_name, span_count := (t : Int) + 1,
              time := r.spec_ride_weight route i (i + t)
                + r.CalculateTimeBetweenStations (route.getD (i + t) 0)
                    (route.getD (i + t + 1) 0) } } : TransportRouter)
        = r.with_rides [r.spec_ride_edge bus_name route i (i + t + 1)] := by
      have e1 : i + t + 1 - i = t + 1 := by omega
      simp only [graph.DirectedWeightedGraph.AddEdge, with_rides, spec_ride_edge,
        spec_ride_weight_succ, in_of, out_of, vertexes_entry, hdep, harr, e1,
        map_assign_fresh _ _ _ (hfresh _ (le_refl _)), List.map_cons, List.map_nil,
        List.enumFrom_cons, List.enumFrom_nil]
      push_cast
      rfl
    unfold ConnectStations_inner
    simp only [map_at, hdep, harr]
    rw [hnew]
    have hih := ih (t + 1) (r.with_rides [r.spec_ride_edge bus_name route i (i + t + 1)])
      (by omega) hv (with_rides_fresh r _ hfresh)
    have hw : (r.with_rides [r.spec_ride_edge bus_name route i (i + t + 1)]).spec_ride_weight
        route i (i + (t + 1))
        = r.spec_ride_weight route i (i + t)
          + r.CalculateTimeBetweenStations (route.getD (i + t) 0)
              (route.getD (i + t + 1) 0) := by
      rw [← spec_ride_weight_succ]
      rfl
    have hspan : (((t + 1 : Nat) : Int)) = (t : Int) + 1 := by push_cast; rfl
    rw [hw, hspan] at hih
    have hidx : i + (t + 1) = i + t + 1 := by omega
    rw [hidx] at hih
    rw [hih, with_rides_append, List.range'_succ]
    rfl

theorem ConnectStations_drop_eq (bus_name : String) (route : List StopPtr) :
    ∀ (d i : Nat) (r : TransportRouter), i + 1 + d = route.length →
      (∀ p ∈ route, ∃ ids, map_find r.vertexes_ (r.catalogue_.stop p).name = some ids) →
      (∀ e, r.graph_.edges_.length ≤ e → map_find r.bus_edges_ e = none) →
      ConnectStations (route.drop i) bus_name r
        = Except.ok (r.with_rides
            ((List.range' i d).flatMap (fun i' =>
              (List.range' (i' + 1) (route.length - 1 - i')).map
                (r.spec_ride_edge bus_name route i')))) := by
  intro d
  induction d with
  | zero =>
    intro i r hlen _ _
    have hlt : i < route.length := by omega
    have hdrop : route.drop (i + 1) = [] := List.drop_eq_nil_of_le (by omega)
    rw [List.drop_eq_getElem_cons hlt, hdrop]
    simp [ConnectStations, with_rides_nil]
  | succ d ih =>
    intro i r hlen hv hfresh
    have hlt : i < route.length := by omega
    have hlt1 : i + 1 < route.length := by omega
    have hdrop1 : route.drop (i + 1) = route[i + 1] :: route.drop (i + 2) :=
      List.drop_eq_getElem_cons hlt1
    have hinner := ConnectStations_inner_eq bus_name route i (route.length - 1 - i) 0 r
      (by omega) hv hfresh
    simp only [Nat.add_zero, spec_ride_weight_self, Nat.cast_zero] at hinner
    rw [List.drop_eq_getElem_cons hlt, hdrop1]
    unfold ConnectStations
    rw [← hdrop1, ← List.getD_eq_getElem route 0 hlt, hinner]
    simp only []
    rw [ih (i + 1)
      (r.with_rides ((List.range' (i + 1) (route.length - 1 - i)).map
        (r.spec_ride_edge bus_name route i)))
      (by omega) hv (with_rides_fresh r _ hfresh), with_rides_append,
      List.range'_succ, List.flatMap_cons]
    rfl

theorem ConnectStations_eq (bus_name : String) (route : List StopPtr) (r : TransportRouter)
    (hne : route ≠ [])
    (hv : ∀ p ∈ route, ∃ ids, map_find r.vertexes_ (r.catalogue_.stop p).name = some ids)
    (hfresh : ∀ e, r.graph_.edges_.length ≤ e → map_find r.bus_edges_ e = none) :
    ConnectStations route bus_name r
      = Except.ok (r.with_rides (r.spec_rides_of_route bus_name route)) := by
  have hpos : 0 < route.length := List.length_pos.2 hne
  have h := ConnectStations_drop_eq bus_name route (route.length - 1) 0 r (by omega) hv hfresh
  rw [List.drop_zero] at h
  rw [h, spec_rides_of_route, List.range_eq_range']

theorem CreateBusEdges_loop_eq :
    ∀ (buses : List Bus) (r : TransportRouter),
      (∀ b ∈ buses, b.stops ≠ []) →
      (∀ b ∈ buses, ∀ p ∈ b.stops,
        ∃ ids, map_find r.vertexes_ (r.catalogue_.stop p).name = some ids) →
      (∀ e, r.graph_.edges_.length ≤ e → map_find r.bus_edges_ e = none) →
      CreateBusEdges_loop buses r
        = Except.ok (r.with_rides (buses.flatMap r.spec_rides_of_bus)) := by
  intro buses
  induction buses with
  | nil =>
    intro r _ _ _
    simp [CreateBusEdges_loop, with_rides_nil]
  | cons bus rest ih =>
    intro r hne hv hfresh
    have hne0 := hne bus (List.mem_cons_self _ _)
    have hv0 := hv bus (List.mem_cons_self _ _)
    have hnerest : ∀ b ∈ rest, b.stops ≠ [] := fun b hb => hne b (List.mem_cons_of_mem _ hb)
    have hvrest : ∀ (r' : TransportRouter), r'.vertexes_ = r.vertexes_ →
        r'.catalogue_ = r.catalogue_ → ∀ b ∈ rest, ∀ p ∈ b.stops,
          ∃ ids, map_find r'.vertexes_ (r'.catalogue_.stop p).name = some ids := by
      intro r' h1 h2 b hb p hp
      rw [h1, h2]
      exact hv b (List.mem_cons_of_mem _ hb) p hp
    unfold CreateBusEdges_loop
    rw [ConnectStations_eq bus.name bus.stops r hne0 hv0 hfresh]
    simp only []
    by_cases hc : bus.is_circular
    · rw [if_pos hc, ih (r.with_rides (r.spec_rides_of_route bus.name bus.stops)) hnerest
          (hvrest _ rfl rfl) (with_rides_fresh r _ hfresh),
        with_rides_append, List.flatMap_cons]
      simp only [spec_rides_of_bus, hc, if_true, List.append_nil]
      rfl
    · rw [if_neg hc]
      have hne1 : bus.stops.reverse ≠ [] := by
        intro h
        exact hne0 (List.reverse_eq_nil_iff.1 h)
      have hv1 : ∀ p ∈ bus.stops.reverse, ∃ ids,
          map_find (r.with_rides (r.spec_rides_of_route bus.name bus.stops)).vertexes_
            ((r.with_rides (r.spec_rides_of_route bus.name bus.stops)).catalogue_.stop p).name
              = some ids := by
        intro p hp
        exact hv0 p (List.mem_reverse.1 hp)
      rw [ConnectStations_eq bus.name bus.stops.reverse _ hne1 hv1
        (with_rides_fresh r _ hfresh)]
      simp only []
      rw [with_rides_append,
        ih (r.with_rides (r.spec_rides_of_route bus.name bus.stops ++
            (r.with_rides (r.spec_rides_of_route bus.name bus.stops)).spec_rides_of_route
              bus.name bus.stops.reverse)) hnerest
          (hvrest _ rfl rfl) (with_rides_fresh r _ hfresh),
        with_rides_append, List.flatMap_cons]
      simp only [spec_rides_of_bus, hc, Bool.false_eq_true, if_false]
      rfl

theorem with_waits_nil (r : TransportRouter) : r.with_waits [] = r := by
  cases r with
  | mk c st g v k w b =>
    cases g
    simp [with_waits]

theorem with_waits_append (r : TransportRouter) (l₁ l₂ : List (graph.Edge × WaitInfo)) :
    (r.with_waits l₁).with_waits l₂ = r.with_waits (l₁ ++ l₂) := by
  simp [with_waits, List.enumFrom_append, Nat.add_comm]

theorem with_waits_fresh (r : TransportRouter) (l : List (graph.Edge × WaitInfo))
    (hfresh : ∀ e, r.graph_.edges_.length ≤ e → map_find r.wait_edges_ e = none) :
    ∀ e, (r.with_waits l).graph_.edges_.length ≤ e →
      map_find (r.with_waits l).wait_edges_ e = none := by
  intro e he
  simp only [with_waits, List.length_append, List.length_map] at he ⊢
  rw [map_find_append, hfresh e (by omega), map_find_enumFrom]
  simp only []
  rw [if_pos (by omega)]
  apply List.getElem?_eq_none
  simp only [List.length_map]
  omega

theorem CreateWaitEdges_eq :
    ∀ (stops : List Stop) (r : TransportRouter),
      (∀ st ∈ stops, ∃ ids, map_find r.vertexes_ st.name = some ids) →
      (∀ e, r.graph_.edges_.length ≤ e → map_find r.wait_edges_ e = none) →
      CreateWaitEdges stops r = Except.ok (r.with_waits (stops.map r.spec_wait_edge)) := by
  intro stops
  induction stops with
  | nil =>
    intro r _ _
    simp [CreateWaitEdges, with_waits_nil]
  | cons stop rest ih =>
    intro r hv hfresh
    obtain ⟨ids, hids⟩ := hv stop (List.mem_cons_self _ _)
    have hnew : ({ r with
          graph_ := (r.graph_.AddEdge
            { from_ := ids.in_, to_ := ids.out, weight := (r.settings_.wait_time : Rat) }).2
          wait_edges_ := map_insert r.wait_edges_
            (r.graph_.AddEdge
              { from_ := ids.in_, to_ := ids.out,
                weight := (r.settings_.wait_time : Rat) }).1
            { stop_name := stop.name, time := (r.settings_.wait_time : Rat) } }
          : TransportRouter)
        = r.with_waits [r.spec_wait_edge stop] := by
      simp only [graph.DirectedWeightedGraph.AddEdge, with_waits, spec_wait_edge,
        vertexes_entry, hids, map_insert_fresh _ _ _ (hfresh _ (le_refl _)), List.map_cons,
        List.map_nil, List.enumFrom_cons, List.enumFrom_nil]
    unfold CreateWaitEdges
    simp only [map_at, hids]
    rw [hnew, ih (r.with_waits [r.spec_wait_edge stop])
      (fun st hst => hv st (List.mem_cons_of_mem _ hst)) (with_waits_fresh r _ hfresh),
      with_waits_append]
    rfl

/-- The state after one iteration of the loop of `CreateVertexes`. -/
theorem CreateVertexes_loop_cons (stop : Stop) (rest : List Stop) (r : TransportRouter) :
    CreateVertexes_loop (stop :: rest) r
      = CreateVertexes_loop rest
          { r with
            vertexes_counter_ := r.vertexes_counter_ + 2
            vertexes_ := map_assign
              (map_assign r.vertexes_ stop.name
                { r.vertexes_entry stop.name with in_ := r.vertexes_counter_ })
              stop.name { in_ := r.vertexes_counter_, out := r.vertexes_counter_ + 1 } } := by
  simp [CreateVertexes_loop, GenereateNewVertexId, vertexes_entry, map_find_assign_self]

theorem CreateVertexes_loop_frame :
    ∀ (stops : List Stop) (r : TransportRouter),
      (CreateVertexes_loop stops r).catalogue_ = r.catalogue_ ∧
      (CreateVertexes_loop stops r).settings_ = r.settings_ ∧
      (CreateVertexes_loop stops r).graph_ = r.graph_ ∧
      (CreateVertexes_loop stops r).wait_edges_ = r.wait_edges_ ∧
      (CreateVertexes_loop stops r).bus_edges_ = r.bus_edges_ ∧
      (CreateVertexes_loop stops r).vertexes_counter_
        = r.vertexes_counter_ + 2 * stops.length := by
  intro stops
  induction stops with
  | nil => intro r; exact ⟨rfl, rfl, rfl, rfl, rfl, rfl⟩
  | cons stop rest ih =>
    intro r
    rw [CreateVertexes_loop_cons]
    obtain ⟨h1, h2, h3, h4, h5, h6⟩ := ih
      { r with
        vertexes_counter_ := r.vertexes_counter_ + 2
        vertexes_ := map_assign
          (map_assign r.vertexes_ stop.name
            { r.vertexes_entry stop.name with in_ := r.vertexes_counter_ })
          stop.name { in_ := r.vertexes_counter_, out := r.vertexes_counter_ + 1 } }
    refine ⟨h1, h2, h3, h4, h5, ?_⟩
    rw [h6]
    simp only [List.length_cons]
    ring

theorem CreateVertexes_loop_keys :
    ∀ (stops : List Stop) (r : TransportRouter),
      (∀ nm ids, map_find r.vertexes_ nm = some ids →
        ∃ ids', map_find (CreateVertexes_loop stops r).vertexes_ nm = some ids') ∧
      (∀ st ∈ stops, ∃ ids, map_find (CreateVertexes_loop stops r).vertexes_ st.name
        = some ids) := by
  intro stops
  induction stops with
  | nil =>
    intro r
    exact ⟨fun nm ids h => ⟨ids, h⟩, fun st hst => by simp at hst⟩
  | cons stop rest ih =>
    intro r
    rw [CreateVertexes_loop_cons]
    obtain ⟨h1, h2⟩ := ih
      { r with
        vertexes_counter_ := r.vertexes_counter_ + 2
        vertexes_ := map_assign
          (map_assign r.vertexes_ stop.name
            { r.vertexes_entry stop.name with in_ := r.vertexes_counter_ })
          stop.name { in_ := r.vertexes_counter_, out := r.vertexes_counter_ + 1 } }
    constructor
    · intro nm ids hnm
      by_cases hn : nm = stop.name
      · subst hn
        exact h1 _ _ (map_find_assign_self _ _ _)
      · apply h1 nm ids
        simp only []
        rw [map_find_assign_ne _ _ _ _ hn, map_find_assign_ne _ _ _ _ hn]
        exact hnm
    · intro st hst
      rcases List.mem_cons.1 hst with rfl | hst'
      · exact h1 _ _ (map_find_assign_self _ _ _)
      · exact h2 st hst'

theorem CreateVertexes_loop_values :
    ∀ (stops : List Stop) (r : TransportRouter), (stops.map Stop.name).Nodup →
      (∀ k, k < stops.length →
        map_find (CreateVertexes_loop stops r).vertexes_ (stops.getD k default).name
          = some { in_ := r.vertexes_counter_ + 2 * k,
                   out := r.vertexes_counter_ + 2 * k + 1 }) ∧
      (∀ nm, nm ∉ stops.map Stop.name →
        map_find (CreateVertexes_loop stops r).vertexes_ nm = map_find r.vertexes_ nm) := by
  intro stops
  induction stops with
  | nil =>
    intro r _
    exact ⟨fun k hk => by simp at hk, fun nm _ => rfl⟩
  | cons stop rest ih =>
    intro r hnodup
    rw [List.map_cons, List.nodup_cons] at hnodup
    rw [CreateVertexes_loop_cons]
    obtain ⟨h1, h2⟩ := ih
      { r with
        vertexes_counter_ := r.vertexes_counter_ + 2
        vertexes_ := map_assign
          (map_assign r.vertexes_ stop.name
            { r.vertexes_entry stop.name with in_ := r.vertexes_counter_ })
          stop.name { in_ := r.vertexes_counter_, out := r.vertexes_counter_ + 1 } }
      hnodup.2
    simp only [] at h1 h2
    constructor
    · intro k hk
      cases k with
      | zero =>
        simp only [List.getD_cons_zero]
        rw [h2 _ hnodup.1, map_find_assign_self]
        simp
      | succ k =>
        simp only [List.getD_cons_succ]
        rw [h1 k (by simpa using hk)]
        have e1 : r.vertexes_counter_ + 2 + 2 * k = r.vertexes_counter_ + 2 * (k + 1) := by
          ring
        rw [e1]
    · intro nm hnm
      rw [List.map_cons, List.mem_cons, not_or] at hnm
      rw [h2 nm hnm.2, map_find_assign_ne _ _ _ _ hnm.1, map_find_assign_ne _ _ _ _ hnm.1]

theorem construct_vertexes_fields (c : TransportCatalogue) (s : RoutingSettings) :
    (construct_vertexes c s).catalogue_ = c ∧
    (construct_vertexes c s).settings_ = s ∧
    (construct_vertexes c s).graph_ = ⟨2 * c.GetAllStops.length, []⟩ ∧
    (construct_vertexes c s).wait_edges_ = [] ∧
    (construct_vertexes c s).bus_edges_ = [] ∧
    (construct_vertexes c s).vertexes_counter_ = 2 * c.GetAllStops.length := by
  obtain ⟨h1, h2, _, h4, h5, h6⟩ := CreateVertexes_loop_frame c.GetAllStops
    { catalogue_ := c, settings_ := s, graph_ := ⟨0, []⟩, vertexes_ := [],
      vertexes_counter_ := 0, wait_edges_ := [], bus_edges_ := [] }
  simp only [Nat.zero_add] at h6
  refine ⟨h1, h2, ?_, h4, h5, h6⟩
  simp only [construct_vertexes, CreateVertexes, h6]

theorem construct_vertexes_keys (c : TransportCatalogue) (s : RoutingSettings) :
    ∀ st ∈ c.GetAllStops, ∃ ids, map_find (construct_vertexes c s).vertexes_ st.name
      = some ids :=
  (CreateVertexes_loop_keys c.GetAllStops
    { catalogue_ := c, settings_ := s, graph_ := ⟨0, []⟩, vertexes_ := [],
      vertexes_counter_ := 0, wait_edges_ := [], bus_edges_ := [] }).2

theorem stop_mem_storage (c : TransportCatalogue) (p : StopPtr)
    (hp : p < c.stop_storage_.length) : c.stop p ∈ c.stop_storage_ := by
  unfold TransportCatalogue.stop
  rw [List.getD_eq_getElem _ _ hp]
  exact List.getElem_mem hp

theorem construct_eq (c : TransportCatalogue) (s : RoutingSettings)
    (hne : ∀ b ∈ c.GetAllBuses, b.stops ≠ [])
    (hvalid : ∀ b ∈ c.GetAllBuses, ∀ p ∈ b.stops, p < c.GetAllStops.length) :
    construct c s
      = Except.ok
        (((construct_vertexes c s).with_waits
            (c.GetAllStops.map (construct_vertexes c s).spec_wait_edge)).with_rides
          (c.GetAllBuses.flatMap (construct_vertexes c s).spec_rides_of_bus)) := by
  obtain ⟨hc, _, hg, hw, hb, _⟩ := construct_vertexes_fields c s
  have hkeys := construct_vertexes_keys c s
  have e : construct c s = (construct_vertexes c s).CreateEdges c := rfl
  rw [e]
  unfold CreateEdges
  rw [CreateWaitEdges_eq c.GetAllStops (construct_vertexes c s) hkeys
    (fun e _ => by rw [hw]; rfl)]
  simp only []
  unfold CreateBusEdges
  rw [CreateBusEdges_loop_eq c.GetAllBuses _ hne]
  · rfl
  · intro b hb' p hp
    have hmem : c.stop p ∈ c.GetAllStops := stop_mem_storage c p (hvalid b hb' p hp)
    have h1 : ((construct_vertexes c s).with_waits
        (c.GetAllStops.map (construct_vertexes c s).spec_wait_edge)).catalogue_ = c := hc
    rw [h1]
    exact hkeys _ hmem
  · intro e _
    have h1 : ((construct_vertexes c s).with_waits
        (c.GetAllStops.map (construct_vertexes c s).spec_wait_edge)).bus_edges_ = [] := hb
    rw [h1]
    rfl

end TransportRouter

end router

namespace TransportCatalogue

theorem Reachable_stops_valid (c : TransportCatalogue) (h : Reachable c) :
    ∀ b ∈ c.GetAllBuses, ∀ p ∈ b.stops, p < c.GetAllStops.length := by
  induction h with
  | empty =>
    intro b hb
    simp [TransportCatalogue.empty, GetAllBuses] at hb
  | add_stop c name coordinates _ ih =>
    intro b hb p hp
    have := ih b hb p hp
    simp only [GetAllStops, AddStop, List.length_append, List.length_singleton] at this ⊢
    exact Nat.lt_succ_of_lt this
  | add_distances c from_ to_ distance _ ih => exact ih
  | add_bus c name stop_names is_circular hreach hok ih =>
    obtain ⟨stops, hr⟩ := AddBus_ok_resolve c name stop_names is_circular hok
    rw [AddBus_eq_register c name stop_names is_circular stops hr]
    obtain ⟨_, h2, h3, _, _⟩ := AddBus_register_frame c.buses_storage_.length stop_names
      { c with
        buses_storage_ := c.buses_storage_ ++ [⟨name, stops, is_circular⟩]
        buses_ := map_assign c.buses_ name c.buses_storage_.length }
    simp only [] at h2 h3
    simp only [GetAllBuses, GetAllStops, h2, h3, List.mem_append, List.mem_singleton]
    intro b hb p hp
    rcases hb with hb | rfl
    · exact ih b hb p hp
    · obtain ⟨n, _, hn⟩ := AddBus_resolve_mem c stop_names stops hr p hp
      exact ((Reachable_stops_index c hreach).2 n p hn).1

end TransportCatalogue

namespace router

namespace TransportRouter

theorem construct_vertexes_values (c : TransportCatalogue) (s : RoutingSettings)
    (hnames : (c.GetAllStops.map Stop.name).Nodup) :
    (∀ k, k < c.GetAllStops.length →
      map_find (construct_vertexes c s).vertexes_ (c.GetAllStops.getD k default).name
        = some { in_ := 2 * k, out := 2 * k + 1 }) ∧
    (∀ nm, nm ∉ c.GetAllStops.map Stop.name →
      map_find (construct_vertexes c s).vertexes_ nm = none) := by
  obtain ⟨h1, h2⟩ := CreateVertexes_loop_values c.GetAllStops
    { catalogue_ := c, settings_ := s, graph_ := ⟨0, []⟩, vertexes_ := [],
      vertexes_counter_ := 0, wait_edges_ := [], bus_edges_ := [] } hnames
  simp only [Nat.zero_add] at h1
  exact ⟨h1, h2⟩

theorem construct_fields (c : TransportCatalogue) (s : RoutingSettings)
    (hne : ∀ b ∈ c.GetAllBuses, b.stops ≠ [])
    (hvalid : ∀ b ∈ c.GetAllBuses, ∀ p ∈ b.stops, p < c.GetAllStops.length) :
    ∃ r, construct c s = Except.ok r ∧
      r.catalogue_ = c ∧ r.settings_ = s ∧
      r.vertexes_ = (construct_vertexes c s).vertexes_ ∧
      r.vertexes_counter_ = 2 * c.GetAllStops.length ∧
      r.graph_.vertex_count = 2 * c.GetAllStops.length ∧
      r.graph_.edges_ = (c.GetAllStops.map r.spec_wait_edge).map Prod.fst
        ++ (c.GetAllBuses.flatMap r.spec_rides_of_bus).map Prod.fst ∧
      r.wait_edges_ = ((c.GetAllStops.map r.spec_wait_edge).map Prod.snd).enumFrom 0 ∧
      r.bus_edges_ = ((c.GetAllBuses.flatMap r.spec_rides_of_bus).map Prod.snd).enumFrom
        c.GetAllStops.length := by
  obtain ⟨hc, hs, hg, hw, hb, hk⟩ := construct_vertexes_fields c s
  refine ⟨_, construct_eq c s hne hvalid, hc, hs, rfl, hk, ?_, ?_, ?_, ?_⟩
  · simp only [with_rides, with_waits, hg]
  · simp only [with_rides, with_waits, hg, List.nil_append]
    rfl
  · simp only [with_rides, with_waits, hw, hg, List.nil_append, List.length_nil]
    rfl
  · simp only [with_rides, with_waits, hb, hg, List.nil_append, List.length_map]
    rfl

theorem GetRouteInfo_items_eq (r : TransportRouter) :
    ∀ path : List graph.EdgeId,
      GetRouteInfo_items r path =
        if ∀ e ∈ path, map_count r.bus_edges_ e > 0 ∨ map_count r.wait_edges_ e > 0
        then Except.ok (path.map r.spec_route_item)
        else Except.error Fault.assertion := by
  intro path
  induction path with
  | nil => simp [GetRouteInfo_items]
  | cons e rest ih =>
    unfold GetRouteInfo_items
    rw [ih]
    by_cases hb : map_count r.bus_edges_ e > 0
    · obtain ⟨info, hinfo⟩ := (map_count_pos_iff _ _).1 hb
      rw [if_pos hb]
      simp only [map_at, hinfo]
      by_cases hall : ∀ e' ∈ rest, map_count r.bus_edges_ e' > 0 ∨ map_count r.wait_edges_ e' > 0
      · have hall' : ∀ e' ∈ e :: rest,
            map_count r.bus_edges_ e' > 0 ∨ map_count r.wait_edges_ e' > 0 := by
          intro e' he'
          rcases List.mem_cons.1 he' with rfl | h
          · exact Or.inl hb
          · exact hall e' h
        simp only [if_pos hall, if_pos hall', List.map_cons, spec_route_item, hinfo]
      · have hall' : ¬ ∀ e' ∈ e :: rest,
            map_count r.bus_edges_ e' > 0 ∨ map_count r.wait_edges_ e' > 0 := by
          intro h
          exact hall (fun e' he' => h e' (List.mem_cons_of_mem _ he'))
        simp only [if_neg hall, if_neg hall']
    · rw [if_neg hb]
      have hbnone : map_find r.bus_edges_ e = none := by
        cases hf : map_find r.bus_edges_ e with
        | none => rfl
        | some v => exact absurd ((map_count_pos_iff _ _).2 ⟨v, hf⟩) hb
      by_cases hw : map_count r.wait_edges_ e > 0
      · obtain ⟨info, hinfo⟩ := (map_count_pos_iff _ _).1 hw
        rw [if_pos hw]
        simp only [map_at, hinfo]
        by_cases hall : ∀ e' ∈ rest,
            map_count r.bus_edges_ e' > 0 ∨ map_count r.wait_edges_ e' > 0
        · have hall' : ∀ e' ∈ e :: rest,
              map_count r.bus_edges_ e' > 0 ∨ map_count r.wait_edges_ e' > 0 := by
            intro e' he'
            rcases List.mem_cons.1 he' with rfl | h
            · exact Or.inr hw
            · exact hall e' h
          simp only [if_pos hall, if_pos hall', List.map_cons, spec_route_item, hbnone,
            hinfo]
        · have hall' : ¬ ∀ e' ∈ e :: rest,
              map_count r.bus_edges_ e' > 0 ∨ map_count r.wait_edges_ e' > 0 := by
            intro h
            exact hall (fun e' he' => h e' (List.mem_cons_of_mem _ he'))
          simp only [if_neg hall, if_neg hall']
      · rw [if_neg hw]
        have hall' : ¬ ∀ e' ∈ e :: rest,
            map_count r.bus_edges_ e' > 0 ∨ map_count r.wait_edges_ e' > 0 := by
          intro h
          rcases h e (List.mem_cons_self _ _) with h | h
          · exact hb h
          · exact hw h
        rw [if_neg hall']

theorem range_flatMap_pairs (g : Nat → List Nat) (n : Nat)
    (hg : ∀ k, k < n → g k = [2 * k, 2 * k + 1]) :
    ∀ m, m ≤ n → (List.range m).flatMap g = List.range (2 * m) := by
  intro m
  induction m with
  | zero => intro _; rfl
  | succ m ih =>
    intro hm
    have e : 2 * (m + 1) = (2 * m + 1) + 1 := by omega
    rw [List.range_succ, List.flatMap_append, ih (by omega), List.flatMap_singleton,
      hg m (by omega), e, List.range_succ, List.range_succ]
    simp

/-- C16: for a catalogue with `n` stops of pairwise distinct names, the
construction allocates for the `k`-th stop the arrival vertex `2k` and the
departure vertex `2k + 1` and for no other name; the identifiers, listed stop
by stop, are exactly `0, 1, ..., 2n - 1`, hence pairwise distinct; the counter
ends at `2n` and the graph is created with `2n` vertices, which is also what
the finished router holds. -/
theorem construct_vertex_ids (c : TransportCatalogue) (s : RoutingSettings)
    (hnames : (c.GetAllStops.map Stop.name).Nodup) :
    (construct_vertexes c s).vertexes_counter_ = 2 * c.GetAllStops.length ∧
    (construct_vertexes c s).graph_.vertex_count = 2 * c.GetAllStops.length ∧
    (∀ k, k < c.GetAllStops.length →
      map_find (construct_vertexes c s).vertexes_ (c.GetAllStops.getD k default).name
        = some { in_ := 2 * k, out := 2 * k + 1 }) ∧
    (∀ nm, nm ∉ c.GetAllStops.map Stop.name →
      map_find (construct_vertexes c s).vertexes_ nm = none) ∧
    (List.range c.GetAllStops.length).flatMap (fun k =>
        [((construct_vertexes c s).vertexes_entry (c.GetAllStops.getD k default).name).in_,
         ((construct_vertexes c s).vertexes_entry (c.GetAllStops.getD k default).name).out])
      = List.range (2 * c.GetAllStops.length) ∧
    ((∀ b ∈ c.GetAllBuses, b.stops ≠ []) →
      (∀ b ∈ c.GetAllBuses, ∀ p ∈ b.stops, p < c.GetAllStops.length) →
      ∃ r, construct c s = Except.ok r ∧
        r.vertexes_ = (construct_vertexes c s).vertexes_ ∧
        r.vertexes_counter_ = 2 * c.GetAllStops.length ∧
        r.graph_.vertex_count = 2 * c.GetAllStops.length) := by
  obtain ⟨_, _, hg, _, _, hk⟩ := construct_vertexes_fields c s
  obtain ⟨hval, hnone⟩ := construct_vertexes_values c s hnames
  refine ⟨hk, by rw [hg], hval, hnone, ?_, ?_⟩
  · apply range_flatMap_pairs _ c.GetAllStops.length _ _ (le_refl _)
    intro k hk'
    simp only [vertexes_entry, hval k hk']
  · intro hne hvalid
    obtain ⟨r, hr, _, _, hv, hcount, hvc, _⟩ := construct_fields c s hne hvalid
    exact ⟨r, hr, hv, hcount, hvc⟩

/-- Instance of C16 on `line_ABC` (stops `A`, `B`, `C`): six vertices, the stop
`B` at position `1` gets the vertices `2` and `3`. -/
theorem construct_vertex_ids_witness :
    (line_ABC.GetAllStops.map Stop.name).Nodup ∧
    (construct_vertexes line_ABC settings_6_60).graph_.vertex_count = 6 ∧
    map_find (construct_vertexes line_ABC settings_6_60).vertexes_ "B"
      = some { in_ := 2, out := 3 } :=
  ⟨by decide,
    ((construct_vertex_ids line_ABC settings_6_60 (by decide)).2.1).trans (by decide),
    (construct_vertex_ids line_ABC settings_6_60 (by decide)).2.2.1 1 (by decide)⟩

theorem getElem?_getD_stop (stops : List Stop) (k : Nat) (hk : k < stops.length) :
    stops[k]? = some (stops.getD k default) := by
  simp [List.getD_eq_getElem?_getD, List.getElem?_eq_getElem hk]

/-- C17: for a catalogue with pairwise distinct stop names (whose lines are
non-empty and list stored stops), the constructed graph holds for the `k`-th
stop the edge number `k`, from the stop's arrival vertex `2k` to its departure
vertex `2k + 1`, with the wait time as weight, tagged as a wait step with the
stop's name and the wait time; the wait tags are exactly those of the edges
`0, ..., n - 1`, one per stop. -/
theorem construct_wait_edges (c : TransportCatalogue) (s : RoutingSettings)
    (hnames : (c.GetAllStops.map Stop.name).Nodup)
    (hne : ∀ b ∈ c.GetAllBuses, b.stops ≠ [])
    (hvalid : ∀ b ∈ c.GetAllBuses, ∀ p ∈ b.stops, p < c.GetAllStops.length) :
    ∃ r, construct c s = Except.ok r ∧
      (∀ k, k < c.GetAllStops.length →
        map_find r.vertexes_ (c.GetAllStops.getD k default).name
          = some { in_ := 2 * k, out := 2 * k + 1 } ∧
        r.graph_.edges_[k]?
          = some { from_ := 2 * k, to_ := 2 * k + 1, weight := (s.wait_time : Rat) } ∧
        map_find r.wait_edges_ k
          = some { stop_name := (c.GetAllStops.getD k default).name,
                   time := (s.wait_time : Rat) }) ∧
      (∀ e, (∃ info, map_find r.wait_edges_ e = some info) ↔ e < c.GetAllStops.length) ∧
      (∀ e, c.GetAllStops.length ≤ e → map_count r.wait_edges_ e = 0) := by
  obtain ⟨r, hr, _, hs, hv, _, _, hE, hW, _⟩ := construct_fields c s hne hvalid
  obtain ⟨hval, _⟩ := construct_vertexes_values c s hnames
  have hfind : ∀ e, map_find r.wait_edges_ e
      = ((c.GetAllStops.map r.spec_wait_edge).map Prod.snd)[e]? := by
    intro e
    rw [hW, map_find_enumFrom]
    simp
  refine ⟨r, hr, ?_, ?_, ?_⟩
  · intro k hk
    have hvk := hval k hk
    rw [← hv] at hvk
    refine ⟨hvk, ?_, ?_⟩
    · rw [hE, List.getElem?_append_left (by simpa using hk)]
      simp only [List.getElem?_map, getElem?_getD_stop _ k hk, Option.map_some',
        spec_wait_edge, vertexes_entry, hvk, hs]
    · rw [hfind]
      simp only [List.getElem?_map, getElem?_getD_stop _ k hk, Option.map_some',
        spec_wait_edge, hs]
  · intro e
    rw [hfind]
    constructor
    · rintro ⟨info, hinfo⟩
      have := (List.getElem?_eq_some.1 hinfo).1
      simpa using this
    · intro he
      exact ⟨_, List.getElem?_eq_getElem (by simpa using he)⟩
  · intro e he
    rw [map_count_eq_zero_iff, hfind]
    apply List.getElem?_eq_none
    simpa using he

/-- Instance of C17 on `line_ABC` with a wait time of `6`: a router is
constructed, and its edge `1` is tagged as the wait at the stop at position
`1`. -/
theorem construct_wait_edges_witness :
    (line_ABC.GetAllStops.map Stop.name).Nodup ∧
    (∀ b ∈ line_ABC.GetAllBuses, b.stops ≠ []) ∧
    (∀ b ∈ line_ABC.GetAllBuses, ∀ p ∈ b.stops, p < line_ABC.GetAllStops.length) ∧
    ∃ r, construct line_ABC settings_6_60 = Except.ok r ∧
      map_find r.wait_edges_ 1
        = some { stop_name := (line_ABC.GetAllStops.getD 1 default).name,
                 time := (settings_6_60.wait_time : Rat) } := by
  refine ⟨by decide, by decide, by decide, ?_⟩
  obtain ⟨r, hr, h, _⟩ :=
    construct_wait_edges line_ABC settings_6_60 (by decide) (by decide) (by decide)
  exact ⟨r, hr, (h 1 (by decide)).2.2⟩

theorem foldl_add_eq_sum (f : Nat → Rat) (l : List Nat) (a : Rat) :
    l.foldl (fun w k => w + f k) a = a + (l.map f).sum := by
  induction l generalizing a with
  | nil => simp
  | cons x rest ih =>
    simp only [List.foldl_cons, List.map_cons, List.sum_cons]
    rw [ih]
    ring

theorem spec_ride_edge_mem (r : TransportRouter) (bus_name : String) (route : List StopPtr)
    (i j : Nat) (hij : i < j) (hj : j < route.length) :
    r.spec_ride_edge bus_name route i j ∈ r.spec_rides_of_route bus_name route := by
  unfold spec_rides_of_route
  rw [List.mem_flatMap]
  refine ⟨i, List.mem_range.2 (by omega), ?_⟩
  rw [List.mem_map]
  refine ⟨j, ?_, rfl⟩
  rw [List.mem_range'_1]
  omega

/-- C18: the ride edges of the constructed graph are, after the `n` wait edges
and in order of creation, line by line: one edge for every pair of indices
`i < j` of the line's stop sequence, from the departure vertex of `s_i` to the
arrival vertex of `s_j`, its weight the sum over `k = i, ..., j - 1` of
`60 * GetDistanceBetweenStops(s_k, s_(k+1)) / (1000 * velocity)`, tagged with
the line's name, `span_count = j - i` and that weight; followed, when the line
is not circular, by the same for the reversed stop sequence; and no ride tag
exists for any other edge. -/
theorem construct_ride_edges (c : TransportCatalogue) (s : RoutingSettings)
    (hne : ∀ b ∈ c.GetAllBuses, b.stops ≠ [])
    (hvalid : ∀ b ∈ c.GetAllBuses, ∀ p ∈ b.stops, p < c.GetAllStops.length) :
    ∃ r, construct c s = Except.ok r ∧
      r.graph_.edges_.drop c.GetAllStops.length
        = (c.GetAllBuses.flatMap r.spec_rides_of_bus).map Prod.fst ∧
      (∀ t, map_find r.bus_edges_ (c.GetAllStops.length + t)
        = ((c.GetAllBuses.flatMap r.spec_rides_of_bus).map Prod.snd)[t]?) ∧
      (∀ e, e < c.GetAllStops.length → map_find r.bus_edges_ e = none) ∧
      (∀ bus ∈ c.GetAllBuses, ∀ i j, i < j → j < bus.stops.length →
        r.spec_ride_edge bus.name bus.stops i j ∈ c.GetAllBuses.flatMap r.spec_rides_of_bus ∧
        (bus.is_circular = false →
          r.spec_ride_edge bus.name bus.stops.reverse i j
            ∈ c.GetAllBuses.flatMap r.spec_rides_of_bus)) ∧
      (∀ (route : List StopPtr) (i j : Nat),
        r.spec_ride_weight route i j
          = ((List.range' i (j - i)).map (fun k =>
              60 * ((c.GetDistanceBetweenStops (route.getD k 0) (route.getD (k + 1) 0) : Int)
                : Rat) / (1000 * s.velocity))).sum) := by
  obtain ⟨r, hr, hc, hs, _, _, _, hE, _, hB⟩ := construct_fields c s hne hvalid
  refine ⟨r, hr, ?_, ?_, ?_, ?_, ?_⟩
  · rw [hE]
    apply List.drop_left'
    simp
  · intro t
    rw [hB, map_find_enumFrom, if_pos (Nat.le_add_right _ _), Nat.add_sub_cancel_left]
  · intro e he
    rw [hB, map_find_enumFrom, if_neg (by omega)]
  · intro bus hbus i j hij hj
    constructor
    · rw [List.mem_flatMap]
      refine ⟨bus, hbus, ?_⟩
      unfold spec_rides_of_bus
      exact List.mem_append_left _ (spec_ride_edge_mem r bus.name bus.stops i j hij hj)
    · intro hcirc
      rw [List.mem_flatMap]
      refine ⟨bus, hbus, ?_⟩
      unfold spec_rides_of_bus
      rw [hcirc]
      exact List.mem_append_right _
        (spec_ride_edge_mem r bus.name bus.stops.reverse i j hij (by simpa using hj))
  · intro route i j
    unfold spec_ride_weight
    rw [foldl_add_eq_sum]
    simp only [CalculateTimeBetweenStations, hc, hs, zero_add]

/-- Instance of C18 on `line_ABC` (line `[A, B, C]`, not circular): a router is
constructed and the ride edge for boarding at index `0` and alighting at index
`2` is among its ride edges. -/
theorem construct_ride_edges_witness :
    (∀ b ∈ line_ABC.GetAllBuses, b.stops ≠ []) ∧
    (∀ b ∈ line_ABC.GetAllBuses, ∀ p ∈ b.stops, p < line_ABC.GetAllStops.length) ∧
    ∃ r, construct line_ABC settings_6_60 = Except.ok r ∧
      r.spec_ride_edge "L" [0, 1, 2] 0 2 ∈ line_ABC.GetAllBuses.flatMap r.spec_rides_of_bus := by
  refine ⟨by decide, by decide, ?_⟩
  obtain ⟨r, hr, _, _, _, h, _⟩ :=
    construct_ride_edges line_ABC settings_6_60 (by decide) (by decide)
  exact ⟨r, hr, (h ⟨"L", [0, 1, 2], false⟩ (by decide) 0 2 (by decide) (by decide)).1⟩

/-- C19: after construction every edge identifier of the graph carries exactly
one tag, a wait tag or a ride tag; hence for every path of edge identifiers of
the graph the loop of `GetRouteInfo` yields one step per edge, and
`GetRouteInfo` does not end in the assertion for any solver whose paths
consist of edges of the graph. -/
theorem construct_tags_partition (c : TransportCatalogue) (s : RoutingSettings)
    (hne : ∀ b ∈ c.GetAllBuses, b.stops ≠ [])
    (hvalid : ∀ b ∈ c.GetAllBuses, ∀ p ∈ b.stops, p < c.GetAllStops.length) :
    ∃ r, construct c s = Except.ok r ∧
      (∀ e, e < r.graph_.edges_.length →
        (map_count r.wait_edges_ e > 0 ∧ map_count r.bus_edges_ e = 0) ∨
        (map_count r.wait_edges_ e = 0 ∧ map_count r.bus_edges_ e > 0)) ∧
      (∀ path : List graph.EdgeId, (∀ e ∈ path, e < r.graph_.edges_.length) →
        GetRouteInfo_items r path = Except.ok (path.map r.spec_route_item)) ∧
      (∀ (BuildRoute : graph.DirectedWeightedGraph → graph.VertexId → graph.VertexId →
          Option graph.RouteInfo) (stop_from stop_to : StopPtr),
        (∀ a b info, BuildRoute r.graph_ a b = some info →
          ∀ e ∈ info.edges, e < r.graph_.edges_.length) →
        GetRouteInfo BuildRoute r stop_from stop_to ≠ Except.error Fault.assertion) := by
  obtain ⟨r, hr, _, _, _, _, _, hE, hW, hB⟩ := construct_fields c s hne hvalid
  have hlen : r.graph_.edges_.length
      = c.GetAllStops.length + (c.GetAllBuses.flatMap r.spec_rides_of_bus).length := by
    rw [hE]
    simp
  have hwait : ∀ e, map_find r.wait_edges_ e
      = ((c.GetAllStops.map r.spec_wait_edge).map Prod.snd)[e]? := by
    intro e
    rw [hW, map_find_enumFrom]
    simp
  have hpart : ∀ e, e < r.graph_.edges_.length →
      (map_count r.wait_edges_ e > 0 ∧ map_count r.bus_edges_ e = 0) ∨
      (map_count r.wait_edges_ e = 0 ∧ map_count r.bus_edges_ e > 0) := by
    intro e he
    by_cases h : e < c.GetAllStops.length
    · left
      constructor
      · rw [gt_iff_lt, ← gt_iff_lt, map_count_pos_iff, hwait]
        exact ⟨_, List.getElem?_eq_getElem (by simpa using h)⟩
      · rw [map_count_eq_zero_iff, hB, map_find_enumFrom, if_neg (by omega)]
    · right
      constructor
      · rw [map_count_eq_zero_iff, hwait]
        apply List.getElem?_eq_none
        simp only [List.length_map]
        omega
      · rw [gt_iff_lt, ← gt_iff_lt, map_count_pos_iff, hB, map_find_enumFrom,
          if_pos (by omega)]
        exact ⟨_, List.getElem?_eq_getElem (by simp only [List.length_map]; omega)⟩
  have hitems : ∀ path : List graph.EdgeId, (∀ e ∈ path, e < r.graph_.edges_.length) →
      GetRouteInfo_items r path = Except.ok (path.map r.spec_route_item) := by
    intro path hpath
    rw [GetRouteInfo_items_eq, if_pos]
    intro e he
    rcases hpart e (hpath e he) with h | h
    · exact Or.inr h.1
    · exact Or.inl h.2
  refine ⟨r, hr, hpart, hitems, ?_⟩
  intro BuildRoute stop_from stop_to hsolver hfault
  unfold GetRouteInfo at hfault
  split at hfault
  · next f hf =>
    simp only [map_at] at hf
    split at hf
    · cases hf
    · simp only [Except.error.injEq] at hf hfault
      rw [← hf] at hfault
      cases hfault
  · split at hfault
    · next f hf =>
      simp only [map_at] at hf
      split at hf
      · cases hf
      · simp only [Except.error.injEq] at hf hfault
        rw [← hf] at hfault
        cases hfault
    · split at hfault
      · cases hfault
      · next info hinfo =>
        rw [hitems info.edges (hsolver _ _ info hinfo)] at hfault
        cases hfault

/-- Instance of C19 on `line_ABC`: a router is constructed, and the path of the
edges `0` (a wait edge) and `3` (a ride edge) yields two steps. -/
theorem construct_tags_partition_witness :
    (∀ b ∈ line_ABC.GetAllBuses, b.stops ≠ []) ∧
    (∀ b ∈ line_ABC.GetAllBuses, ∀ p ∈ b.stops, p < line_ABC.GetAllStops.length) ∧
    ∃ r, construct line_ABC settings_6_60 = Except.ok r ∧
      (∀ path : List graph.EdgeId, (∀ e ∈ path, e < r.graph_.edges_.length) →
        GetRouteInfo_items r path = Except.ok (path.map r.spec_route_item)) := by
  refine ⟨by decide, by decide, ?_⟩
  obtain ⟨r, hr, _, h, _⟩ :=
    construct_tags_partition line_ABC settings_6_60 (by decide) (by decide)
  exact ⟨r, hr, h⟩

/-- C20: `GetRouteInfo(from, to)` asks the solver for a route between the
arrival vertices of the two stops; it reports no route exactly when the solver
finds no path; otherwise, the edges of the path being tagged, it returns the
weight reported by the solver and one itinerary step per edge of the path, in
path order, each the tag recorded for that edge; and whatever it returns for a
path is of that form. -/
theorem GetRouteInfo_spec
    (BuildRoute : graph.DirectedWeightedGraph → graph.VertexId → graph.VertexId →
      Option graph.RouteInfo)
    (r : TransportRouter) (stop_from stop_to : StopPtr) (from_ids to_ids : VertexIds)
    (hfrom : map_find r.vertexes_ (r.catalogue_.stop stop_from).name = some from_ids)
    (hto : map_find r.vertexes_ (r.catalogue_.stop stop_to).name = some to_ids) :
    (GetRouteInfo BuildRoute r stop_from stop_to = Except.ok none ↔
      BuildRoute r.graph_ from_ids.in_ to_ids.in_ = none) ∧
    (∀ info, BuildRoute r.graph_ from_ids.in_ to_ids.in_ = some info →
      (∀ e ∈ info.edges, map_count r.bus_edges_ e > 0 ∨ map_count r.wait_edges_ e > 0) →
      GetRouteInfo BuildRoute r stop_from stop_to
        = Except.ok (some (info.weight, info.edges.map r.spec_route_item))) ∧
    (∀ info total items, BuildRoute r.graph_ from_ids.in_ to_ids.in_ = some info →
      GetRouteInfo BuildRoute r stop_from stop_to = Except.ok (some (total, items)) →
      total = info.weight ∧ items = info.edges.map r.spec_route_item ∧
      items.length = info.edges.length) := by
  have hunfold : GetRouteInfo BuildRoute r stop_from stop_to
      = match BuildRoute r.graph_ from_ids.in_ to_ids.in_ with
        | none => Except.ok none
        | some route_info =>
          match GetRouteInfo_items r route_info.edges with
          | Except.error f => Except.error f
          | Except.ok items => Except.ok (some (route_info.weight, items)) := by
    unfold GetRouteInfo
    simp only [map_at, hfrom, hto]
  refine ⟨?_, ?_, ?_⟩
  · rw [hunfold]
    cases hb : BuildRoute r.graph_ from_ids.in_ to_ids.in_ with
    | none => simp
    | some info =>
      simp only []
      cases GetRouteInfo_items r info.edges <;> simp
  · intro info hinfo htag
    rw [hunfold, hinfo]
    simp only []
    rw [GetRouteInfo_items_eq, if_pos htag]
  · intro info total items hinfo hres
    rw [hunfold, hinfo] at hres
    simp only [] at hres
    rw [GetRouteInfo_items_eq] at hres
    by_cases htag : ∀ e ∈ info.edges,
        map_count r.bus_edges_ e > 0 ∨ map_count r.wait_edges_ e > 0
    · rw [if_pos htag] at hres
      simp only [Except.ok.injEq, Option.some.injEq, Prod.mk.injEq] at hres
      obtain ⟨h1, h2⟩ := hres
      subst h1; subst h2
      exact ⟨rfl, rfl, by simp⟩
    · rw [if_neg htag] at hres
      cases hres

/-- Instance of C20 on `router_line_ABC` with the solver stand-in
`solver_A_to_B`: from `A` to `B` the path `[0, 3]` of weight `7` is returned as
two steps; from `A` to `C` no route is reported. -/
theorem GetRouteInfo_spec_witness :
    map_find router_line_ABC.vertexes_ (router_line_ABC.catalogue_.stop 0).name
      = some { in_ := 0, out := 1 } ∧
    map_find router_line_ABC.vertexes_ (router_line_ABC.catalogue_.stop 1).name
      = some { in_ := 2, out := 3 } ∧
    GetRouteInfo solver_A_to_B router_line_ABC 0 1
      = Except.ok (some (7, [0, 3].map router_line_ABC.spec_route_item)) ∧
    GetRouteInfo solver_A_to_B router_line_ABC 0 2 = Except.ok none :=
  ⟨by decide, by decide,
    (GetRouteInfo_spec solver_A_to_B router_line_ABC 0 1 ⟨0, 1⟩ ⟨2, 3⟩ (by decide)
      (by decide)).2.1 ⟨7, [0, 3]⟩ (by decide) (by decide),
    (GetRouteInfo_spec solver_A_to_B router_line_ABC 0 2 ⟨0, 1⟩ ⟨4, 5⟩ (by decide)
      (by decide)).1.2 (by decide)⟩

end TransportRouter

end router

end transport_catalogue

/-! ## The unknown marker and the there-and-back road length -/

namespace transport_catalogue

section maps

variable {K V : Type} [DecidableEq K]

theorem mem_map_assign (m : List (K × V)) (k : K) (v : V) (e : K × V)
    (h : e ∈ map_assign m k v) : e ∈ m ∨ e = (k, v) := by
  induction m with
  | nil =>
    simp only [map_assign, List.mem_singleton] at h
    exact Or.inr h
  | cons x rest ih =>
    obtain ⟨k', v'⟩ := x
    simp only [map_assign] at h
    by_cases hk : k' = k
    · rw [if_pos hk] at h
      rcases List.mem_cons.1 h with h | h
      · right
        rw [h, hk]
      · exact Or.inl (List.mem_cons_of_mem _ h)
    · rw [if_neg hk] at h
      rcases List.mem_cons.1 h with h | h
      · left
        rw [h]
        exact List.mem_cons_self _ _
      · rcases ih h with h | h
        · exact Or.inl (List.mem_cons_of_mem _ h)
        · exact Or.inr h

end maps

namespace TransportCatalogue

theorem GetDistanceBetweenStops_stored (c : TransportCatalogue) (a b : StopPtr)
    (h : c.GetDistanceBetweenStops a b ≠ -1) :
    ((a, b), c.GetDistanceBetweenStops a b) ∈ c.distances_between_stops_ ∨
    ((b, a), c.GetDistanceBetweenStops a b) ∈ c.distances_between_stops_ := by
  unfold GetDistanceBetweenStops at h ⊢
  cases h1 : map_find c.distances_between_stops_ (a, b) with
  | some d => exact Or.inl (map_find_mem _ _ _ h1)
  | none =>
    cases h2 : map_find c.distances_between_stops_ (b, a) with
    | some d => exact Or.inr (map_find_mem _ _ _ h2)
    | none => simp [h1, h2] at h

/-- C29: in a catalogue whose recorded distances are all non-negative,
`GetDistanceBetweenStops(a, b)` is `-1` exactly when neither `(a, b)` nor
`(b, a)` is recorded; so it is `-1` exactly when `GetDistanceBetweenStops(b, a)`
is; a result other than `-1` is a value recorded for `(a, b)` or for `(b, a)`
and is non-negative; and recording a further non-negative distance keeps all
recorded distances non-negative. -/
theorem GetDistanceBetweenStops_unknown_marker (c : TransportCatalogue)
    (hnonneg : ∀ e ∈ c.distances_between_stops_, 0 ≤ e.2) (a b : StopPtr) :
    (c.GetDistanceBetweenStops a b = -1 ↔
      (c.ContainsDistanceBetweenStops a b = false ∧
        c.ContainsDistanceBetweenStops b a = false)) ∧
    (c.GetDistanceBetweenStops a b = -1 ↔ c.GetDistanceBetweenStops b a = -1) ∧
    (c.GetDistanceBetweenStops a b ≠ -1 →
      0 ≤ c.GetDistanceBetweenStops a b ∧
      (((a, b), c.GetDistanceBetweenStops a b) ∈ c.distances_between_stops_ ∨
        ((b, a), c.GetDistanceBetweenStops a b) ∈ c.distances_between_stops_)) ∧
    (∀ (x y : StopPtr) (d : Int), 0 ≤ d →
      ∀ e ∈ (c.AddDistancesBetweenStops x y d).distances_between_stops_, 0 ≤ e.2) := by
  have hno : ∀ e ∈ c.distances_between_stops_, e.2 ≠ -1 := by
    intro e he h
    have := hnonneg e he
    omega
  have h1 := GetDistanceBetweenStops_unknown_iff c hno a b
  have h2 := GetDistanceBetweenStops_unknown_iff c hno b a
  refine ⟨h1, ?_, ?_, ?_⟩
  · rw [h1, h2]
    exact ⟨fun h => ⟨h.2, h.1⟩, fun h => ⟨h.2, h.1⟩⟩
  · intro hk
    have hs := GetDistanceBetweenStops_stored c a b hk
    refine ⟨?_, hs⟩
    rcases hs with hs | hs
    · exact hnonneg _ hs
    · exact hnonneg _ hs
  · intro x y d hd e he
    rcases mem_map_assign _ _ _ _ he with h | h
    · exact hnonneg e h
    · rw [h]
      exact hd

/-- Instance of C29 on `chain_ABC` (`A → B = 5`, `B → C = 7`): the lookups
`A → C` and `C → A` are both unknown, the lookup `B → A` is the recorded `5`. -/
theorem GetDistanceBetweenStops_unknown_marker_witness :
    (∀ e ∈ chain_ABC.distances_between_stops_, 0 ≤ e.2) ∧
    chain_ABC.GetDistanceBetweenStops 0 2 = -1 ∧
    chain_ABC.GetDistanceBetweenStops 2 0 = -1 ∧
    0 ≤ chain_ABC.GetDistanceBetweenStops 1 0 :=
  ⟨by decide, by decide,
    ((GetDistanceBetweenStops_unknown_marker chain_ABC (by decide) 0 2).2.1).1 (by decide),
    ((GetDistanceBetweenStops_unknown_marker chain_ABC (by decide) 1 0).2.2.1 (by decide)).1⟩

theorem GetDistanceBetweenStops_symmetric (c : TransportCatalogue) (a b : StopPtr)
    (h : (c.ContainsDistanceBetweenStops a b = false ∨
        c.ContainsDistanceBetweenStops b a = false) ∨
      map_find c.distances_between_stops_ (a, b)
        = map_find c.distances_between_stops_ (b, a)) :
    c.GetDistanceBetweenStops b a = c.GetDistanceBetweenStops a b := by
  unfold ContainsDistanceBetweenStops map_count at h
  unfold GetDistanceBetweenStops
  cases h1 : map_find c.distances_between_stops_ (a, b) with
  | some d =>
    cases h2 : map_find c.distances_between_stops_ (b, a) with
    | some d' => simp [h1, h2] at h ⊢; exact h.symm
    | none => simp
  | none =>
    cases h2 : map_find c.distances_between_stops_ (b, a) with
    | some d' => simp
    | none => simp

/-- C28, as the code has it: for a non-circular line with `n ≥ 1` listed
stops, each the stop registered under its own name, whose forward lookups
between consecutive stops are all known, `route_distance_measured` is the forward sum of
`GetDistanceBetweenStops(s_i, s_(i+1))` plus the backward sum of
`GetDistanceBetweenStops(s_(i+1), s_i)`; it is twice the forward sum when, for
every consecutive pair, at most one direction is recorded or both directions
are recorded with the same value. -/
theorem route_distance_measured_there_and_back
    (ComputeDistance : Coordinates → Coordinates → Rat) (c : TransportCatalogue) (bus : BusPtr)
    (hres : ∀ p ∈ (c.bus bus).stops, c.GetStop (c.stop p).name = Except.ok p)
    (hline : (c.bus bus).is_circular = false)
    (hn : 1 ≤ (c.bus bus).stops.length)
    (hknown : ∀ i, i < (c.bus bus).stops.length - 1 →
      c.GetDistanceBetweenStops ((c.bus bus).stops.getD i 0)
        ((c.bus bus).stops.getD (i + 1) 0) ≠ -1) :
    ∃ st, c.GetBusStatistics ComputeDistance bus = Except.ok st ∧
      st.route_distance_measured
        = Finset.sum (Finset.range ((c.bus bus).stops.length - 1)) (fun i =>
            c.GetDistanceBetweenStops ((c.bus bus).stops.getD i 0)
              ((c.bus bus).stops.getD (i + 1) 0))
          + Finset.sum (Finset.range ((c.bus bus).stops.length - 1)) (fun i =>
            c.GetDistanceBetweenStops ((c.bus bus).stops.getD (i + 1) 0)
              ((c.bus bus).stops.getD i 0)) ∧
      ((∀ i, i < (c.bus bus).stops.length - 1 →
          (c.ContainsDistanceBetweenStops ((c.bus bus).stops.getD i 0)
              ((c.bus bus).stops.getD (i + 1) 0) = false ∨
            c.ContainsDistanceBetweenStops ((c.bus bus).stops.getD (i + 1) 0)
              ((c.bus bus).stops.getD i 0) = false) ∨
          map_find c.distances_between_stops_
              ((c.bus bus).stops.getD i 0, (c.bus bus).stops.getD (i + 1) 0)
            = map_find c.distances_between_stops_
              ((c.bus bus).stops.getD (i + 1) 0, (c.bus bus).stops.getD i 0)) →
        st.route_distance_measured
          = 2 * Finset.sum (Finset.range ((c.bus bus).stops.length - 1)) (fun i =>
              c.GetDistanceBetweenStops ((c.bus bus).stops.getD i 0)
                ((c.bus bus).stops.getD (i + 1) 0))) := by
  have e := CalculateRouteDistanceUsingActualMeasurements_eq c bus hres
  rw [if_pos hknown] at e
  simp only [hline, Bool.false_eq_true, if_false] at e
  obtain ⟨st, hst, _, _, hm⟩ := GetBusStatistics_of_measured ComputeDistance c bus _ hn e
  refine ⟨st, hst, hm, ?_⟩
  intro hsym
  rw [hm]
  have hsum : Finset.sum (Finset.range ((c.bus bus).stops.length - 1)) (fun i =>
        c.GetDistanceBetweenStops ((c.bus bus).stops.getD (i + 1) 0)
          ((c.bus bus).stops.getD i 0))
      = Finset.sum (Finset.range ((c.bus bus).stops.length - 1)) (fun i =>
        c.GetDistanceBetweenStops ((c.bus bus).stops.getD i 0)
          ((c.bus bus).stops.getD (i + 1) 0)) :=
    Finset.sum_congr rfl (fun i hi =>
      GetDistanceBetweenStops_symmetric c _ _ (hsym i (Finset.mem_range.1 hi)))
  rw [hsum]
  ring

/-- Instance of C28 on `line_ABC` (`A → B = 5`, `B → C = 7`, no reverse
distance recorded, line `[A, B, C]` not circular): the road length is
`(5 + 7) + (5 + 7)`. -/
theorem route_distance_measured_there_and_back_witness :
    (∀ p ∈ (line_ABC.bus 0).stops, line_ABC.GetStop (line_ABC.stop p).name = Except.ok p) ∧
    (line_ABC.bus 0).is_circular = false ∧
    1 ≤ (line_ABC.bus 0).stops.length ∧
    (∀ i, i < (line_ABC.bus 0).stops.length - 1 →
      line_ABC.GetDistanceBetweenStops ((line_ABC.bus 0).stops.getD i 0)
        ((line_ABC.bus 0).stops.getD (i + 1) 0) ≠ -1) ∧
    ∃ st, line_ABC.GetBusStatistics (fun _ _ => 0) 0 = Except.ok st ∧
      st.route_distance_measured = 24 := by
  refine ⟨by decide, by decide, by decide, by decide, ?_⟩
  obtain ⟨st, hst, hm, _⟩ :=
    route_distance_measured_there_and_back (fun _ _ => 0) line_ABC 0 (by decide) (by decide)
      (by decide) (by decide)
  exact ⟨st, hst, hm.trans (by decide)⟩

end TransportCatalogue

end transport_catalogue

namespace transport_catalogue

namespace TransportCatalogue

/-- In a catalogue built by the public members in which no stop name was added
twice, every stored stop is the stop registered under its own name. -/
theorem Reachable_stops_resolve (c : TransportCatalogue) (h : Reachable c)
    (hnames : (c.GetAllStops.map Stop.name).Nodup) (p : StopPtr)
    (hp : p < c.GetAllStops.length) :
    c.GetStop (c.stop p).name = Except.ok p := by
  obtain ⟨h1, h2⟩ := Reachable_stops_index c h
  have hmem : (c.stop p).name ∈ c.stop_storage_.map Stop.name :=
    List.mem_map.2 ⟨c.stop p, router.TransportRouter.stop_mem_storage c p hp, rfl⟩
  cases hf : map_find c.stops_ (c.stop p).name with
  | none => exact absurd hmem ((h1 _).1 hf)
  | some q =>
    obtain ⟨hq, hname⟩ := h2 _ q hf
    have hq' : q < (c.GetAllStops.map Stop.name).length := by
      simpa [GetAllStops] using hq
    have hp' : p < (c.GetAllStops.map Stop.name).length := by
      simpa [GetAllStops] using hp
    have e : (c.GetAllStops.map Stop.name).get ⟨q, hq'⟩
        = (c.GetAllStops.map Stop.name).get ⟨p, hp'⟩ := by
      simp only [List.get_eq_getElem, List.getElem_map]
      have e1 : c.stop q = c.GetAllStops[q] := by
        unfold TransportCatalogue.stop GetAllStops
        exact List.getD_eq_getElem _ _ hq
      have e2 : c.stop p = c.GetAllStops[p] := by
        unfold TransportCatalogue.stop GetAllStops
        exact List.getD_eq_getElem _ _ hp
      rw [← e1, ← e2, hname]
    have := (List.Nodup.get_inj_iff hnames).1 e
    simp only [Fin.mk.injEq] at this
    simp only [GetStop, map_at, hf, this]

end TransportCatalogue

end transport_catalogue

/-! ## Counting the edges -/

namespace transport_catalogue

namespace router

namespace TransportRouter

theorem sum_range_descending (k : Nat) :
    ((List.range k).map (fun i => k - i)).sum * 2 = k * (k + 1) := by
  induction k with
  | zero => simp
  | succ k ih =>
    rw [List.range_succ_eq_map, List.map_cons, List.map_map, List.sum_cons]
    have e : ((fun i => k + 1 - i) ∘ Nat.succ) = (fun i => k - i) := by
      funext i
      simp only [Function.comp, Nat.succ_eq_add_one]
      omega
    rw [e, Nat.add_mul, ih]
    simp only [Nat.sub_zero]
    ring

theorem spec_rides_of_route_length (r : TransportRouter) (bus_name : String)
    (route : List StopPtr) :
    (r.spec_rides_of_route bus_name route).length = route.length * (route.length - 1) / 2 := by
  unfold spec_rides_of_route
  rw [List.length_flatMap]
  have e : (List.map (List.length ∘ fun i => List.map (r.spec_ride_edge bus_name route i)
        (List.range' (i + 1) (route.length - 1 - i))) (List.range (route.length - 1)))
      = (List.range (route.length - 1)).map (fun i => route.length - 1 - i) := by
    apply List.map_congr_left
    intro i _
    simp
  rw [e]
  have h := sum_range_descending (route.length - 1)
  cases hlen : route.length with
  | zero => simp
  | succ m =>
    rw [hlen] at h
    simp only [Nat.add_sub_cancel] at h ⊢
    have : (m + 1) * m = ((List.range m).map (fun i => m - i)).sum * 2 := by
      rw [h]; ring
    rw [this, Nat.mul_div_cancel _ (by decide : 0 < 2)]

theorem spec_rides_of_bus_length (r : TransportRouter) (bus : Bus) :
    (r.spec_rides_of_bus bus).length
      = if bus.is_circular then bus.stops.length * (bus.stops.length - 1) / 2
        else bus.stops.length * (bus.stops.length - 1) := by
  unfold spec_rides_of_bus
  rw [List.length_append, spec_rides_of_route_length]
  by_cases hc : bus.is_circular
  · simp [hc]
  · simp only [hc, Bool.false_eq_true, if_false, spec_rides_of_route_length,
      List.length_reverse]
    have h2 : 2 ∣ bus.stops.length * (bus.stops.length - 1) := by
      cases hlen : bus.stops.length with
      | zero => simp
      | succ m =>
        simp only [Nat.add_sub_cancel]
        rw [Nat.mul_comm]
        exact Nat.even_mul_succ_self m |>.two_dvd
    omega

/-- C26: in the constructed graph the ride edges come line by line after the
`n` wait edges; a line with `m` listed stops contributes `m (m - 1) / 2` of them
when it is circular and `m (m - 1)` when it is not; so the graph has `n` plus
the sum of these contributions edges, of which `n` are tagged as waits and the
others as rides. -/
theorem construct_edge_count (c : TransportCatalogue) (s : RoutingSettings)
    (hne : ∀ b ∈ c.GetAllBuses, b.stops ≠ [])
    (hvalid : ∀ b ∈ c.GetAllBuses, ∀ p ∈ b.stops, p < c.GetAllStops.length) :
    ∃ r, construct c s = Except.ok r ∧
      r.graph_.edges_.drop c.GetAllStops.length
        = (c.GetAllBuses.flatMap r.spec_rides_of_bus).map Prod.fst ∧
      (∀ bus : Bus, (r.spec_rides_of_bus bus).length
        = if bus.is_circular then bus.stops.length * (bus.stops.length - 1) / 2
          else bus.stops.length * (bus.stops.length - 1)) ∧
      r.graph_.edges_.length
        = c.GetAllStops.length
          + (c.GetAllBuses.map (fun bus =>
              if bus.is_circular then bus.stops.length * (bus.stops.length - 1) / 2
              else bus.stops.length * (bus.stops.length - 1))).sum ∧
      r.wait_edges_.length = c.GetAllStops.length ∧
      r.bus_edges_.length
        = (c.GetAllBuses.map (fun bus =>
            if bus.is_circular then bus.stops.length * (bus.stops.length - 1) / 2
            else bus.stops.length * (bus.stops.length - 1))).sum := by
  obtain ⟨r, hr, _, _, _, _, _, hE, hW, hB⟩ := construct_fields c s hne hvalid
  have hcount : (c.GetAllBuses.flatMap r.spec_rides_of_bus).length
      = (c.GetAllBuses.map (fun bus =>
          if bus.is_circular then bus.stops.length * (bus.stops.length - 1) / 2
          else bus.stops.length * (bus.stops.length - 1))).sum := by
    rw [List.length_flatMap]
    congr 1
    apply List.map_congr_left
    intro bus _
    exact spec_rides_of_bus_length r bus
  refine ⟨r, hr, ?_, spec_rides_of_bus_length r, ?_, ?_, ?_⟩
  · rw [hE]
    apply List.drop_left'
    simp
  · rw [hE, List.length_append, List.length_map, List.length_map, List.length_map, hcount]
  · rw [hW]
    simp
  · rw [hB]
    simp [hcount]

/-- Instance of C26 on `line_ABC` (three stops, one non-circular line of three
stops): the graph has `3 + 3 * 2 = 9` edges. -/
theorem construct_edge_count_witness :
    (∀ b ∈ line_ABC.GetAllBuses, b.stops ≠ []) ∧
    (∀ b ∈ line_ABC.GetAllBuses, ∀ p ∈ b.stops, p < line_ABC.GetAllStops.length) ∧
    ∃ r, construct line_ABC settings_6_60 = Except.ok r ∧ r.graph_.edges_.length = 9 := by
  refine ⟨by decide, by decide, ?_⟩
  obtain ⟨r, hr, _, _, h, _⟩ :=
    construct_edge_count line_ABC settings_6_60 (by decide) (by decide)
  exact ⟨r, hr, h.trans (by decide)⟩

end TransportRouter

end router

end transport_catalogue

/-! ## The scenario of the spec -/

namespace transport_catalogue

namespace router

namespace TransportRouter

theorem scenario_XY_eq :
    scenario_XY
      = { buses_storage_ := [⟨"L", [0, 1], false⟩]
          stop_storage_ := [⟨"X", ⟨0, 0⟩⟩, ⟨"Y", ⟨0, 1⟩⟩]
          stops_ := [("X", 0), ("Y", 1)]
          buses_ := [("L", 0)]
          stop_to_buses_ := [(0, [0]), (1, [0])]
          distances_between_stops_ := [((0, 1), 1000)] } := by
  decide

theorem construct_scenario_XY (w : Int) :
    construct scenario_XY { wait_time := w, velocity := 60 }
      = Except.ok (router_scenario_XY w) := by
  rw [scenario_XY_eq]
  simp [construct, CreateVertexes, CreateVertexes_loop, GenereateNewVertexId, vertexes_entry,
    CreateEdges, CreateWaitEdges, CreateBusEdges, CreateBusEdges_loop, ConnectStations,
    ConnectStations_inner, CalculateTimeBetweenStations,
    TransportCatalogue.GetAllStops, TransportCatalogue.GetAllBuses,
    TransportCatalogue.GetDistanceBetweenStops, TransportCatalogue.stop, map_find, map_at,
    map_assign, map_insert, graph.DirectedWeightedGraph.AddEdge, router_scenario_XY,
    scenario_XY_eq]
  norm_num

theorem route_weight_nil (g : graph.DirectedWeightedGraph) : graph.route_weight g [] = 0 := by
  simp [graph.route_weight]

theorem route_weight_cons (g : graph.DirectedWeightedGraph) (e : graph.EdgeId)
    (rest : List graph.EdgeId) :
    graph.route_weight g (e :: rest) = graph.edge_weight g e + graph.route_weight g rest := by
  simp [graph.route_weight]

theorem route_weight_nonneg (g : graph.DirectedWeightedGraph)
    (h : ∀ edge ∈ g.edges_, 0 ≤ edge.weight) (path : List graph.EdgeId) :
    0 ≤ graph.route_weight g path := by
  induction path with
  | nil => rw [route_weight_nil]
  | cons e rest ih =>
    rw [route_weight_cons]
    have : 0 ≤ graph.edge_weight g e := by
      unfold graph.edge_weight
      cases he : g.edges_[e]? with
      | none => simp
      | some edge =>
        obtain ⟨hlt, hget⟩ := List.getElem?_eq_some.1 he
        exact h edge (hget ▸ List.getElem_mem hlt)
    linarith

/-- In the graph of `router_scenario_XY w` every path from vertex `0` to vertex
`2` starts with the edges `0` and `2` and goes on with a path from `2` to `2`. -/
theorem scenario_XY_routes (w : Int) (path : List graph.EdgeId)
    (h : graph.route_end (router_scenario_XY w).graph_ 0 path = some 2) :
    ∃ rest, path = 0 :: 2 :: rest ∧
      graph.route_end (router_scenario_XY w).graph_ 2 rest = some 2 := by
  cases path with
  | nil => simp [graph.route_end] at h
  | cons e1 p1 =>
    rcases e1 with _ | _ | _ | _ | e1 <;>
      simp [graph.route_end, router_scenario_XY] at h
    cases p1 with
    | nil => simp [graph.route_end] at h
    | cons e2 p2 =>
      rcases e2 with _ | _ | _ | _ | e2 <;>
        simp [graph.route_end, router_scenario_XY] at h
      exact ⟨p2, rfl, by simpa [router_scenario_XY] using h⟩

/-- In the graph of `router_scenario_XY w` a non-empty path from vertex `2`
starts with the wait edge `1`. -/
theorem scenario_XY_routes_from_Y (w : Int) (e : graph.EdgeId) (rest : List graph.EdgeId)
    (b : graph.VertexId)
    (h : graph.route_end (router_scenario_XY w).graph_ 2 (e :: rest) = some b) :
    e = 1 := by
  rcases e with _ | _ | _ | _ | e <;>
    simp [graph.route_end, router_scenario_XY] at h
  rfl

theorem scenario_XY_weights (w : Int) (hw : 0 ≤ w) :
    ∀ edge ∈ (router_scenario_XY w).graph_.edges_, 0 ≤ edge.weight := by
  have hw' : (0 : Rat) ≤ (w : Rat) := by exact_mod_cast hw
  intro edge hedge
  simp only [router_scenario_XY, List.mem_cons, List.mem_singleton, List.not_mem_nil,
    or_false] at hedge
  rcases hedge with h | h | h | h <;> rw [h] <;> simp [hw']

/-- With a non-negative wait time `w` the path of the edges `0` and `2`, of
weight `w + 1`, is a minimum-weight answer from vertex `0` to vertex `2`. -/
theorem scenario_XY_minimum (w : Int) (hw : 0 ≤ w) :
    graph.IsMinimumWeightAnswer (router_scenario_XY w).graph_ 0 2
      (solver_X_to_Y (router_scenario_XY w).graph_ 0 2) := by
  simp only [solver_X_to_Y, and_self, if_true, graph.IsMinimumWeightAnswer]
  refine ⟨by simp [graph.route_end, router_scenario_XY], trivial, ?_⟩
  · intro path hpath
    rw [route_weight_cons, route_weight_cons, route_weight_nil]
    obtain ⟨rest, rfl, _⟩ := scenario_XY_routes w path hpath
    have h0 := route_weight_nonneg _ (scenario_XY_weights w hw) rest
    have e0 : graph.edge_weight (router_scenario_XY w).graph_ 0 = (w : Rat) := by
      simp [graph.edge_weight, router_scenario_XY]
    have e2 : graph.edge_weight (router_scenario_XY w).graph_ 2 = 1 := by
      simp [graph.edge_weight, router_scenario_XY]
    rw [route_weight_cons, route_weight_cons, e0, e2]
    linarith

/-- With a positive wait time `w` a minimum-weight answer from vertex `0` to
vertex `2` names the path of the edges `0` and `2`, of weight `w + 1`. -/
theorem scenario_XY_minimum_unique (w : Int) (hw : 0 < w) (answer : Option graph.RouteInfo)
    (h : graph.IsMinimumWeightAnswer (router_scenario_XY w).graph_ 0 2 answer) :
    answer = some { weight := (w : Rat) + 1, edges := [0, 2] } := by
  have hw' : (0 : Rat) < (w : Rat) := by exact_mod_cast hw
  cases answer with
  | none =>
    exact absurd (by simp [graph.route_end, router_scenario_XY])
      (h [0, 2])
  | some info =>
    obtain ⟨hend, hweight, hmin⟩ := h
    obtain ⟨rest, hrest, hloop⟩ := scenario_XY_routes w info.edges hend
    have h02 := hmin [0, 2] (by simp [graph.route_end, router_scenario_XY])
    have e02 : graph.route_weight (router_scenario_XY w).graph_ [0, 2] = (w : Rat) + 1 := by
      simp [graph.route_weight, graph.edge_weight, router_scenario_XY]
    rw [e02, hweight, hrest, route_weight_cons, route_weight_cons] at h02
    have e0 : graph.edge_weight (router_scenario_XY w).graph_ 0 = (w : Rat) := by
      simp [graph.edge_weight, router_scenario_XY]
    have e2 : graph.edge_weight (router_scenario_XY w).graph_ 2 = 1 := by
      simp [graph.edge_weight, router_scenario_XY]
    rw [e0, e2] at h02
    cases rest with
    | nil =>
      obtain ⟨weight, edges⟩ := info
      simp only at hrest hweight
      rw [hweight, hrest, route_weight_cons, route_weight_cons, route_weight_nil, e0, e2]
      simp
    | cons e q =>
      have he := scenario_XY_routes_from_Y w e q 2 hloop
      subst he
      rw [route_weight_cons] at h02
      have e1 : graph.edge_weight (router_scenario_XY w).graph_ 1 = (w : Rat) := by
        simp [graph.edge_weight, router_scenario_XY]
      rw [e1] at h02
      have h0 := route_weight_nonneg _ (scenario_XY_weights w (le_of_lt hw)) q
      linarith

/-- C21: for the catalogue with the stops `X` and `Y`, the non-circular line
`L = [X, Y]` and the road distance `X → Y = 1000`, at velocity `60` and wait
time `6`, the router is constructed; the ride edge from `X` to `Y` (edge `2`,
from the departure vertex `1` to the arrival vertex `2`) has weight `1`; and
for every solver whose answer from the arrival vertex of `X` to that of `Y` is
a minimum-weight answer, `GetRouteInfo(X, Y)` returns the total time `7` and
the steps `Wait at X for 6`, `Bus L with span_count 1 and time 1`. -/
theorem scenario_XY_route :
    ∃ r, construct scenario_XY settings_6_60 = Except.ok r ∧
      map_find r.vertexes_ (r.catalogue_.stop 0).name = some { in_ := 0, out := 1 } ∧
      map_find r.vertexes_ (r.catalogue_.stop 1).name = some { in_ := 2, out := 3 } ∧
      r.graph_.edges_[2]? = some { from_ := 1, to_ := 2, weight := 1 } ∧
      map_find r.bus_edges_ 2 = some { bus_name := "L", span_count := 1, time := 1 } ∧
      ∀ BuildRoute : graph.DirectedWeightedGraph → graph.VertexId → graph.VertexId →
          Option graph.RouteInfo,
        graph.IsMinimumWeightAnswer r.graph_ 0 2 (BuildRoute r.graph_ 0 2) →
        GetRouteInfo BuildRoute r 0 1
          = Except.ok (some (7, [RouteItem.wait { stop_name := "X", time := 6 },
              RouteItem.bus { bus_name := "L", span_count := 1, time := 1 }])) := by
  refine ⟨router_scenario_XY 6, construct_scenario_XY 6, by decide, by decide, by decide,
    by decide, ?_⟩
  intro BuildRoute hmin
  have hanswer := scenario_XY_minimum_unique 6 (by decide) _ hmin
  have hx : map_find (router_scenario_XY 6).vertexes_
      ((router_scenario_XY 6).catalogue_.stop 0).name = some { in_ := 0, out := 1 } := by
    decide
  have hy : map_find (router_scenario_XY 6).vertexes_
      ((router_scenario_XY 6).catalogue_.stop 1).name = some { in_ := 2, out := 3 } := by
    decide
  unfold GetRouteInfo
  simp only [map_at, hx, hy, hanswer]
  simp [GetRouteInfo_items, map_count, map_find, map_at, router_scenario_XY]
  norm_num

/-- Instance of C21 with the solver stand-in `solver_X_to_Y`, whose answer is
a minimum-weight answer. -/
theorem scenario_XY_route_witness :
    ∃ r, construct scenario_XY settings_6_60 = Except.ok r ∧
      graph.IsMinimumWeightAnswer r.graph_ 0 2 (solver_X_to_Y r.graph_ 0 2) ∧
      GetRouteInfo solver_X_to_Y r 0 1
        = Except.ok (some (7, [RouteItem.wait { stop_name := "X", time := 6 },
            RouteItem.bus { bus_name := "L", span_count := 1, time := 1 }])) := by
  obtain ⟨r, hr, _, _, _, _, h⟩ := scenario_XY_route
  have e : r = router_scenario_XY 6 := by
    have h1 := construct_scenario_XY 6
    have h2 : construct scenario_XY settings_6_60
        = construct scenario_XY { wait_time := 6, velocity := 60 } := rfl
    rw [h2, h1] at hr
    exact (Except.ok.inj hr).symm
  have hmin : graph.IsMinimumWeightAnswer r.graph_ 0 2 (solver_X_to_Y r.graph_ 0 2) := by
    rw [e]
    exact scenario_XY_minimum 6 (by decide)
  exact ⟨r, hr, hmin, h solver_X_to_Y hmin⟩

end TransportRouter

end router

end transport_catalogue

/-! ## A catalogue with one stop -/

namespace transport_catalogue

namespace router

namespace TransportRouter

theorem single_stop_catalogue (name : String) (coordinates : Coordinates) (bus_name : String)
    (is_circular : Bool) :
    (TransportCatalogue.empty.AddStop name coordinates).AddBus bus_name [name] is_circular
      = (Except.ok (),
          { buses_storage_ := [⟨bus_name, [0], is_circular⟩]
            stop_storage_ := [⟨name, coordinates⟩]
            stops_ := [(name, 0)]
            buses_ := [(bus_name, 0)]
            stop_to_buses_ := [(0, [0])]
            distances_between_stops_ := [] }) := by
  simp [TransportCatalogue.empty, TransportCatalogue.AddStop, TransportCatalogue.AddBus,
    TransportCatalogue.AddBus_resolve, TransportCatalogue.AddBus_register,
    TransportCatalogue.GetStop, map_count, map_find, map_at, map_assign, set_insert]

/-- The router constructed for a catalogue with one stop and one line listing
that stop, with an arbitrary table of distances. -/
theorem construct_single_stop_eq (name : String) (coordinates : Coordinates)
    (bus_name : String) (is_circular : Bool) (s : RoutingSettings)
    (distances : List ((StopPtr × StopPtr) × Int)) :
    construct
        { buses_storage_ := [⟨bus_name, [0], is_circular⟩]
          stop_storage_ := [⟨name, coordinates⟩]
          stops_ := [(name, 0)]
          buses_ := [(bus_name, 0)]
          stop_to_buses_ := [(0, [0])]
          distances_between_stops_ := distances } s
      = Except.ok
        { catalogue_ :=
            { buses_storage_ := [⟨bus_name, [0], is_circular⟩]
              stop_storage_ := [⟨name, coordinates⟩]
              stops_ := [(name, 0)]
              buses_ := [(bus_name, 0)]
              stop_to_buses_ := [(0, [0])]
              distances_between_stops_ := distances }
          settings_ := s
          graph_ := ⟨2, [{ from_ := 0, to_ := 1, weight := (s.wait_time : Rat) }]⟩
          vertexes_ := [(name, { in_ := 0, out := 1 })]
          vertexes_counter_ := 2
          wait_edges_ := [(0, { stop_name := name, time := (s.wait_time : Rat) })]
          bus_edges_ := [] } := by
  cases is_circular <;>
  simp [construct, CreateVertexes, CreateVertexes_loop, GenereateNewVertexId, vertexes_entry,
    CreateEdges, CreateWaitEdges, CreateBusEdges, CreateBusEdges_loop, ConnectStations,
    TransportCatalogue.GetAllStops, TransportCatalogue.GetAllBuses, map_find, map_at,
    map_assign, map_insert, graph.DirectedWeightedGraph.AddEdge]

/-- C22: for the catalogue with one stop and one line that lists only that
stop, whatever the circularity flag, the settings and the recorded distances,
the construction yields a graph with two vertices and one edge, the wait edge
of the stop from vertex `0` to vertex `1`, tagged as the wait at that stop; no
ride edge and no ride tag is created, and the result is the same for every
table of distances. -/
theorem construct_single_stop (name : String) (coordinates : Coordinates) (bus_name : String)
    (is_circular : Bool) (s : RoutingSettings)
    (distances : List ((StopPtr × StopPtr) × Int)) :
    ((TransportCatalogue.empty.AddStop name coordinates).AddBus bus_name [name] is_circular).1
      = Except.ok () ∧
    ∃ r, construct
        { ((TransportCatalogue.empty.AddStop name coordinates).AddBus bus_name [name]
            is_circular).2 with distances_between_stops_ := distances } s = Except.ok r ∧
      r.graph_ = ⟨2, [{ from_ := 0, to_ := 1, weight := (s.wait_time : Rat) }]⟩ ∧
      r.vertexes_ = [(name, { in_ := 0, out := 1 })] ∧
      r.wait_edges_ = [(0, { stop_name := name, time := (s.wait_time : Rat) })] ∧
      r.bus_edges_ = [] := by
  rw [single_stop_catalogue]
  exact ⟨rfl, _, construct_single_stop_eq name coordinates bus_name is_circular s distances,
    rfl, rfl, rfl, rfl⟩

/-- In a graph whose only edge leads from vertex `0` to vertex `1`, the empty
path is the only path from vertex `0` to itself. -/
theorem single_edge_routes (w : Rat) (path : List graph.EdgeId)
    (h : graph.route_end ⟨2, [{ from_ := 0, to_ := 1, weight := w }]⟩ 0 path = some 0) :
    path = [] := by
  cases path with
  | nil => rfl
  | cons e1 p1 =>
    rcases e1 with _ | e1 <;> simp [graph.route_end] at h
    cases p1 with
    | nil => simp [graph.route_end] at h
    | cons e2 p2 =>
      rcases e2 with _ | e2 <;> simp [graph.route_end] at h

/-- C23, as the code has it: for the router built from a catalogue with one
stop and one line listing that stop, the route query from the stop to itself
asks the solver for a path from the arrival vertex `0` to itself; the only such
path is the empty one; with a minimum-weight answer the query returns the
total time `0` and no step, and whatever path a solver names for this query,
the returned itinerary has no step. -/
theorem GetRouteInfo_single_stop_self (name : String) (coordinates : Coordinates)
    (bus_name : String) (is_circular : Bool) (s : RoutingSettings) :
    ∃ r, construct
        ((TransportCatalogue.empty.AddStop name coordinates).AddBus bus_name [name]
          is_circular).2 s = Except.ok r ∧
      map_find r.vertexes_ (r.catalogue_.stop 0).name = some { in_ := 0, out := 1 } ∧
      (∀ path, graph.route_end r.graph_ 0 path = some 0 → path = []) ∧
      (∀ BuildRoute : graph.DirectedWeightedGraph → graph.VertexId → graph.VertexId →
          Option graph.RouteInfo,
        graph.IsMinimumWeightAnswer r.graph_ 0 0 (BuildRoute r.graph_ 0 0) →
        GetRouteInfo BuildRoute r 0 0 = Except.ok (some (0, []))) ∧
      (∀ (BuildRoute : graph.DirectedWeightedGraph → graph.VertexId → graph.VertexId →
          Option graph.RouteInfo) (total : Minutes) (items : List RouteItem),
        (∀ info, BuildRoute r.graph_ 0 0 = some info →
          graph.route_end r.graph_ 0 info.edges = some 0) →
        GetRouteInfo BuildRoute r 0 0 = Except.ok (some (total, items)) → items = []) := by
  rw [single_stop_catalogue]
  refine ⟨_, construct_single_stop_eq name coordinates bus_name is_circular s [], ?_,
    single_edge_routes _, ?_, ?_⟩
  · simp [TransportCatalogue.stop, map_find]
  · intro BuildRoute hmin
    cases hb : BuildRoute ⟨2, [{ from_ := 0, to_ := 1, weight := (s.wait_time : Rat) }]⟩ 0 0 with
    | none =>
      simp only [hb, graph.IsMinimumWeightAnswer] at hmin
      exact absurd rfl (hmin [])
    | some info =>
      simp only [hb, graph.IsMinimumWeightAnswer] at hmin
      obtain ⟨hend, hweight, _⟩ := hmin
      have hnil := single_edge_routes _ _ hend
      rw [hnil] at hweight
      simp [GetRouteInfo, GetRouteInfo_items, TransportCatalogue.stop, map_at, map_find, hb,
        hnil, hweight, graph.route_weight]
  · intro BuildRoute total items hsound hres
    cases hb : BuildRoute ⟨2, [{ from_ := 0, to_ := 1, weight := (s.wait_time : Rat) }]⟩ 0 0 with
    | none =>
      simp [GetRouteInfo, TransportCatalogue.stop, map_at, map_find, hb] at hres
    | some info =>
      have hnil := single_edge_routes _ _ (hsound info hb)
      simp [GetRouteInfo, GetRouteInfo_items, TransportCatalogue.stop, map_at, map_find, hb,
        hnil] at hres
      exact hres.2

/-- Instance of C23, as the code has it, on the stop `A` and the line
`L = [A]` with the solver stand-in `solver_self`, whose answer from the arrival
vertex `0` to itself is a minimum-weight answer: the query from `A` to `A`
returns the total time `0` and no step. -/
theorem GetRouteInfo_single_stop_self_witness :
    ∃ r, construct
        ((TransportCatalogue.empty.AddStop "A" ⟨0, 0⟩).AddBus "L" ["A"] false).2
        settings_6_60 = Except.ok r ∧
      graph.IsMinimumWeightAnswer r.graph_ 0 0 (solver_self r.graph_ 0 0) ∧
      GetRouteInfo solver_self r 0 0 = Except.ok (some (0, [])) := by
  obtain ⟨r, hr, _, hpaths, h, _⟩ :=
    GetRouteInfo_single_stop_self "A" ⟨0, 0⟩ "L" false settings_6_60
  have hmin : graph.IsMinimumWeightAnswer r.graph_ 0 0 (solver_self r.graph_ 0 0) := by
    simp only [solver_self, if_true, graph.IsMinimumWeightAnswer]
    refine ⟨rfl, by simp [graph.route_weight], ?_⟩
    intro path hpath
    rw [hpaths path hpath]
    simp [graph.route_weight]
  exact ⟨r, hr, hmin, h solver_self hmin⟩

/-- C23 as stated fails: for `one_stop_line_A` with a wait time of `6` the
router is constructed; the empty path of weight `0` is a minimum-weight answer
from the arrival vertex `0` of `A` to itself; and the route query from `A` to
`A` returns the total time `0` and no step, not the total time `6` and a wait
step. -/
theorem GetRouteInfo_self_no_wait_step :
    ∃ r, construct one_stop_line_A settings_6_60 = Except.ok r ∧
      graph.IsMinimumWeightAnswer r.graph_ 0 0 (solver_self r.graph_ 0 0) ∧
      GetRouteInfo solver_self r 0 0 = Except.ok (some (0, [])) ∧
      GetRouteInfo solver_self r 0 0
        ≠ Except.ok (some (6, [RouteItem.wait { stop_name := "A", time := 6 }])) := by
  have e : one_stop_line_A
      = { buses_storage_ := [⟨"L", [0], false⟩]
          stop_storage_ := [⟨"A", ⟨0, 0⟩⟩]
          stops_ := [("A", 0)]
          buses_ := [("L", 0)]
          stop_to_buses_ := [(0, [0])]
          distances_between_stops_ := [] } := by
    decide
  rw [e]
  refine ⟨_, construct_single_stop_eq "A" ⟨0, 0⟩ "L" false settings_6_60 [], ?_, ?_, ?_⟩
  · simp only [solver_self, if_true, graph.IsMinimumWeightAnswer]
    refine ⟨rfl, by simp [graph.route_weight], ?_⟩
    intro path hpath
    rw [single_edge_routes _ path hpath]
    simp [graph.route_weight]
  · decide
  · decide

end TransportRouter

end router

end transport_catalogue

/-! ## The wait time and the reported total time -/

namespace transport_catalogue

namespace router

namespace TransportRouter

theorem CreateVertexes_loop_vertexes :
    ∀ (stops : List Stop) (r r' : TransportRouter),
      r.vertexes_ = r'.vertexes_ → r.vertexes_counter_ = r'.vertexes_counter_ →
      (CreateVertexes_loop stops r).vertexes_ = (CreateVertexes_loop stops r').vertexes_ := by
  intro stops
  induction stops with
  | nil => intro r r' h _; exact h
  | cons stop rest ih =>
    intro r r' hv hc
    rw [CreateVertexes_loop_cons, CreateVertexes_loop_cons]
    apply ih
    · simp only [vertexes_entry, hv, hc]
    · simp only [hc]

/-- The vertices created do not depend on the routing settings. -/
theorem construct_vertexes_settings (c : TransportCatalogue) (s s' : RoutingSettings) :
    (construct_vertexes c s).vertexes_ = (construct_vertexes c s').vertexes_ :=
  CreateVertexes_loop_vertexes c.GetAllStops _ _ rfl rfl

/-- The expected ride edges depend on the router state only through the
catalogue, the vertices and the velocity. -/
theorem spec_rides_of_bus_congr (r r' : TransportRouter)
    (hc : r.catalogue_ = r'.catalogue_) (hv : r.vertexes_ = r'.vertexes_)
    (hs : r.settings_.velocity = r'.settings_.velocity) (bus : Bus) :
    r.spec_rides_of_bus bus = r'.spec_rides_of_bus bus := by
  have e : r.spec_ride_edge = r'.spec_ride_edge := by
    funext bus_name route i j
    simp only [spec_ride_edge, spec_ride_weight, in_of, out_of, vertexes_entry,
      CalculateTimeBetweenStations, hc, hv, hs]
  simp only [spec_rides_of_bus, spec_rides_of_route, e]

theorem route_end_congr (g g' : graph.DirectedWeightedGraph)
    (h : ∀ e : Nat, (g.edges_[e]?).map (fun x => (x.from_, x.to_))
      = (g'.edges_[e]?).map (fun x => (x.from_, x.to_))) :
    ∀ (path : List graph.EdgeId) (a : graph.VertexId),
      graph.route_end g a path = graph.route_end g' a path := by
  intro path
  induction path with
  | nil => intro a; rfl
  | cons e rest ih =>
    intro a
    have he := h e
    unfold graph.route_end
    cases h1 : g.edges_[e]? with
    | none =>
      cases h2 : g'.edges_[e]? with
      | none => rfl
      | some x' => simp [h1, h2] at he
    | some x =>
      cases h2 : g'.edges_[e]? with
      | none => simp [h1, h2] at he
      | some x' =>
        simp only [h1, h2, Option.map_some', Option.some.injEq, Prod.mk.injEq] at he
        simp only [he.1, he.2, ih]

theorem route_weight_mono (g g' : graph.DirectedWeightedGraph)
    (h : ∀ e, graph.edge_weight g e ≤ graph.edge_weight g' e) (path : List graph.EdgeId) :
    graph.route_weight g path ≤ graph.route_weight g' path := by
  induction path with
  | nil => rw [route_weight_nil, route_weight_nil]
  | cons e rest ih =>
    rw [route_weight_cons, route_weight_cons]
    exact add_le_add (h e) ih

theorem GetRouteInfo_ok_inv
    (BuildRoute : graph.DirectedWeightedGraph → graph.VertexId → graph.VertexId →
      Option graph.RouteInfo)
    (r : TransportRouter) (stop_from stop_to : StopPtr) (total : Minutes)
    (items : List RouteItem)
    (h : GetRouteInfo BuildRoute r stop_from stop_to = Except.ok (some (total, items))) :
    ∃ info, BuildRoute r.graph_ (r.in_of stop_from) (r.in_of stop_to) = some info ∧
      total = info.weight ∧ items = info.edges.map r.spec_route_item := by
  unfold GetRouteInfo at h
  cases hf : map_find r.vertexes_ (r.catalogue_.stop stop_from).name with
  | none => simp [map_at, hf] at h
  | some from_ids =>
    cases ht : map_find r.vertexes_ (r.catalogue_.stop stop_to).name with
    | none => simp [map_at, hf, ht] at h
    | some to_ids =>
      simp only [map_at, hf, ht] at h
      have e1 : r.in_of stop_from = from_ids.in_ := by simp only [in_of, vertexes_entry, hf]
      have e2 : r.in_of stop_to = to_ids.in_ := by simp only [in_of, vertexes_entry, ht]
      rw [e1, e2]
      cases hb : BuildRoute r.graph_ from_ids.in_ to_ids.in_ with
      | none => simp [hb] at h
      | some info =>
        simp only [hb] at h
        rw [GetRouteInfo_items_eq] at h
        by_cases htag : ∀ e ∈ info.edges,
            map_count r.bus_edges_ e > 0 ∨ map_count r.wait_edges_ e > 0
        · rw [if_pos htag] at h
          simp only [Except.ok.injEq, Option.some.injEq, Prod.mk.injEq] at h
          exact ⟨info, rfl, h.1.symm, h.2.symm⟩
        · rw [if_neg htag] at h
          cases h

/-- C24: for a catalogue (whose lines are non-empty and list stored stops), a
velocity and wait times `w1 ≤ w2`, the routers for `w1` and for `w2` are both
constructed, and whenever, for a pair of stops, the solver's answers between
the two arrival vertices are minimum-weight answers in the respective graphs
and both route queries report a route, the total time reported with `w2` is
not smaller than the total time reported with `w1`. -/
theorem GetRouteInfo_wait_time_monotone (c : TransportCatalogue) (velocity : Rat)
    (w1 w2 : Int) (hw : w1 ≤ w2)
    (hne : ∀ b ∈ c.GetAllBuses, b.stops ≠ [])
    (hvalid : ∀ b ∈ c.GetAllBuses, ∀ p ∈ b.stops, p < c.GetAllStops.length) :
    ∃ r1 r2, construct c { wait_time := w1, velocity := velocity } = Except.ok r1 ∧
      construct c { wait_time := w2, velocity := velocity } = Except.ok r2 ∧
      ∀ (BuildRoute : graph.DirectedWeightedGraph → graph.VertexId → graph.VertexId →
          Option graph.RouteInfo) (stop_from stop_to : StopPtr)
        (t1 t2 : Minutes) (items1 items2 : List RouteItem),
        graph.IsMinimumWeightAnswer r1.graph_ (r1.in_of stop_from) (r1.in_of stop_to)
          (BuildRoute r1.graph_ (r1.in_of stop_from) (r1.in_of stop_to)) →
        graph.IsMinimumWeightAnswer r2.graph_ (r2.in_of stop_from) (r2.in_of stop_to)
          (BuildRoute r2.graph_ (r2.in_of stop_from) (r2.in_of stop_to)) →
        GetRouteInfo BuildRoute r1 stop_from stop_to = Except.ok (some (t1, items1)) →
        GetRouteInfo BuildRoute r2 stop_from stop_to = Except.ok (some (t2, items2)) →
        t1 ≤ t2 := by
  obtain ⟨r1, hr1, hc1, hs1, hv1, _, _, hE1, _, _⟩ :=
    construct_fields c { wait_time := w1, velocity := velocity } hne hvalid
  obtain ⟨r2, hr2, hc2, hs2, hv2, _, _, hE2, _, _⟩ :=
    construct_fields c { wait_time := w2, velocity := velocity } hne hvalid
  have hv : r1.vertexes_ = r2.vertexes_ := by
    rw [hv1, hv2]
    exact construct_vertexes_settings c _ _
  have hc : r1.catalogue_ = r2.catalogue_ := by rw [hc1, hc2]
  have hrides : c.GetAllBuses.flatMap r1.spec_rides_of_bus
      = c.GetAllBuses.flatMap r2.spec_rides_of_bus := by
    congr 1
    funext bus
    exact spec_rides_of_bus_congr r1 r2 hc hv (by rw [hs1, hs2]) bus
  have hw' : (w1 : Rat) ≤ (w2 : Rat) := by exact_mod_cast hw
  have hlen : ∀ r : TransportRouter,
      ((c.GetAllStops.map r.spec_wait_edge).map Prod.fst).length = c.GetAllStops.length := by
    intro r
    simp
  have hends : ∀ e : Nat, (r1.graph_.edges_[e]?).map (fun x => (x.from_, x.to_))
      = (r2.graph_.edges_[e]?).map (fun x => (x.from_, x.to_)) := by
    intro e
    rw [hE1, hE2, hrides]
    by_cases he : e < c.GetAllStops.length
    · rw [List.getElem?_append_left (by rw [hlen]; exact he),
        List.getElem?_append_left (by rw [hlen]; exact he)]
      simp only [List.getElem?_map, Option.map_map]
      congr 1
      funext stop
      simp only [Function.comp, spec_wait_edge, vertexes_entry, hv]
    · rw [List.getElem?_append_right (by rw [hlen]; omega),
        List.getElem?_append_right (by rw [hlen]; omega), hlen, hlen]
  have hweights : ∀ e, graph.edge_weight r1.graph_ e ≤ graph.edge_weight r2.graph_ e := by
    intro e
    unfold graph.edge_weight
    rw [hE1, hE2, hrides]
    by_cases he : e < c.GetAllStops.length
    · rw [List.getElem?_append_left (by rw [hlen]; exact he),
        List.getElem?_append_left (by rw [hlen]; exact he)]
      simp only [List.getElem?_map]
      cases hst : c.GetAllStops[e]? with
      | none => simp
      | some stop => simpa [spec_wait_edge, hs1, hs2] using hw'
    · rw [List.getElem?_append_right (by rw [hlen]; exact Nat.le_of_not_lt he),
        List.getElem?_append_right (by rw [hlen]; exact Nat.le_of_not_lt he), hlen, hlen]
  refine ⟨r1, r2, hr1, hr2, ?_⟩
  intro BuildRoute stop_from stop_to t1 t2 items1 items2 hmin1 hmin2 hres1 hres2
  obtain ⟨info1, hb1, ht1, _⟩ := GetRouteInfo_ok_inv BuildRoute r1 _ _ _ _ hres1
  obtain ⟨info2, hb2, ht2, _⟩ := GetRouteInfo_ok_inv BuildRoute r2 _ _ _ _ hres2
  rw [hb1] at hmin1
  rw [hb2] at hmin2
  obtain ⟨_, _, hleast⟩ := hmin1
  obtain ⟨hend2, hweight2, _⟩ := hmin2
  have hin : ∀ p, r1.in_of p = r2.in_of p := by
    intro p
    simp only [in_of, vertexes_entry, hv, hc]
  rw [← hin, ← hin, ← route_end_congr r1.graph_ r2.graph_ hends] at hend2
  calc t1 = info1.weight := ht1
    _ ≤ graph.route_weight r1.graph_ info2.edges := hleast _ hend2
    _ ≤ graph.route_weight r2.graph_ info2.edges := route_weight_mono _ _ hweights _
    _ = info2.weight := hweight2.symm
    _ = t2 := ht2.symm

/-- Instance of C24 on `scenario_XY` at velocity `60` with the wait times `6`
and `8` and the solver stand-in `solver_X_to_Y`, whose answers from the arrival
vertex of `X` to that of `Y` are minimum-weight answers in both graphs: both
queries from `X` to `Y` report a route. -/
theorem GetRouteInfo_wait_time_monotone_witness :
    (6 : Int) ≤ 8 ∧
    (∀ b ∈ scenario_XY.GetAllBuses, b.stops ≠ []) ∧
    (∀ b ∈ scenario_XY.GetAllBuses, ∀ p ∈ b.stops, p < scenario_XY.GetAllStops.length) ∧
    ∃ r1 r2, construct scenario_XY { wait_time := 6, velocity := 60 } = Except.ok r1 ∧
      construct scenario_XY { wait_time := 8, velocity := 60 } = Except.ok r2 ∧
      graph.IsMinimumWeightAnswer r1.graph_ (r1.in_of 0) (r1.in_of 1)
        (solver_X_to_Y r1.graph_ (r1.in_of 0) (r1.in_of 1)) ∧
      graph.IsMinimumWeightAnswer r2.graph_ (r2.in_of 0) (r2.in_of 1)
        (solver_X_to_Y r2.graph_ (r2.in_of 0) (r2.in_of 1)) ∧
      ∃ t1 t2 items1 items2,
        GetRouteInfo solver_X_to_Y r1 0 1 = Except.ok (some (t1, items1)) ∧
        GetRouteInfo solver_X_to_Y r2 0 1 = Except.ok (some (t2, items2)) ∧
        t1 ≤ t2 := by
  refine ⟨by decide, by decide, by decide, ?_⟩
  obtain ⟨r1, r2, hr1, hr2, h⟩ :=
    GetRouteInfo_wait_time_monotone scenario_XY 60 6 8 (by decide) (by decide) (by decide)
  have e1 : r1 = router_scenario_XY 6 := by
    rw [construct_scenario_XY 6] at hr1
    exact (Except.ok.inj hr1).symm
  have e2 : r2 = router_scenario_XY 8 := by
    rw [construct_scenario_XY 8] at hr2
    exact (Except.ok.inj hr2).symm
  have hmin1 : graph.IsMinimumWeightAnswer r1.graph_ (r1.in_of 0) (r1.in_of 1)
      (solver_X_to_Y r1.graph_ (r1.in_of 0) (r1.in_of 1)) := by
    rw [e1]
    exact scenario_XY_minimum 6 (by decide)
  have hmin2 : graph.IsMinimumWeightAnswer r2.graph_ (r2.in_of 0) (r2.in_of 1)
      (solver_X_to_Y r2.graph_ (r2.in_of 0) (r2.in_of 1)) := by
    rw [e2]
    exact scenario_XY_minimum 8 (by decide)
  have hq1 : GetRouteInfo solver_X_to_Y r1 0 1
      = Except.ok (some (graph.route_weight r1.graph_ [0, 2],
          [0, 2].map r1.spec_route_item)) := by
    rw [e1]
    simp [GetRouteInfo, GetRouteInfo_items, solver_X_to_Y, spec_route_item, map_at, map_find,
      map_count, router_scenario_XY, scenario_XY_eq, TransportCatalogue.stop]
  have hq2 : GetRouteInfo solver_X_to_Y r2 0 1
      = Except.ok (some (graph.route_weight r2.graph_ [0, 2],
          [0, 2].map r2.spec_route_item)) := by
    rw [e2]
    simp [GetRouteInfo, GetRouteInfo_items, solver_X_to_Y, spec_route_item, map_at, map_find,
      map_count, router_scenario_XY, scenario_XY_eq, TransportCatalogue.stop]
  exact ⟨r1, r2, hr1, hr2, hmin1, hmin2, _, _, _, _, hq1, hq2,
    h solver_X_to_Y 0 1 _ _ _ _ hmin1 hmin2 hq1 hq2⟩

end TransportRouter

end router

end transport_catalogue

/-! ## A line without a known distance -/

namespace transport_catalogue

namespace router

namespace TransportRouter

end TransportRouter

end router

end transport_catalogue

/-! ## Arrival and departure vertices -/

namespace transport_catalogue

section maps

variable {K V : Type} [DecidableEq K]

theorem mem_map_assign_twice (m : List (K × V)) (k : K) (v₁ v₂ : V) (e : K × V)
    (h : e ∈ map_assign (map_assign m k v₁) k v₂) : e ∈ m ∨ e = (k, v₂) := by
  induction m with
  | nil =>
    simp only [map_assign, if_true, List.mem_singleton] at h
    exact Or.inr h
  | cons x rest ih =>
    obtain ⟨k', v'⟩ := x
    by_cases hk : k' = k
    · simp only [map_assign, hk, if_true, List.mem_cons] at h
      rcases h with h | h
      · exact Or.inr h
      · exact Or.inl (List.mem_cons_of_mem _ h)
    · simp only [map_assign, hk, if_false, List.mem_cons] at h
      rcases h with h | h
      · left
        rw [h]
        exact List.mem_cons_self _ _
      · rcases ih h with h | h
        · exact Or.inl (List.mem_cons_of_mem _ h)
        · exact Or.inr h

end maps

namespace router

namespace TransportRouter

theorem CreateVertexes_loop_parity :
    ∀ (stops : List Stop) (r : TransportRouter), r.vertexes_counter_ % 2 = 0 →
      (∀ entry ∈ r.vertexes_, entry.2.in_ % 2 = 0 ∧ entry.2.out = entry.2.in_ + 1) →
      ∀ entry ∈ (CreateVertexes_loop stops r).vertexes_,
        entry.2.in_ % 2 = 0 ∧ entry.2.out = entry.2.in_ + 1 := by
  intro stops
  induction stops with
  | nil => intro r _ h; exact h
  | cons stop rest ih =>
    intro r hc h
    rw [CreateVertexes_loop_cons]
    apply ih
    · show (r.vertexes_counter_ + 2) % 2 = 0
      rw [Nat.add_mod_right]
      exact hc
    · intro entry hentry
      rcases mem_map_assign_twice _ _ _ _ _ hentry with h' | h'
      · exact h entry h'
      · rw [h']
        exact ⟨hc, rfl⟩

theorem construct_vertexes_parity (c : TransportCatalogue) (s : RoutingSettings) :
    ∀ entry ∈ (construct_vertexes c s).vertexes_,
      entry.2.in_ % 2 = 0 ∧ entry.2.out = entry.2.in_ + 1 :=
  CreateVertexes_loop_parity c.GetAllStops
    { catalogue_ := c, settings_ := s, graph_ := ⟨0, []⟩, vertexes_ := [],
      vertexes_counter_ := 0, wait_edges_ := [], bus_edges_ := [] } rfl
    (fun entry h => by simp at h)

theorem spec_rides_of_route_mem (r : TransportRouter) (bus_name : String)
    (route : List StopPtr) (x : graph.Edge × BusRideInfo)
    (h : x ∈ r.spec_rides_of_route bus_name route) :
    ∃ i j, i < j ∧ j < route.length ∧ x = r.spec_ride_edge bus_name route i j := by
  unfold spec_rides_of_route at h
  rw [List.mem_flatMap] at h
  obtain ⟨i, hi, hx⟩ := h
  rw [List.mem_map] at hx
  obtain ⟨j, hj, hx⟩ := hx
  rw [List.mem_range'_1] at hj
  rw [List.mem_range] at hi
  exact ⟨i, j, by omega, by omega, hx.symm⟩

/-- Every edge of the constructed graph is either the wait edge of a stop,
tagged as such and not as a ride, or a ride edge between two indices `i < j`
of the stop sequence of a line, or of the reversed sequence, tagged as such
and not as a wait. -/
theorem construct_edge_cases (c : TransportCatalogue) (s : RoutingSettings)
    (hne : ∀ b ∈ c.GetAllBuses, b.stops ≠ [])
    (hvalid : ∀ b ∈ c.GetAllBuses, ∀ p ∈ b.stops, p < c.GetAllStops.length) :
    ∃ r, construct c s = Except.ok r ∧ r.catalogue_ = c ∧ r.settings_ = s ∧
      r.vertexes_ = (construct_vertexes c s).vertexes_ ∧
      ∀ (e : Nat) (edge : graph.Edge), r.graph_.edges_[e]? = some edge →
        (∃ stop ∈ c.GetAllStops, edge = (r.spec_wait_edge stop).1 ∧
          map_find r.wait_edges_ e = some (r.spec_wait_edge stop).2 ∧
          map_find r.bus_edges_ e = none) ∨
        (∃ bus ∈ c.GetAllBuses, ∃ route : List StopPtr, ∃ i j : Nat,
          (route = bus.stops ∨ route = bus.stops.reverse) ∧ i < j ∧ j < route.length ∧
          edge = (r.spec_ride_edge bus.name route i j).1 ∧
          map_find r.bus_edges_ e = some (r.spec_ride_edge bus.name route i j).2 ∧
          map_find r.wait_edges_ e = none) := by
  obtain ⟨r, hr, hc, hs, hv, _, _, hE, hW, hB⟩ := construct_fields c s hne hvalid
  refine ⟨r, hr, hc, hs, hv, ?_⟩
  intro e edge hedge
  have hlen : ((c.GetAllStops.map r.spec_wait_edge).map Prod.fst).length
      = c.GetAllStops.length := by simp
  rw [hE] at hedge
  by_cases he : e < c.GetAllStops.length
  · left
    rw [List.getElem?_append_left (by rw [hlen]; exact he)] at hedge
    simp only [List.getElem?_map, List.getElem?_eq_getElem he, Option.map_some',
      Option.some.injEq] at hedge
    refine ⟨c.GetAllStops[e], List.getElem_mem he, hedge.symm, ?_, ?_⟩
    · rw [hW, map_find_enumFrom]
      simp [List.getElem?_eq_getElem he]
    · rw [hB, map_find_enumFrom, if_neg (by omega)]
  · right
    rw [List.getElem?_append_right (by rw [hlen]; omega), hlen, List.getElem?_map] at hedge
    cases hx : (c.GetAllBuses.flatMap r.spec_rides_of_bus)[e - c.GetAllStops.length]? with
    | none => simp [hx] at hedge
    | some x =>
      simp only [hx, Option.map_some', Option.some.injEq] at hedge
      obtain ⟨hlt, hget⟩ := List.getElem?_eq_some.1 hx
      have hmem : x ∈ c.GetAllBuses.flatMap r.spec_rides_of_bus := hget ▸ List.getElem_mem hlt
      rw [List.mem_flatMap] at hmem
      obtain ⟨bus, hbus, hxb⟩ := hmem
      have hbfind : map_find r.bus_edges_ e = some x.2 := by
        rw [hB, map_find_enumFrom, if_pos (by omega), List.getElem?_map, hx]
        rfl
      have hwfind : map_find r.wait_edges_ e = none := by
        rw [hW, map_find_enumFrom, if_pos (Nat.zero_le _)]
        apply List.getElem?_eq_none
        simp only [List.length_map]
        omega
      unfold spec_rides_of_bus at hxb
      rcases List.mem_append.1 hxb with h1 | h1
      · obtain ⟨i, j, hij, hj, hxe⟩ := spec_rides_of_route_mem r _ _ x h1
        refine ⟨bus, hbus, bus.stops, i, j, Or.inl rfl, hij, hj, ?_, ?_, hwfind⟩
        · rw [← hxe, hedge]
        · rw [← hxe]; exact hbfind
      · by_cases hcirc : bus.is_circular
        · simp [hcirc] at h1
        · simp only [hcirc, Bool.false_eq_true, if_false] at h1
          obtain ⟨i, j, hij, hj, hxe⟩ := spec_rides_of_route_mem r _ _ x h1
          refine ⟨bus, hbus, bus.stops.reverse, i, j, Or.inr rfl, hij, hj, ?_, ?_, hwfind⟩
          · rw [← hxe, hedge]
          · rw [← hxe]; exact hbfind

end TransportRouter

end router

end transport_catalogue

namespace transport_catalogue

namespace router

namespace TransportRouter

theorem is_arrival_even (r : TransportRouter)
    (h : ∀ entry ∈ r.vertexes_, entry.2.in_ % 2 = 0 ∧ entry.2.out = entry.2.in_ + 1)
    (v : graph.VertexId) (hv : r.is_arrival v = true) : v % 2 = 0 := by
  unfold is_arrival at hv
  rw [List.any_eq_true] at hv
  obtain ⟨entry, hentry, he⟩ := hv
  have := (h entry hentry).1
  simp only [beq_iff_eq] at he
  rw [← he]
  exact this

theorem is_departure_odd (r : TransportRouter)
    (h : ∀ entry ∈ r.vertexes_, entry.2.in_ % 2 = 0 ∧ entry.2.out = entry.2.in_ + 1)
    (v : graph.VertexId) (hv : r.is_departure v = true) : v % 2 = 1 := by
  unfold is_departure at hv
  rw [List.any_eq_true] at hv
  obtain ⟨entry, hentry, he⟩ := hv
  obtain ⟨h1, h2⟩ := h entry hentry
  simp only [beq_iff_eq] at he
  rw [← he, h2]
  unfold graph.VertexId at *
  omega

theorem vertexes_entry_registered (r : TransportRouter) (name : String) (ids : VertexIds)
    (h : map_find r.vertexes_ name = some ids) :
    r.vertexes_entry name = ids ∧ r.is_arrival ids.in_ = true ∧
      r.is_departure ids.out = true := by
  have hmem := map_find_mem _ _ _ h
  refine ⟨by simp only [vertexes_entry, h], ?_, ?_⟩
  · unfold is_arrival
    rw [List.any_eq_true]
    exact ⟨_, hmem, by simp⟩
  · unfold is_departure
    rw [List.any_eq_true]
    exact ⟨_, hmem, by simp⟩

/-- In the constructed router every registered arrival vertex is even and
every registered departure vertex is its successor; a wait edge leads from a
registered arrival vertex to a registered departure vertex and its step is a
wait step; a ride edge leads from a registered departure vertex to a registered
arrival vertex and its step is a ride step. -/
theorem construct_edge_sides (c : TransportCatalogue) (s : RoutingSettings)
    (hne : ∀ b ∈ c.GetAllBuses, b.stops ≠ [])
    (hvalid : ∀ b ∈ c.GetAllBuses, ∀ p ∈ b.stops, p < c.GetAllStops.length) :
    ∃ r, construct c s = Except.ok r ∧
      (∀ entry ∈ r.vertexes_, entry.2.in_ % 2 = 0 ∧ entry.2.out = entry.2.in_ + 1) ∧
      ∀ (e : Nat) (edge : graph.Edge), r.graph_.edges_[e]? = some edge →
        (r.is_arrival edge.from_ = true ∧ r.is_departure edge.to_ = true ∧
          map_count r.wait_edges_ e > 0 ∧ map_count r.bus_edges_ e = 0 ∧
          ∃ info, r.spec_route_item e = RouteItem.wait info) ∨
        (r.is_departure edge.from_ = true ∧ r.is_arrival edge.to_ = true ∧
          map_count r.bus_edges_ e > 0 ∧ map_count r.wait_edges_ e = 0 ∧
          ∃ info, r.spec_route_item e = RouteItem.bus info) := by
  obtain ⟨r, hr, hc, _, hv, hcases⟩ := construct_edge_cases c s hne hvalid
  have hkeys : ∀ st ∈ c.GetAllStops, ∃ ids, map_find r.vertexes_ st.name = some ids := by
    rw [hv]
    exact construct_vertexes_keys c s
  refine ⟨r, hr, ?_, ?_⟩
  · rw [hv]
    exact construct_vertexes_parity c s
  · intro e edge hedge
    rcases hcases e edge hedge with ⟨stop, hstop, hedge', hw, hb⟩ |
      ⟨bus, hbus, route, i, j, hroute, hij, hj, hedge', hb, hw⟩
    · left
      obtain ⟨ids, hids⟩ := hkeys stop hstop
      obtain ⟨h1, h2, h3⟩ := vertexes_entry_registered r _ _ hids
      refine ⟨?_, ?_, (map_count_pos_iff _ _).2 ⟨_, hw⟩, (map_count_eq_zero_iff _ _).2 hb,
        ⟨(r.spec_wait_edge stop).2, by simp only [spec_route_item, hb, hw]⟩⟩
      · rw [hedge']
        simp only [spec_wait_edge, h1]
        exact h2
      · rw [hedge']
        simp only [spec_wait_edge, h1]
        exact h3
    · right
      have hsub : ∀ p ∈ route, p < c.GetAllStops.length := by
        intro p hp
        rcases hroute with h | h
        · rw [h] at hp
          exact hvalid bus hbus p hp
        · rw [h] at hp
          exact hvalid bus hbus p (List.mem_reverse.1 hp)
      have hreg : ∀ k, k < route.length →
          ∃ ids, map_find r.vertexes_ (r.catalogue_.stop (route.getD k 0)).name = some ids := by
        intro k hk
        rw [hc]
        exact hkeys _ (stop_mem_storage c _ (hsub _ (getD_mem_of_lt route k hk)))
      obtain ⟨ids_i, hi⟩ := hreg i (by omega)
      obtain ⟨ids_j, hj'⟩ := hreg j hj
      obtain ⟨a1, _, a3⟩ := vertexes_entry_registered r _ _ hi
      obtain ⟨b1, b2, _⟩ := vertexes_entry_registered r _ _ hj'
      refine ⟨?_, ?_, (map_count_pos_iff _ _).2 ⟨_, hb⟩, (map_count_eq_zero_iff _ _).2 hw,
        ⟨(r.spec_ride_edge bus.name route i j).2, by simp only [spec_route_item, hb]⟩⟩
      · rw [hedge']
        simp only [spec_ride_edge, out_of, a1]
        exact a3
      · rw [hedge']
        simp only [spec_ride_edge, in_of, b1]
        exact b2

/-- Along a path of a graph whose edges lead from even to odd vertices when
their step is a wait step and from odd to even vertices when it is a ride step,
the steps alternate, by the parity of the vertex they leave. -/
theorem route_alternates (r : TransportRouter)
    (hE : ∀ (e : Nat) (edge : graph.Edge), r.graph_.edges_[e]? = some edge →
      (edge.from_ % 2 = 0 ∧ edge.to_ % 2 = 1 ∧
        ∃ info, r.spec_route_item e = RouteItem.wait info) ∨
      (edge.from_ % 2 = 1 ∧ edge.to_ % 2 = 0 ∧
        ∃ info, r.spec_route_item e = RouteItem.bus info)) :
    ∀ (path : List graph.EdgeId) (a b : Nat), graph.route_end r.graph_ a path = some b →
      (a + path.length) % 2 = b % 2 ∧
      ∀ (i : Nat) (hi : i < path.length),
        ((a + i) % 2 = 0 → ∃ info, r.spec_route_item (path.get ⟨i, hi⟩) = RouteItem.wait info) ∧
        ((a + i) % 2 = 1 → ∃ info, r.spec_route_item (path.get ⟨i, hi⟩) = RouteItem.bus info) := by
  intro path
  induction path with
  | nil =>
    intro a b h
    simp only [graph.route_end, Option.some.injEq] at h
    subst h
    exact ⟨rfl, fun i hi => absurd hi (Nat.not_lt_zero _)⟩
  | cons e rest ih =>
    intro a b h
    unfold graph.route_end at h
    cases hedge : r.graph_.edges_[e]? with
    | none => simp [hedge] at h
    | some edge =>
      simp only [hedge] at h
      by_cases hfrom : edge.from_ = a
      · rw [if_pos hfrom] at h
        obtain ⟨hlen, hsteps⟩ := ih edge.to_ b h
        have hcase := hE e edge hedge
        rw [hfrom] at hcase
        unfold graph.VertexId at *
        constructor
        · simp only [List.length_cons]
          rcases hcase with ⟨h1, h2, _⟩ | ⟨h1, h2, _⟩ <;> omega
        · intro i hi
          cases i with
          | zero =>
            simp only [List.get_eq_getElem, List.getElem_cons_zero, Nat.add_zero]
            rcases hcase with ⟨h1, _, h3⟩ | ⟨h1, _, h3⟩
            · exact ⟨fun _ => h3, fun h' => by omega⟩
            · exact ⟨fun h' => by omega, fun _ => h3⟩
          | succ i =>
            have hi' : i < rest.length := by simpa using hi
            have := hsteps i hi'
            simp only [List.get_eq_getElem, List.getElem_cons_succ] at this ⊢
            rcases hcase with ⟨h1, h2, _⟩ | ⟨h1, h2, _⟩
            · exact ⟨fun h' => this.1 (by omega), fun h' => this.2 (by omega)⟩
            · exact ⟨fun h' => this.1 (by omega), fun h' => this.2 (by omega)⟩
      · rw [if_neg hfrom] at h
        cases h

/-- A sequence of an even number of steps in which the steps at even positions
are wait steps and those at odd positions ride steps starts with a wait step,
ends with a ride step, and has no two neighbours of the same kind. -/
theorem alternating_steps (items : List RouteItem) (hlen : items.length % 2 = 0)
    (halt : ∀ (i : Nat) (hi : i < items.length),
      (i % 2 = 0 → ∃ info, items.get ⟨i, hi⟩ = RouteItem.wait info) ∧
      (i % 2 = 1 → ∃ info, items.get ⟨i, hi⟩ = RouteItem.bus info)) :
    (items ≠ [] →
      (∃ info, items.head? = some (RouteItem.wait info)) ∧
      (∃ info, items.getLast? = some (RouteItem.bus info))) ∧
    (∀ (i : Nat) (hi : i + 1 < items.length),
      (items.get ⟨i, Nat.lt_of_succ_lt hi⟩).is_wait ≠ (items.get ⟨i + 1, hi⟩).is_wait ∧
      (items.get ⟨i, Nat.lt_of_succ_lt hi⟩).is_bus ≠ (items.get ⟨i + 1, hi⟩).is_bus) := by
  constructor
  · intro hne
    have hpos : 0 < items.length := List.length_pos.2 hne
    constructor
    · obtain ⟨info, h⟩ := (halt 0 hpos).1 rfl
      refine ⟨info, ?_⟩
      rw [List.head?_eq_getElem?, List.getElem?_eq_getElem hpos]
      exact congrArg some h
    · have hl : items.length - 1 < items.length := by omega
      obtain ⟨info, h⟩ := (halt (items.length - 1) hl).2 (by omega)
      refine ⟨info, ?_⟩
      rw [List.getLast?_eq_getElem?, List.getElem?_eq_getElem hl]
      exact congrArg some h
  · intro i hi
    rcases Nat.mod_two_eq_zero_or_one i with h0 | h1
    · obtain ⟨w, hw⟩ := (halt i (Nat.lt_of_succ_lt hi)).1 h0
      obtain ⟨b, hb⟩ := (halt (i + 1) hi).2 (by omega)
      rw [hw, hb]
      simp [RouteItem.is_wait, RouteItem.is_bus]
    · obtain ⟨b, hb⟩ := (halt i (Nat.lt_of_succ_lt hi)).2 h1
      obtain ⟨w, hw⟩ := (halt (i + 1) hi).1 (by omega)
      rw [hw, hb]
      simp [RouteItem.is_wait, RouteItem.is_bus]

/-- C30: in the constructed graph no vertex is both a registered arrival
vertex and a registered departure vertex; every edge with a wait tag leads from
an arrival vertex to a departure vertex and every edge with a ride tag from a
departure vertex to an arrival vertex; hence every path between two arrival
vertices has even length, its edges at even positions being wait edges and
those at odd positions ride edges; and the itinerary `GetRouteInfo` returns for
a path the solver names between the two arrival vertices has an even number of
steps, wait steps at even and ride steps at odd positions, so that, when not
empty, it starts with a wait step, ends with a ride step, and has no two
neighbouring steps of the same kind. -/
theorem construct_bipartite (c : TransportCatalogue) (s : RoutingSettings)
    (hne : ∀ b ∈ c.GetAllBuses, b.stops ≠ [])
    (hvalid : ∀ b ∈ c.GetAllBuses, ∀ p ∈ b.stops, p < c.GetAllStops.length) :
    ∃ r, construct c s = Except.ok r ∧
      (∀ v, ¬ (r.is_arrival v = true ∧ r.is_departure v = true)) ∧
      (∀ (e : Nat) (edge : graph.Edge), r.graph_.edges_[e]? = some edge →
        (map_count r.wait_edges_ e > 0 →
          r.is_arrival edge.from_ = true ∧ r.is_departure edge.to_ = true) ∧
        (map_count r.bus_edges_ e > 0 →
          r.is_departure edge.from_ = true ∧ r.is_arrival edge.to_ = true)) ∧
      (∀ (path : List graph.EdgeId) (a b : graph.VertexId),
        r.is_arrival a = true → r.is_arrival b = true →
        graph.route_end r.graph_ a path = some b →
        path.length % 2 = 0 ∧
        ∀ (i : Nat) (hi : i < path.length),
          (i % 2 = 0 → map_count r.wait_edges_ (path.get ⟨i, hi⟩) > 0) ∧
          (i % 2 = 1 → map_count r.bus_edges_ (path.get ⟨i, hi⟩) > 0)) ∧
      (∀ (BuildRoute : graph.DirectedWeightedGraph → graph.VertexId → graph.VertexId →
          Option graph.RouteInfo) (stop_from stop_to : StopPtr) (total : Minutes)
          (items : List RouteItem),
        (∀ info, BuildRoute r.graph_ (r.in_of stop_from) (r.in_of stop_to) = some info →
          graph.route_end r.graph_ (r.in_of stop_from) info.edges = some (r.in_of stop_to)) →
        GetRouteInfo BuildRoute r stop_from stop_to = Except.ok (some (total, items)) →
        items.length % 2 = 0 ∧
        (∀ (i : Nat) (hi : i < items.length),
          (i % 2 = 0 → ∃ info, items.get ⟨i, hi⟩ = RouteItem.wait info) ∧
          (i % 2 = 1 → ∃ info, items.get ⟨i, hi⟩ = RouteItem.bus info)) ∧
        (items ≠ [] →
          (∃ info, items.head? = some (RouteItem.wait info)) ∧
          (∃ info, items.getLast? = some (RouteItem.bus info))) ∧
        (∀ (i : Nat) (hi : i + 1 < items.length),
          (items.get ⟨i, Nat.lt_of_succ_lt hi⟩).is_wait ≠ (items.get ⟨i + 1, hi⟩).is_wait ∧
          (items.get ⟨i, Nat.lt_of_succ_lt hi⟩).is_bus
            ≠ (items.get ⟨i + 1, hi⟩).is_bus)) := by
  obtain ⟨r, hr, hpar, hsides⟩ := construct_edge_sides c s hne hvalid
  have hE : ∀ (e : Nat) (edge : graph.Edge), r.graph_.edges_[e]? = some edge →
      (edge.from_ % 2 = 0 ∧ edge.to_ % 2 = 1 ∧
        ∃ info, r.spec_route_item e = RouteItem.wait info) ∨
      (edge.from_ % 2 = 1 ∧ edge.to_ % 2 = 0 ∧
        ∃ info, r.spec_route_item e = RouteItem.bus info) := by
    intro e edge hedge
    rcases hsides e edge hedge with ⟨h1, h2, _, _, h5⟩ | ⟨h1, h2, _, _, h5⟩
    · exact Or.inl ⟨is_arrival_even r hpar _ h1, is_departure_odd r hpar _ h2, h5⟩
    · exact Or.inr ⟨is_departure_odd r hpar _ h1, is_arrival_even r hpar _ h2, h5⟩
  have htag : ∀ e : graph.EdgeId,
      ((∃ info, r.spec_route_item e = RouteItem.wait info) → map_count r.wait_edges_ e > 0) ∧
      ((∃ info, r.spec_route_item e = RouteItem.bus info) → map_count r.bus_edges_ e > 0) := by
    intro e
    unfold spec_route_item
    cases hb : map_find r.bus_edges_ e with
    | some info =>
      exact ⟨fun ⟨_, h⟩ => by simp at h, fun _ => (map_count_pos_iff _ _).2 ⟨_, hb⟩⟩
    | none =>
      cases hw : map_find r.wait_edges_ e with
      | some info =>
        exact ⟨fun _ => (map_count_pos_iff _ _).2 ⟨_, hw⟩, fun ⟨_, h⟩ => by simp at h⟩
      | none => exact ⟨fun ⟨_, h⟩ => by simp at h, fun ⟨_, h⟩ => by simp at h⟩
  have hin : ∀ p, r.in_of p % 2 = 0 := by
    intro p
    unfold in_of vertexes_entry
    cases hf : map_find r.vertexes_ (r.catalogue_.stop p).name with
    | none => rfl
    | some ids => exact (hpar _ (map_find_mem _ _ _ hf)).1
  refine ⟨r, hr, ?_, ?_, ?_, ?_⟩
  · rintro v ⟨h1, h2⟩
    have e1 := is_arrival_even r hpar v h1
    have e2 := is_departure_odd r hpar v h2
    unfold graph.VertexId at *
    omega
  · intro e edge hedge
    rcases hsides e edge hedge with ⟨h1, h2, h3, h4, _⟩ | ⟨h1, h2, h3, h4, _⟩
    · exact ⟨fun _ => ⟨h1, h2⟩, fun h => by omega⟩
    · exact ⟨fun h => by omega, fun _ => ⟨h1, h2⟩⟩
  · intro path a b ha hb hpath
    have ea := is_arrival_even r hpar a ha
    have eb := is_arrival_even r hpar b hb
    obtain ⟨hlen, hsteps⟩ := route_alternates r hE path a b hpath
    unfold graph.VertexId at *
    refine ⟨by omega, ?_⟩
    intro i hi
    obtain ⟨h1, h2⟩ := hsteps i hi
    exact ⟨fun h => (htag _).1 (h1 (by omega)), fun h => (htag _).2 (h2 (by omega))⟩
  · intro BuildRoute stop_from stop_to total items hsound hres
    obtain ⟨info, hb, _, hitems⟩ := GetRouteInfo_ok_inv BuildRoute r _ _ _ _ hres
    obtain ⟨hlen, hsteps⟩ := route_alternates r hE info.edges _ _ (hsound info hb)
    have ea := hin stop_from
    have eb := hin stop_to
    have hlen' : items.length % 2 = 0 := by
      rw [hitems, List.length_map]
      unfold graph.VertexId at *
      omega
    have halt : ∀ (i : Nat) (hi : i < items.length),
        (i % 2 = 0 → ∃ info, items.get ⟨i, hi⟩ = RouteItem.wait info) ∧
        (i % 2 = 1 → ∃ info, items.get ⟨i, hi⟩ = RouteItem.bus info) := by
      subst hitems
      intro i hi
      have hi' : i < info.edges.length := by simpa using hi
      obtain ⟨h1, h2⟩ := hsteps i hi'
      simp only [List.get_eq_getElem, List.getElem_map] at h1 h2 ⊢
      unfold graph.VertexId at *
      exact ⟨fun h => h1 (by omega), fun h => h2 (by omega)⟩
    obtain ⟨hends, hneigh⟩ := alternating_steps items hlen' halt
    exact ⟨hlen', halt, hends, hneigh⟩

/-- Instance of C30 on `scenario_XY` with the solver stand-in `solver_X_to_Y`,
which names the path of the edges `0` and `2` from the arrival vertex of `X`
to that of `Y`: the itinerary from `X` to `Y` has two steps. -/
theorem construct_bipartite_witness :
    (∀ b ∈ scenario_XY.GetAllBuses, b.stops ≠ []) ∧
    (∀ b ∈ scenario_XY.GetAllBuses, ∀ p ∈ b.stops, p < scenario_XY.GetAllStops.length) ∧
    ∃ r items, construct scenario_XY settings_6_60 = Except.ok r ∧
      GetRouteInfo solver_X_to_Y r 0 1
        = Except.ok (some (graph.route_weight r.graph_ [0, 2], items)) ∧
      items.length = 2 ∧
      (∃ info, items.head? = some (RouteItem.wait info)) ∧
      (∃ info, items.getLast? = some (RouteItem.bus info)) := by
  refine ⟨by decide, by decide, ?_⟩
  obtain ⟨r, hr, _, _, _, h⟩ :=
    construct_bipartite scenario_XY settings_6_60 (by decide) (by decide)
  have e : r = router_scenario_XY 6 := by
    have h1 := construct_scenario_XY 6
    have h2 : construct scenario_XY settings_6_60
        = construct scenario_XY { wait_time := 6, velocity := 60 } := rfl
    rw [h2, h1] at hr
    exact (Except.ok.inj hr).symm
  have hq : GetRouteInfo solver_X_to_Y r 0 1
      = Except.ok (some (graph.route_weight r.graph_ [0, 2],
          [0, 2].map r.spec_route_item)) := by
    rw [e]
    simp [GetRouteInfo, GetRouteInfo_items, solver_X_to_Y, spec_route_item, map_at, map_find,
      map_count, router_scenario_XY, scenario_XY_eq, TransportCatalogue.stop]
  have hsound : ∀ info, solver_X_to_Y r.graph_ (r.in_of 0) (r.in_of 1) = some info →
      graph.route_end r.graph_ (r.in_of 0) info.edges = some (r.in_of 1) := by
    rw [e]
    decide
  obtain ⟨_, _, hends, _⟩ := h solver_X_to_Y 0 1 _ _ hsound hq
  exact ⟨r, _, hr, hq, rfl, hends (by simp)⟩

end TransportRouter

end router

end transport_catalogue

/-! ## Map renderer -/

namespace renderer

open transport_catalogue

namespace MapRenderer

theorem construct_return_eq (locs : List Location) :
    ∀ (k : Nat) (suffix : List Location), k ≤ locs.length →
      construct_return k (locs ++ suffix)
        = Except.ok (locs ++ suffix ++ (locs.take k).reverse) := by
  intro k
  induction k with
  | zero => intro suffix _; simp [construct_return]
  | succ k ih =>
    intro suffix hk
    have hlt : k < locs.length := hk
    have hget : (locs ++ suffix)[k]? = some locs[k] := by
      rw [List.getElem?_append_left hlt, List.getElem?_eq_getElem hlt]
    simp only [construct_return, hget]
    have ht : (locs.take (k + 1)).reverse = locs[k] :: (locs.take k).reverse := by
      rw [List.take_succ, List.getElem?_eq_getElem hlt]
      simp
    rw [List.append_assoc, ih (suffix ++ [locs[k]]) (Nat.le_of_lt hlt), ht]
    simp

/-- The path computed for a line: the projected stops, followed for a line that
is not circular by the projected stops before the last one in reverse order. -/
theorem construct_route_eq (sphere_projector : Coordinates → svg.Point)
    (c : TransportCatalogue) (bus : Bus) :
    construct_route sphere_projector c bus
      = Except.ok
        (bus.stops.map (fun stop =>
            ({ name := (c.stop stop).name,
               point := sphere_projector (c.stop stop).coordinates } : Location))
          ++ (if bus.is_circular then []
              else ((bus.stops.map (fun stop =>
                ({ name := (c.stop stop).name,
                   point := sphere_projector (c.stop stop).coordinates } : Location))).take
                  (bus.stops.length - 1)).reverse)) := by
  unfold construct_route
  by_cases hc : bus.is_circular
  · simp [hc]
  · simp only [hc, Bool.not_false, if_true, Bool.false_eq_true, if_false]
    have hk : ((((bus.stops.map (fun stop =>
        ({ name := (c.stop stop).name,
           point := sphere_projector (c.stop stop).coordinates } : Location))).length : Int)
        - 2 + 1).toNat) = bus.stops.length - 1 := by
      simp only [List.length_map]
      omega
    rw [hk]
    have h := construct_return_eq (bus.stops.map (fun stop =>
        ({ name := (c.stop stop).name,
           point := sphere_projector (c.stop stop).coordinates } : Location)))
      (bus.stops.length - 1) [] (by simp)
    simpa using h

theorem take_pred_reverse {α : Type} (l : List α) :
    (l.take (l.length - 1)).reverse = l.reverse.tail := by
  rcases List.eq_nil_or_concat l with h | ⟨init, x, h⟩
  · subst h; rfl
  · subst h
    simp

theorem there_and_back_palindrome {α : Type} (l : List α) :
    (l ++ l.reverse.tail).reverse = l ++ l.reverse.tail := by
  rcases List.eq_nil_or_concat l with h | ⟨init, x, h⟩
  · subst h; rfl
  · subst h
    simp

theorem construct_loop_append (sphere_projector : Coordinates → svg.Point)
    (c : TransportCatalogue) :
    ∀ (pre post : List Bus) (data : List (String × List Location)),
      construct_loop sphere_projector c (pre ++ post) data
        = match construct_loop sphere_projector c pre data with
          | Except.error f => Except.error f
          | Except.ok data' => construct_loop sphere_projector c post data' := by
  intro pre
  induction pre with
  | nil => intro post data; rfl
  | cons bus rest ih =>
    intro post data
    simp only [List.cons_append, construct_loop]
    by_cases h0 : bus.stops.length = 0
    · simp only [h0, if_true]
      exact ih post data
    · simp only [h0, if_false, construct_route_eq]
      exact ih post _

theorem construct_loop_ok (sphere_projector : Coordinates → svg.Point)
    (c : TransportCatalogue) :
    ∀ (buses : List Bus) (data : List (String × List Location)),
      ∃ data', construct_loop sphere_projector c buses data = Except.ok data' := by
  intro buses
  induction buses with
  | nil => intro data; exact ⟨data, rfl⟩
  | cons bus rest ih =>
    intro data
    simp only [construct_loop]
    by_cases h0 : bus.stops.length = 0
    · simp only [h0, if_true]
      exact ih data
    · simp only [h0, if_false, construct_route_eq]
      exact ih _

theorem construct_loop_keep (sphere_projector : Coordinates → svg.Point)
    (c : TransportCatalogue) (name : String) (v : List Location) :
    ∀ (post : List Bus) (data : List (String × List Location)),
      (∀ b ∈ post, b.name = name → b.stops = []) → map_find data name = some v →
      ∃ data', construct_loop sphere_projector c post data = Except.ok data' ∧
        map_find data' name = some v := by
  intro post
  induction post with
  | nil => intro data _ hv; exact ⟨data, rfl, hv⟩
  | cons bus rest ih =>
    intro data hlast hv
    simp only [construct_loop]
    by_cases h0 : bus.stops.length = 0
    · simp only [h0, if_true]
      exact ih data (fun b hb => hlast b (List.mem_cons_of_mem _ hb)) hv
    · simp only [h0, if_false, construct_route_eq]
      apply ih _ (fun b hb => hlast b (List.mem_cons_of_mem _ hb))
      have hne : name ≠ bus.name := by
        intro h
        have := hlast bus (List.mem_cons_self _ _) h.symm
        rw [this] at h0
        exact h0 rfl
      rw [map_find_assign_ne _ _ _ _ hne]
      exact hv

/-- C27, as the code has it: for a line with `n ≥ 1` listed stops the path
computed by the constructor of the map renderer is, when the line is not
circular, the projected stop sequence followed by its reverse without the first element, a
palindrome of length `2n - 1`, which is the value of `StopsOnRoute`; when the
line is circular it is the projected stop sequence, of length `n`, again the
value of `StopsOnRoute`; and the renderer is constructed and stores this path
under the line's name, provided no line stored later with at least one stop
carries the same name. -/
theorem construct_route_there_and_back (sphere_projector : Coordinates → svg.Point)
    (c : TransportCatalogue) (p : BusPtr) (pre post : List Bus)
    (hsplit : c.GetAllBuses = pre ++ c.bus p :: post)
    (hn : 1 ≤ (c.bus p).stops.length)
    (hlast : ∀ b ∈ post, b.name = (c.bus p).name → b.stops = []) :
    ∃ path m, construct_route sphere_projector c (c.bus p) = Except.ok path ∧
      construct sphere_projector c = Except.ok m ∧
      map_find m.data_ (c.bus p).name = some path ∧
      (path.length : Int) = c.StopsOnRoute p ∧
      ((c.bus p).is_circular = false →
        path = (c.bus p).stops.map (fun stop =>
            ({ name := (c.stop stop).name,
               point := sphere_projector (c.stop stop).coordinates } : Location))
          ++ ((c.bus p).stops.map (fun stop =>
            ({ name := (c.stop stop).name,
               point := sphere_projector (c.stop stop).coordinates } : Location))).reverse.tail ∧
        path.reverse = path ∧
        path.length = 2 * (c.bus p).stops.length - 1) ∧
      ((c.bus p).is_circular = true →
        path = (c.bus p).stops.map (fun stop =>
            ({ name := (c.stop stop).name,
               point := sphere_projector (c.stop stop).coordinates } : Location)) ∧
        path.length = (c.bus p).stops.length) := by
  have hroute := construct_route_eq sphere_projector c (c.bus p)
  have h0 : ¬ (c.bus p).stops.length = 0 := by omega
  obtain ⟨data1, hpre⟩ := construct_loop_ok sphere_projector c pre []
  obtain ⟨data', hloop, hfind⟩ := construct_loop_keep sphere_projector c (c.bus p).name _ post
    (map_assign data1 (c.bus p).name _) hlast (map_find_assign_self data1 (c.bus p).name _)
  have hdata : construct_loop sphere_projector c c.GetAllBuses [] = Except.ok data' := by
    rw [hsplit, construct_loop_append, hpre]
    simp only [construct_loop, h0, if_false, hroute]
    exact hloop
  refine ⟨_, ⟨data'⟩, hroute, ?_, hfind, ?_, ?_, ?_⟩
  · simp only [construct, hdata]
  · unfold TransportCatalogue.StopsOnRoute
    by_cases hc : (c.bus p).is_circular
    · simp [hc]
    · simp only [hc, Bool.false_eq_true, if_false, List.length_append, List.length_map,
        List.length_reverse, List.length_take]
      omega
  · intro hc
    have hmap : ((c.bus p).stops.map (fun stop =>
        ({ name := (c.stop stop).name,
           point := sphere_projector (c.stop stop).coordinates } : Location))).length
        = (c.bus p).stops.length := List.length_map _ _
    simp only [hc, Bool.false_eq_true, if_false]
    rw [← hmap, take_pred_reverse]
    refine ⟨rfl, there_and_back_palindrome _, ?_⟩
    simp only [List.length_append, List.length_tail, List.length_reverse, List.length_map]
    omega
  · intro hc
    simp [hc]

/-- Instance of C27 on `line_ABC` (line `[A, B, C]`, not circular): the path
stored under `L` has five entries. -/
theorem construct_route_there_and_back_witness :
    line_ABC.GetAllBuses = [] ++ line_ABC.bus 0 :: [] ∧
    1 ≤ (line_ABC.bus 0).stops.length ∧
    (∀ b ∈ ([] : List Bus), b.name = (line_ABC.bus 0).name → b.stops = []) ∧
    ∃ path m, construct (fun _ => ⟨0, 0⟩) line_ABC = Except.ok m ∧
      map_find m.data_ "L" = some path ∧ (path.length : Int) = 5 := by
  refine ⟨by decide, by decide, by decide, ?_⟩
  obtain ⟨path, m, _, hm, hfind, hlen, _⟩ :=
    construct_route_there_and_back (fun _ => ⟨0, 0⟩) line_ABC 0 [] [] (by decide) (by decide)
      (by decide)
  exact ⟨path, m, hm, hfind, hlen.trans (by decide)⟩

end MapRenderer

end renderer

/-! ## Weights of the edges -/

namespace transport_catalogue

namespace TransportCatalogue

/-- With non-negative recorded distances a known lookup is non-negative, and so
is the lookup of the reversed pair. -/
theorem GetDistanceBetweenStops_nonneg (c : TransportCatalogue)
    (hnonneg : ∀ e ∈ c.distances_between_stops_, 0 ≤ e.2) (a b : StopPtr)
    (h : c.GetDistanceBetweenStops a b ≠ -1) :
    0 ≤ c.GetDistanceBetweenStops a b ∧ 0 ≤ c.GetDistanceBetweenStops b a := by
  have hno : ∀ e ∈ c.distances_between_stops_, e.2 ≠ -1 := by
    intro e he h'
    have := hnonneg e he
    omega
  have hback : c.GetDistanceBetweenStops b a ≠ -1 := by
    intro h'
    have h1 := (GetDistanceBetweenStops_unknown_iff c hno b a).1 h'
    exact h ((GetDistanceBetweenStops_unknown_iff c hno a b).2 ⟨h1.2, h1.1⟩)
  constructor
  · rcases GetDistanceBetweenStops_stored c a b h with hs | hs
    · exact hnonneg _ hs
    · exact hnonneg _ hs
  · rcases GetDistanceBetweenStops_stored c b a hback with hs | hs
    · exact hnonneg _ hs
    · exact hnonneg _ hs

end TransportCatalogue

namespace router

namespace TransportRouter

theorem spec_ride_weight_add (r : TransportRouter) (route : List StopPtr) (i k : Nat)
    (hik : i ≤ k) :
    ∀ d, r.spec_ride_weight route i (k + d)
      = r.spec_ride_weight route i k + r.spec_ride_weight route k (k + d) := by
  intro d
  induction d with
  | zero => simp [spec_ride_weight_self]
  | succ d ih =>
    have e2 : i + (k - i + d) = k + d := by omega
    have h1 := spec_ride_weight_succ r route i (k - i + d)
    have h2 := spec_ride_weight_succ r route k d
    rw [e2] at h1
    show r.spec_ride_weight route i (k + d + 1)
      = r.spec_ride_weight route i k + r.spec_ride_weight route k (k + d + 1)
    rw [h1, h2, ih]
    ring

theorem spec_ride_weight_mono (r : TransportRouter) (route : List StopPtr) (i : Nat)
    (hstep : ∀ k, k + 1 < route.length →
      0 ≤ r.CalculateTimeBetweenStations (route.getD k 0) (route.getD (k + 1) 0)) :
    ∀ d j, i ≤ j → j + d < route.length →
      r.spec_ride_weight route i j ≤ r.spec_ride_weight route i (j + d) := by
  intro d
  induction d with
  | zero => intro j _ _; exact le_refl _
  | succ d ih =>
    intro j hij hlt
    have h1 := spec_ride_weight_succ r route i (j - i + d)
    have e2 : i + (j - i + d) = j + d := by omega
    rw [e2] at h1
    show r.spec_ride_weight route i j ≤ r.spec_ride_weight route i (j + d + 1)
    rw [h1]
    have := ih j hij (by omega)
    have hs := hstep (j + d) (by omega)
    linarith

theorem CalculateTimeBetweenStations_nonneg (r : TransportRouter) (a b : StopPtr)
    (hvel : 0 < r.settings_.velocity) (hd : 0 ≤ r.catalogue_.GetDistanceBetweenStops a b) :
    0 ≤ r.CalculateTimeBetweenStations a b := by
  unfold CalculateTimeBetweenStations
  have hd' : (0 : Rat) ≤ ((r.catalogue_.GetDistanceBetweenStops a b : Int) : Rat) := by
    exact_mod_cast hd
  positivity

/-- When the lookups between consecutive stops of a stop sequence are known
and recorded distances are non-negative, the travel time of every span of the
sequence and of the reversed sequence is non-negative. -/
theorem step_times_nonneg (r : TransportRouter) (stops route : List StopPtr)
    (hvel : 0 < r.settings_.velocity)
    (hnonneg : ∀ e ∈ r.catalogue_.distances_between_stops_, 0 ≤ e.2)
    (hknown : ∀ i, i + 1 < stops.length →
      r.catalogue_.GetDistanceBetweenStops (stops.getD i 0) (stops.getD (i + 1) 0) ≠ -1)
    (hroute : route = stops ∨ route = stops.reverse) :
    ∀ k, k + 1 < route.length →
      0 ≤ r.CalculateTimeBetweenStations (route.getD k 0) (route.getD (k + 1) 0) := by
  intro k hk
  apply CalculateTimeBetweenStations_nonneg r _ _ hvel
  rcases hroute with h | h
  · subst h
    exact (TransportCatalogue.GetDistanceBetweenStops_nonneg _ hnonneg _ _ (hknown k hk)).1
  · subst h
    have hlen : stops.reverse.length = stops.length := List.length_reverse _
    rw [hlen] at hk
    have e1 : stops.reverse.getD k 0 = stops.getD (stops.length - 1 - k) 0 := by
      rw [List.getD_eq_getElem _ _ (by rw [hlen]; omega), List.getD_eq_getElem _ _ (by omega),
        List.getElem_reverse]
    have e2 : stops.reverse.getD (k + 1) 0 = stops.getD (stops.length - 1 - (k + 1)) 0 := by
      rw [List.getD_eq_getElem _ _ (by rw [hlen]; omega), List.getD_eq_getElem _ _ (by omega),
        List.getElem_reverse]
    have e3 : stops.length - 1 - k = stops.length - 1 - (k + 1) + 1 := by omega
    rw [e1, e2, e3]
    exact (TransportCatalogue.GetDistanceBetweenStops_nonneg _ hnonneg _ _
      (hknown (stops.length - 1 - (k + 1)) (by omega))).2

/-- In the constructed router every ride edge of every walked direction of
every line is an edge of the graph, tagged as a ride with its tag. -/
theorem construct_rides_present (c : TransportCatalogue) (s : RoutingSettings)
    (hne : ∀ b ∈ c.GetAllBuses, b.stops ≠ [])
    (hvalid : ∀ b ∈ c.GetAllBuses, ∀ p ∈ b.stops, p < c.GetAllStops.length) :
    ∃ r, construct c s = Except.ok r ∧ r.catalogue_ = c ∧ r.settings_ = s ∧
      ∀ bus ∈ c.GetAllBuses, ∀ route : List StopPtr,
        (route = bus.stops ∨ (bus.is_circular = false ∧ route = bus.stops.reverse)) →
        ∀ i j : Nat, i < j → j < route.length →
          ∃ e : Nat, r.graph_.edges_[e]? = some (r.spec_ride_edge bus.name route i j).1 ∧
            map_find r.bus_edges_ e = some (r.spec_ride_edge bus.name route i j).2 := by
  obtain ⟨r, hr, hc, hs, _, _, _, hE, _, hB⟩ := construct_fields c s hne hvalid
  refine ⟨r, hr, hc, hs, ?_⟩
  intro bus hbus route hroute i j hij hj
  have hmem : r.spec_ride_edge bus.name route i j
      ∈ c.GetAllBuses.flatMap r.spec_rides_of_bus := by
    rw [List.mem_flatMap]
    refine ⟨bus, hbus, ?_⟩
    unfold spec_rides_of_bus
    rcases hroute with h | ⟨hcirc, h⟩
    · subst h
      exact List.mem_append_left _ (spec_ride_edge_mem r bus.name bus.stops i j hij hj)
    · subst h
      rw [hcirc]
      exact List.mem_append_right _ (spec_ride_edge_mem r bus.name _ i j hij hj)
  obtain ⟨t, ht, hget⟩ := List.getElem_of_mem hmem
  have hflat : (c.GetAllBuses.flatMap r.spec_rides_of_bus)[t]?
      = some (r.spec_ride_edge bus.name route i j) := by
    rw [List.getElem?_eq_getElem ht, hget]
  refine ⟨c.GetAllStops.length + t, ?_, ?_⟩
  · rw [hE, List.getElem?_append_right (by simp)]
    simp only [List.length_map, Nat.add_sub_cancel_left, List.getElem?_map, hflat,
      Option.map_some']
  · rw [hB, map_find_enumFrom, if_pos (Nat.le_add_right _ _), Nat.add_sub_cancel_left,
      List.getElem?_map, hflat]
    rfl

/-- C31: with a non-negative wait time, a positive velocity, non-negative
recorded distances and a known distance between the consecutive stops of every
line, every edge of the constructed graph has a non-negative weight; and for
every walked direction of a line and every boarding index `i`, the ride edges
to the indices `j ≤ j'` are edges of the graph, tagged with the span counts
`j - i ≤ j' - i`, and the weight of the first is at most that of the second. -/
theorem construct_weights_nonneg (c : TransportCatalogue) (s : RoutingSettings)
    (hne : ∀ b ∈ c.GetAllBuses, b.stops ≠ [])
    (hvalid : ∀ b ∈ c.GetAllBuses, ∀ p ∈ b.stops, p < c.GetAllStops.length)
    (hwait : 0 ≤ s.wait_time) (hvel : 0 < s.velocity)
    (hnonneg : ∀ e ∈ c.distances_between_stops_, 0 ≤ e.2)
    (hknown : ∀ bus ∈ c.GetAllBuses, ∀ i, i < bus.stops.length - 1 →
      c.GetDistanceBetweenStops (bus.stops.getD i 0) (bus.stops.getD (i + 1) 0) ≠ -1) :
    ∃ r, construct c s = Except.ok r ∧
      (∀ edge ∈ r.graph_.edges_, 0 ≤ edge.weight) ∧
      ∀ bus ∈ c.GetAllBuses, ∀ route : List StopPtr,
        (route = bus.stops ∨ (bus.is_circular = false ∧ route = bus.stops.reverse)) →
        ∀ i j j' : Nat, i < j → j ≤ j' → j' < route.length →
          (∃ e e' : Nat,
            r.graph_.edges_[e]? = some (r.spec_ride_edge bus.name route i j).1 ∧
            map_find r.bus_edges_ e = some (r.spec_ride_edge bus.name route i j).2 ∧
            r.graph_.edges_[e']? = some (r.spec_ride_edge bus.name route i j').1 ∧
            map_find r.bus_edges_ e' = some (r.spec_ride_edge bus.name route i j').2) ∧
          (r.spec_ride_edge bus.name route i j).2.span_count = ((j - i : Nat) : Int) ∧
          (r.spec_ride_edge bus.name route i j').2.span_count = ((j' - i : Nat) : Int) ∧
          (r.spec_ride_edge bus.name route i j).1.weight
            ≤ (r.spec_ride_edge bus.name route i j').1.weight := by
  obtain ⟨r, hr, hc, hs, hpresent⟩ := construct_rides_present c s hne hvalid
  obtain ⟨r', hr', _, _, _, hcases⟩ := construct_edge_cases c s hne hvalid
  have hrr : r' = r := Except.ok.inj (hr'.symm.trans hr)
  subst hrr
  have hvel' : 0 < r'.settings_.velocity := by rw [hs]; exact hvel
  have hnonneg' : ∀ e ∈ r'.catalogue_.distances_between_stops_, 0 ≤ e.2 := by
    rw [hc]; exact hnonneg
  have hsteps : ∀ bus ∈ c.GetAllBuses, ∀ route : List StopPtr,
      (route = bus.stops ∨ route = bus.stops.reverse) →
      ∀ k, k + 1 < route.length →
        0 ≤ r'.CalculateTimeBetweenStations (route.getD k 0) (route.getD (k + 1) 0) := by
    intro bus hbus route hroute
    apply step_times_nonneg r' bus.stops route hvel' hnonneg' _ hroute
    rw [hc]
    exact fun i hi => hknown bus hbus i (by omega)
  refine ⟨r', hr, ?_, ?_⟩
  · intro edge hedge
    obtain ⟨e, he, hget⟩ := List.getElem_of_mem hedge
    have hsome : r'.graph_.edges_[e]? = some edge := by
      rw [List.getElem?_eq_getElem he, hget]
    rcases hcases e edge hsome with ⟨stop, _, hedge', _, _⟩ |
      ⟨bus, hbus, route, i, j, hroute, hij, hj, hedge', _, _⟩
    · rw [hedge']
      simp only [spec_wait_edge, hs]
      exact_mod_cast hwait
    · rw [hedge']
      simp only [spec_ride_edge]
      have h0 := spec_ride_weight_mono r' route i (hsteps bus hbus route hroute) (j - i) i
        (le_refl _) (by omega)
      rw [spec_ride_weight_self] at h0
      have e1 : i + (j - i) = j := by omega
      rw [e1] at h0
      exact h0
  · intro bus hbus route hroute i j j' hij hjj hj'
    obtain ⟨e, he1, he2⟩ := hpresent bus hbus route hroute i j hij (by omega)
    obtain ⟨e', he1', he2'⟩ := hpresent bus hbus route hroute i j' (by omega) hj'
    refine ⟨⟨e, e', he1, he2, he1', he2'⟩, rfl, rfl, ?_⟩
    simp only [spec_ride_edge]
    have hroute' : route = bus.stops ∨ route = bus.stops.reverse := by
      rcases hroute with h | ⟨_, h⟩
      · exact Or.inl h
      · exact Or.inr h
    have h0 := spec_ride_weight_mono r' route i (hsteps bus hbus route hroute') (j' - j) j
      (by omega) (by omega)
    have e1 : j + (j' - j) = j' := by omega
    rw [e1] at h0
    exact h0

/-- Instance of C31 on `line_ABC` (`A → B = 5`, `B → C = 7`) with a wait time
of `6` and a velocity of `60`: the router is constructed and all its edges
have non-negative weights. -/
theorem construct_weights_nonneg_witness :
    (∀ b ∈ line_ABC.GetAllBuses, b.stops ≠ []) ∧
    (∀ b ∈ line_ABC.GetAllBuses, ∀ p ∈ b.stops, p < line_ABC.GetAllStops.length) ∧
    0 ≤ settings_6_60.wait_time ∧ 0 < settings_6_60.velocity ∧
    (∀ e ∈ line_ABC.distances_between_stops_, 0 ≤ e.2) ∧
    (∀ bus ∈ line_ABC.GetAllBuses, ∀ i, i < bus.stops.length - 1 →
      line_ABC.GetDistanceBetweenStops (bus.stops.getD i 0) (bus.stops.getD (i + 1) 0)
        ≠ -1) ∧
    ∃ r, construct line_ABC settings_6_60 = Except.ok r ∧
      ∀ edge ∈ r.graph_.edges_, 0 ≤ edge.weight := by
  refine ⟨by decide, by decide, by decide, by decide, by decide, by decide, ?_⟩
  obtain ⟨r, hr, h, _⟩ :=
    construct_weights_nonneg line_ABC settings_6_60 (by decide) (by decide) (by decide)
      (by decide) (by decide) (by decide)
  exact ⟨r, hr, h⟩

/-- C33: for every walked direction of a line and all indices `i < k < j`, the
ride edges `i → k`, `k → j` and `i → j` are edges of the constructed graph with
their tags; the weight and the span count of `i → j` are the sums of those of
`i → k` and `k → j`; and with a non-negative wait time the weight of `i → j` is
at most the weight of `i → k`, plus the wait time, plus the weight of
`k → j`. -/
theorem construct_ride_weights_additive (c : TransportCatalogue) (s : RoutingSettings)
    (hne : ∀ b ∈ c.GetAllBuses, b.stops ≠ [])
    (hvalid : ∀ b ∈ c.GetAllBuses, ∀ p ∈ b.stops, p < c.GetAllStops.length) :
    ∃ r, construct c s = Except.ok r ∧
      ∀ bus ∈ c.GetAllBuses, ∀ route : List StopPtr,
        (route = bus.stops ∨ (bus.is_circular = false ∧ route = bus.stops.reverse)) →
        ∀ i k j : Nat, i < k → k < j → j < route.length →
          (∃ e₁ e₂ e₃ : Nat,
            r.graph_.edges_[e₁]? = some (r.spec_ride_edge bus.name route i k).1 ∧
            map_find r.bus_edges_ e₁ = some (r.spec_ride_edge bus.name route i k).2 ∧
            r.graph_.edges_[e₂]? = some (r.spec_ride_edge bus.name route k j).1 ∧
            map_find r.bus_edges_ e₂ = some (r.spec_ride_edge bus.name route k j).2 ∧
            r.graph_.edges_[e₃]? = some (r.spec_ride_edge bus.name route i j).1 ∧
            map_find r.bus_edges_ e₃ = some (r.spec_ride_edge bus.name route i j).2) ∧
          (r.spec_ride_edge bus.name route i j).1.weight
            = (r.spec_ride_edge bus.name route i k).1.weight
              + (r.spec_ride_edge bus.name route k j).1.weight ∧
          (r.spec_ride_edge bus.name route i j).2.span_count
            = (r.spec_ride_edge bus.name route i k).2.span_count
              + (r.spec_ride_edge bus.name route k j).2.span_count ∧
          (0 ≤ s.wait_time →
            (r.spec_ride_edge bus.name route i j).1.weight
              ≤ (r.spec_ride_edge bus.name route i k).1.weight + (s.wait_time : Rat)
                + (r.spec_ride_edge bus.name route k j).1.weight) := by
  obtain ⟨r, hr, _, _, hpresent⟩ := construct_rides_present c s hne hvalid
  refine ⟨r, hr, ?_⟩
  intro bus hbus route hroute i k j hik hkj hj
  obtain ⟨e₁, h1, h1'⟩ := hpresent bus hbus route hroute i k hik (by omega)
  obtain ⟨e₂, h2, h2'⟩ := hpresent bus hbus route hroute k j hkj hj
  obtain ⟨e₃, h3, h3'⟩ := hpresent bus hbus route hroute i j (by omega) hj
  have hadd := spec_ride_weight_add r route i k (by omega) (j - k)
  have e1 : k + (j - k) = j := by omega
  rw [e1] at hadd
  refine ⟨⟨e₁, e₂, e₃, h1, h1', h2, h2', h3, h3'⟩, ?_, ?_, ?_⟩
  · simp only [spec_ride_edge]
    exact hadd
  · simp only [spec_ride_edge]
    omega
  · intro hwait
    have hw : (0 : Rat) ≤ (s.wait_time : Rat) := by exact_mod_cast hwait
    simp only [spec_ride_edge]
    rw [hadd]
    linarith

/-- Instance of C33 on `line_ABC` (line `L = [A, B, C]`): the weight of the ride
edge from index `0` to index `2` is the sum of the weights of the ride edges
from `0` to `1` and from `1` to `2`. -/
theorem construct_ride_weights_additive_witness :
    (∀ b ∈ line_ABC.GetAllBuses, b.stops ≠ []) ∧
    (∀ b ∈ line_ABC.GetAllBuses, ∀ p ∈ b.stops, p < line_ABC.GetAllStops.length) ∧
    ∃ r, construct line_ABC settings_6_60 = Except.ok r ∧
      (r.spec_ride_edge "L" [0, 1, 2] 0 2).1.weight
        = (r.spec_ride_edge "L" [0, 1, 2] 0 1).1.weight
          + (r.spec_ride_edge "L" [0, 1, 2] 1 2).1.weight := by
  refine ⟨by decide, by decide, ?_⟩
  obtain ⟨r, hr, h⟩ :=
    construct_ride_weights_additive line_ABC settings_6_60 (by decide) (by decide)
  exact ⟨r, hr, (h ⟨"L", [0, 1, 2], false⟩ (by decide) [0, 1, 2] (Or.inl rfl) 0 1 2
    (by decide) (by decide) (by decide)).2.1⟩

/-- The time of the step recorded for an edge identifier of the constructed
router is the weight of that edge. -/
theorem construct_step_times (c : TransportCatalogue) (s : RoutingSettings)
    (hne : ∀ b ∈ c.GetAllBuses, b.stops ≠ [])
    (hvalid : ∀ b ∈ c.GetAllBuses, ∀ p ∈ b.stops, p < c.GetAllStops.length) :
    ∃ r, construct c s = Except.ok r ∧
      ∀ e : graph.EdgeId, (r.spec_route_item e).time = graph.edge_weight r.graph_ e := by
  obtain ⟨r, hr, _, _, _, hcases⟩ := construct_edge_cases c s hne hvalid
  obtain ⟨r', hr', _, _, _, _, _, hE, hW, hB⟩ := construct_fields c s hne hvalid
  have hrr : r' = r := Except.ok.inj (hr'.symm.trans hr)
  subst hrr
  refine ⟨r', hr, ?_⟩
  intro e
  unfold graph.edge_weight
  cases hedge : r'.graph_.edges_[e]? with
  | some edge =>
    rcases hcases e edge hedge with ⟨stop, _, hedge', hw, hb⟩ |
      ⟨bus, _, route, i, j, _, _, _, hedge', hb, _⟩
    · simp only [spec_route_item, hb, hw, RouteItem.time, hedge', spec_wait_edge]
    · simp only [spec_route_item, hb, RouteItem.time, hedge', spec_ride_edge]
  | none =>
    have hlen : r'.graph_.edges_.length ≤ e := by
      by_contra h
      rw [List.getElem?_eq_getElem (Nat.lt_of_not_le h)] at hedge
      cases hedge
    have hlen' : c.GetAllStops.length
        + (c.GetAllBuses.flatMap r'.spec_rides_of_bus).length ≤ e := by
      rw [hE] at hlen
      simpa using hlen
    have hb : map_find r'.bus_edges_ e = none := by
      rw [hB, map_find_enumFrom]
      split
      · apply List.getElem?_eq_none
        simp only [List.length_map]
        unfold graph.EdgeId at *
        omega
      · rfl
    have hw : map_find r'.wait_edges_ e = none := by
      rw [hW, map_find_enumFrom, if_pos (Nat.zero_le _)]
      apply List.getElem?_eq_none
      simp only [List.length_map]
      unfold graph.EdgeId at *
      omega
    simp only [spec_route_item, hb, hw, RouteItem.time]

theorem route_weight_eq_times (r : TransportRouter)
    (h : ∀ e : graph.EdgeId, (r.spec_route_item e).time = graph.edge_weight r.graph_ e)
    (path : List graph.EdgeId) :
    ((path.map r.spec_route_item).map RouteItem.time).sum = graph.route_weight r.graph_ path := by
  induction path with
  | nil => simp [graph.route_weight]
  | cons e rest ih =>
    rw [route_weight_cons, ← ih]
    simp [h e]

/-- C32: in the constructed router the time of the step recorded for an edge
is the weight of that edge; hence, when the weight the solver reports for a
path is the sum of the weights of its edges, the total time returned by
`GetRouteInfo` is the sum of the times of the returned steps. -/
theorem GetRouteInfo_total_time (c : TransportCatalogue) (s : RoutingSettings)
    (hne : ∀ b ∈ c.GetAllBuses, b.stops ≠ [])
    (hvalid : ∀ b ∈ c.GetAllBuses, ∀ p ∈ b.stops, p < c.GetAllStops.length) :
    ∃ r, construct c s = Except.ok r ∧
      (∀ e : graph.EdgeId, (r.spec_route_item e).time = graph.edge_weight r.graph_ e) ∧
      ∀ (BuildRoute : graph.DirectedWeightedGraph → graph.VertexId → graph.VertexId →
          Option graph.RouteInfo) (stop_from stop_to : StopPtr) (total : Minutes)
          (items : List RouteItem),
        (∀ info, BuildRoute r.graph_ (r.in_of stop_from) (r.in_of stop_to) = some info →
          info.weight = graph.route_weight r.graph_ info.edges) →
        GetRouteInfo BuildRoute r stop_from stop_to = Except.ok (some (total, items)) →
        total = (items.map RouteItem.time).sum := by
  obtain ⟨r, hr, htimes⟩ := construct_step_times c s hne hvalid
  refine ⟨r, hr, htimes, ?_⟩
  intro BuildRoute stop_from stop_to total items hsum hres
  obtain ⟨info, hb, htotal, hitems⟩ := GetRouteInfo_ok_inv BuildRoute r _ _ _ _ hres
  rw [htotal, hitems, route_weight_eq_times r htimes, hsum info hb]

theorem solver_X_to_Y_weight (g : graph.DirectedWeightedGraph) (a b : graph.VertexId)
    (info : graph.RouteInfo) (h : solver_X_to_Y g a b = some info) :
    info.weight = graph.route_weight g info.edges := by
  unfold solver_X_to_Y at h
  split at h
  · simp only [Option.some.injEq] at h
    rw [← h]
  · cases h

/-- Instance of C32 on `scenario_XY` with the solver stand-in `solver_X_to_Y`,
whose reported weight is the sum of the weights of the edges `0` and `2`: the
query from `X` to `Y` returns a total time that is the sum of the times of its
two steps. -/
theorem GetRouteInfo_total_time_witness :
    (∀ b ∈ scenario_XY.GetAllBuses, b.stops ≠ []) ∧
    (∀ b ∈ scenario_XY.GetAllBuses, ∀ p ∈ b.stops, p < scenario_XY.GetAllStops.length) ∧
    ∃ r total items, construct scenario_XY settings_6_60 = Except.ok r ∧
      GetRouteInfo solver_X_to_Y r 0 1 = Except.ok (some (total, items)) ∧
      items.length = 2 ∧ total = (items.map RouteItem.time).sum := by
  refine ⟨by decide, by decide, ?_⟩
  obtain ⟨r, hr, _, h⟩ := GetRouteInfo_total_time scenario_XY settings_6_60 (by decide)
    (by decide)
  have e : r = router_scenario_XY 6 := by
    have h1 := construct_scenario_XY 6
    have h2 : construct scenario_XY settings_6_60
        = construct scenario_XY { wait_time := 6, velocity := 60 } := rfl
    rw [h2, h1] at hr
    exact (Except.ok.inj hr).symm
  have hq : GetRouteInfo solver_X_to_Y r 0 1
      = Except.ok (some (graph.route_weight r.graph_ [0, 2],
          [0, 2].map r.spec_route_item)) := by
    rw [e]
    simp [GetRouteInfo, GetRouteInfo_items, solver_X_to_Y, spec_route_item, map_at, map_find,
      map_count, router_scenario_XY, scenario_XY_eq, TransportCatalogue.stop]
  exact ⟨r, _, _, hr, hq, rfl,
    h solver_X_to_Y 0 1 _ _ (fun info hinfo => solver_X_to_Y_weight _ _ _ info hinfo) hq⟩

end TransportRouter

end router

end transport_catalogue

/-! ## Reading the catalogue -/

namespace transport_catalogue

namespace json_reader

theorem ReadDescription_eq :
    ∀ (base_requests_json : List json.Node) (description : TransportCatalogueDesctiption),
      (∀ base_request ∈ base_requests_json,
        (is_bus_request base_request || is_stop_request base_request) = true) →
      ReadDescription base_requests_json description
        = Except.ok
          { buses := description.buses ++ bus_requests base_requests_json
            stops := description.stops ++ stop_requests base_requests_json } := by
  intro base_requests_json
  induction base_requests_json with
  | nil =>
    intro description _
    simp [ReadDescription, bus_requests, stop_requests]
  | cons base_request rest ih =>
    intro description hread
    have hrest : ∀ b ∈ rest, (is_bus_request b || is_stop_request b) = true :=
      fun b hb => hread b (List.mem_cons_of_mem _ hb)
    have hfirst := hread base_request (List.mem_cons_self _ _)
    unfold ReadDescription
    cases hr : ReadBaseRequest base_request with
    | error f => simp [is_bus_request, is_stop_request, hr] at hfirst
    | ok x =>
      cases x with
      | inl bus =>
        simp only []
        rw [ih _ hrest]
        simp [bus_requests, stop_requests, List.filterMap_cons, hr]
      | inr stop =>
        simp only []
        rw [ih _ hrest]
        simp [bus_requests, stop_requests, List.filterMap_cons, hr]

theorem bus_requests_filter (base_requests_json : List json.Node) :
    bus_requests (base_requests_json.filter is_bus_request) = bus_requests base_requests_json := by
  induction base_requests_json with
  | nil => rfl
  | cons base_request rest ih =>
    unfold bus_requests at ih ⊢
    cases hr : ReadBaseRequest base_request with
    | error f => simp [List.filter_cons, List.filterMap_cons, is_bus_request, hr, ih]
    | ok x =>
      cases x with
      | inl bus => simp [List.filter_cons, List.filterMap_cons, is_bus_request, hr, ih]
      | inr stop => simp [List.filter_cons, List.filterMap_cons, is_bus_request, hr, ih]

theorem stop_requests_filter (base_requests_json : List json.Node) :
    stop_requests (base_requests_json.filter is_stop_request)
      = stop_requests base_requests_json := by
  induction base_requests_json with
  | nil => rfl
  | cons base_request rest ih =>
    unfold stop_requests at ih ⊢
    cases hr : ReadBaseRequest base_request with
    | error f => simp [List.filter_cons, List.filterMap_cons, is_stop_request, hr, ih]
    | ok x =>
      cases x with
      | inl bus => simp [List.filter_cons, List.filterMap_cons, is_stop_request, hr, ih]
      | inr stop => simp [List.filter_cons, List.filterMap_cons, is_stop_request, hr, ih]

theorem AddStops_reachable :
    ∀ (stops : List StopBaseRequest) (output : TransportCatalogue), Reachable output →
      Reachable (AddStops stops output) ∧
      (AddStops stops output).stop_storage_.map Stop.name
        = output.stop_storage_.map Stop.name ++ stops.map StopBaseRequest.name := by
  intro stops
  induction stops with
  | nil => intro output h; exact ⟨h, by simp [AddStops]⟩
  | cons stop rest ih =>
    intro output h
    unfold AddStops
    obtain ⟨h1, h2⟩ := ih _ (Reachable.add_stop output stop.name
      { lat := stop.latitude, lng := stop.longitude } h)
    refine ⟨h1, ?_⟩
    rw [h2]
    simp [TransportCatalogue.AddStop]

/-- After the stops of the description have been added to the empty
catalogue, exactly their names are known. -/
theorem AddStops_known (stops : List StopBaseRequest) (n : String) :
    map_count (AddStops stops TransportCatalogue.empty).stops_ n > 0
      ↔ n ∈ stops.map StopBaseRequest.name := by
  obtain ⟨h1, h2⟩ := AddStops_reachable stops TransportCatalogue.empty Reachable.empty
  have hidx := (TransportCatalogue.Reachable_stops_index _ h1).1 n
  rw [h2] at hidx
  simp only [TransportCatalogue.empty, List.map_nil, List.nil_append] at hidx
  constructor
  · intro hpos
    by_contra hn
    have h0 : map_count (AddStops stops TransportCatalogue.empty).stops_ n = 0 :=
      (map_count_eq_zero_iff _ _).2 (hidx.2 hn)
    omega
  · intro hmem
    by_contra hpos
    have h0 : map_count (AddStops stops TransportCatalogue.empty).stops_ n = 0 := by omega
    exact hidx.1 ((map_count_eq_zero_iff _ _).1 h0) hmem

theorem AddBus_resolve_known (c : TransportCatalogue) :
    ∀ stop_names : List String, (∀ n ∈ stop_names, map_count c.stops_ n > 0) →
      ∃ stops, c.AddBus_resolve stop_names = Except.ok stops := by
  intro stop_names
  induction stop_names with
  | nil => intro _; exact ⟨[], rfl⟩
  | cons stop rest ih =>
    intro h
    have hpos := h stop (List.mem_cons_self _ _)
    obtain ⟨p, hp⟩ := (map_count_pos_iff _ _).1 hpos
    obtain ⟨stops, hstops⟩ := ih (fun n hn => h n (List.mem_cons_of_mem _ hn))
    refine ⟨p :: stops, ?_⟩
    unfold TransportCatalogue.AddBus_resolve
    simp only [if_pos hpos, map_at, hp, hstops]

/-- A line listing known stop names is added without a fault, and the name
index of the stops stays as it is. -/
theorem AddBus_known (c : TransportCatalogue) (name : String) (stop_names : List String)
    (is_circular : Bool) (h : ∀ n ∈ stop_names, map_count c.stops_ n > 0) :
    (c.AddBus name stop_names is_circular).1 = Except.ok () ∧
    (c.AddBus name stop_names is_circular).2.stops_ = c.stops_ := by
  obtain ⟨stops, hr⟩ := AddBus_resolve_known c stop_names h
  rw [TransportCatalogue.AddBus_eq_register c name stop_names is_circular stops hr]
  have hkeys := (TransportCatalogue.AddBus_register_keys c.buses_storage_.length stop_names stops
    { c with
      buses_storage_ := c.buses_storage_ ++ [⟨name, stops, is_circular⟩]
      buses_ := map_assign c.buses_ name c.buses_storage_.length }
    (TransportCatalogue.AddBus_resolve_forall₂ c stop_names stops hr)).1
  exact ⟨hkeys, (TransportCatalogue.AddBus_register_frame _ _ _).1⟩

theorem AddBuses_ok :
    ∀ (buses : List BusBaseRequest) (output : TransportCatalogue),
      (∀ bus ∈ buses, ∀ n ∈ bus.stop_names, map_count output.stops_ n > 0) →
      ∃ output', AddBuses buses output = Except.ok output' ∧ output'.stops_ = output.stops_ := by
  intro buses
  induction buses with
  | nil => intro output _; exact ⟨output, rfl, rfl⟩
  | cons bus rest ih =>
    intro output h
    obtain ⟨h1, h2⟩ := AddBus_known output bus.name bus.stop_names bus.is_roundtrip
      (h bus (List.mem_cons_self _ _))
    obtain ⟨output', h3, h4⟩ := ih (output.AddBus bus.name bus.stop_names bus.is_roundtrip).2
      (fun b hb n hn => by rw [h2]; exact h b (List.mem_cons_of_mem _ hb) n hn)
    refine ⟨output', ?_, h4.trans h2⟩
    unfold AddBuses
    cases hadd : output.AddBus bus.name bus.stop_names bus.is_roundtrip with
    | mk outcome next =>
      rw [hadd] at h1 h3
      simp only at h1 h3
      subst h1
      exact h3

theorem AddRoadDistances_ok (from_name : String) :
    ∀ (road_distances : List (String × Int)) (output : TransportCatalogue),
      map_count output.stops_ from_name > 0 →
      (∀ rd ∈ road_distances, map_count output.stops_ rd.1 > 0) →
      ∃ output', AddRoadDistances from_name road_distances output = Except.ok output' ∧
        output'.stops_ = output.stops_ := by
  intro road_distances
  induction road_distances with
  | nil => intro output _ _; exact ⟨output, rfl, rfl⟩
  | cons rd rest ih =>
    intro output hfrom h
    obtain ⟨destination_name, distance⟩ := rd
    obtain ⟨p, hp⟩ := (map_count_pos_iff _ _).1 hfrom
    obtain ⟨q, hq⟩ := (map_count_pos_iff _ _).1 (h _ (List.mem_cons_self _ _))
    obtain ⟨output', h1, h2⟩ := ih (output.AddDistancesBetweenStops p q distance) hfrom
      (fun rd hrd => h rd (List.mem_cons_of_mem _ hrd))
    refine ⟨output', ?_, h2⟩
    unfold AddRoadDistances
    simp only [TransportCatalogue.GetStop, map_at, hp, hq]
    exact h1

theorem AddDistances_ok :
    ∀ (stops : List StopBaseRequest) (output : TransportCatalogue),
      (∀ stop ∈ stops, map_count output.stops_ stop.name > 0 ∧
        ∀ rd ∈ stop.road_distances, map_count output.stops_ rd.1 > 0) →
      ∃ output', AddDistances stops output = Except.ok output' := by
  intro stops
  induction stops with
  | nil => intro output _; exact ⟨output, rfl⟩
  | cons stop rest ih =>
    intro output h
    obtain ⟨h1, h2⟩ := h stop (List.mem_cons_self _ _)
    obtain ⟨output', h3, h4⟩ := AddRoadDistances_ok stop.name stop.road_distances output h1 h2
    obtain ⟨output'', h5⟩ := ih output'
      (fun st hst => by rw [h4]; exact h st (List.mem_cons_of_mem _ hst))
    refine ⟨output'', ?_⟩
    unfold AddDistances
    simp only [h3]
    exact h5

theorem AddStops_eq_foldl :
    ∀ (stops : List StopBaseRequest) (output : TransportCatalogue),
      AddStops stops output
        = stops.foldl
            (fun c stop => c.AddStop stop.name { lat := stop.latitude, lng := stop.longitude })
            output := by
  intro stops
  induction stops with
  | nil => intro output; rfl
  | cons stop rest ih =>
    intro output
    unfold AddStops
    rw [ih]
    rfl

theorem AddStops_storage :
    ∀ (stops : List StopBaseRequest) (output : TransportCatalogue),
      (AddStops stops output).stop_storage_
        = output.stop_storage_ ++ stops.map (fun stop =>
            ({ name := stop.name,
               coordinates := { lat := stop.latitude, lng := stop.longitude } } : Stop)) ∧
      (AddStops stops output).buses_storage_ = output.buses_storage_ ∧
      (AddStops stops output).distances_between_stops_ = output.distances_between_stops_ := by
  intro stops
  induction stops with
  | nil => intro output; simp [AddStops]
  | cons stop rest ih =>
    intro output
    unfold AddStops
    obtain ⟨h1, h2, h3⟩ := ih (output.AddStop stop.name
      { lat := stop.latitude, lng := stop.longitude })
    refine ⟨?_, ?_, ?_⟩
    · rw [h1]
      simp [TransportCatalogue.AddStop]
    · rw [h2]
      rfl
    · rw [h3]
      rfl

theorem GetStop_of_find (c : TransportCatalogue) (n : String) (p : StopPtr)
    (h : map_find c.stops_ n = some p) : c.GetStop n = Except.ok p := by
  simp only [TransportCatalogue.GetStop, map_at, h]

/-- A line listing known stop names is stored after the lines stored so far,
with the stops that the index finds under the listed names; nothing else of the
stops, of the stored lines and of the distances changes. -/
theorem AddBus_known_fields (c : TransportCatalogue) (name : String)
    (stop_names : List String) (is_circular : Bool)
    (h : ∀ n ∈ stop_names, map_count c.stops_ n > 0) :
    (c.AddBus name stop_names is_circular).1 = Except.ok () ∧
    (c.AddBus name stop_names is_circular).2.stops_ = c.stops_ ∧
    (c.AddBus name stop_names is_circular).2.stop_storage_ = c.stop_storage_ ∧
    (c.AddBus name stop_names is_circular).2.distances_between_stops_
      = c.distances_between_stops_ ∧
    ∃ stops, List.Forall₂ (fun n p => map_find c.stops_ n = some p) stop_names stops ∧
      (c.AddBus name stop_names is_circular).2.buses_storage_
        = c.buses_storage_ ++ [⟨name, stops, is_circular⟩] := by
  obtain ⟨stops, hr⟩ := AddBus_resolve_known c stop_names h
  have hall := TransportCatalogue.AddBus_resolve_forall₂ c stop_names stops hr
  rw [TransportCatalogue.AddBus_eq_register c name stop_names is_circular stops hr]
  have hkeys := (TransportCatalogue.AddBus_register_keys c.buses_storage_.length stop_names stops
    { c with
      buses_storage_ := c.buses_storage_ ++ [⟨name, stops, is_circular⟩]
      buses_ := map_assign c.buses_ name c.buses_storage_.length } hall).1
  obtain ⟨f1, f2, f3, _, f5⟩ := TransportCatalogue.AddBus_register_frame
    c.buses_storage_.length stop_names
    { c with
      buses_storage_ := c.buses_storage_ ++ [⟨name, stops, is_circular⟩]
      buses_ := map_assign c.buses_ name c.buses_storage_.length }
  exact ⟨hkeys, f1, f2, f5, stops, hall, f3⟩

theorem AddBuses_spec :
    ∀ (buses : List BusBaseRequest) (output : TransportCatalogue),
      (∀ bus ∈ buses, ∀ n ∈ bus.stop_names, map_count output.stops_ n > 0) →
      AddBuses buses output = Except.ok (spec_with_buses buses output) ∧
      (spec_with_buses buses output).stops_ = output.stops_ ∧
      (spec_with_buses buses output).stop_storage_ = output.stop_storage_ ∧
      (spec_with_buses buses output).distances_between_stops_
        = output.distances_between_stops_ ∧
      ∃ stored : List Bus,
        (spec_with_buses buses output).buses_storage_ = output.buses_storage_ ++ stored ∧
        List.Forall₂ (fun (b : BusBaseRequest) (bus : Bus) =>
          bus.name = b.name ∧ bus.is_circular = b.is_roundtrip ∧
          List.Forall₂ (fun n p => map_find output.stops_ n = some p) b.stop_names bus.stops)
          buses stored := by
  intro buses
  induction buses with
  | nil =>
    intro output _
    exact ⟨rfl, rfl, rfl, rfl, [], by simp [spec_with_buses], List.Forall₂.nil⟩
  | cons bus rest ih =>
    intro output h
    obtain ⟨h1, h2, h3, h4, stops, hall, h5⟩ := AddBus_known_fields output bus.name
      bus.stop_names bus.is_roundtrip (h bus (List.mem_cons_self _ _))
    obtain ⟨i1, i2, i3, i4, stored, i5, i6⟩ :=
      ih (output.AddBus bus.name bus.stop_names bus.is_roundtrip).2
        (fun b hb n hn => by rw [h2]; exact h b (List.mem_cons_of_mem _ hb) n hn)
    have e : spec_with_buses (bus :: rest) output
        = spec_with_buses rest (output.AddBus bus.name bus.stop_names bus.is_roundtrip).2 := rfl
    rw [e]
    refine ⟨?_, i2.trans h2, i3.trans h3, i4.trans h4,
      ⟨bus.name, stops, bus.is_roundtrip⟩ :: stored, ?_, ?_⟩
    · unfold AddBuses
      cases hadd : output.AddBus bus.name bus.stop_names bus.is_roundtrip with
      | mk outcome next =>
        rw [hadd] at h1 i1
        simp only at h1 i1
        subst h1
        exact i1
    · rw [i5, h5]
      simp
    · refine List.Forall₂.cons ⟨rfl, rfl, hall⟩ ?_
      rw [h2] at i6
      exact i6

theorem spec_with_distance_frame (c : TransportCatalogue) (t : String × String × Int) :
    (spec_with_distance c t).stops_ = c.stops_ ∧
    (spec_with_distance c t).stop_storage_ = c.stop_storage_ ∧
    (spec_with_distance c t).buses_storage_ = c.buses_storage_ := by
  unfold spec_with_distance
  cases c.GetStop t.1 with
  | error f => exact ⟨rfl, rfl, rfl⟩
  | ok p =>
    cases c.GetStop t.2.1 with
    | error f => exact ⟨rfl, rfl, rfl⟩
    | ok q => exact ⟨rfl, rfl, rfl⟩

theorem spec_with_distance_foldl_frame :
    ∀ (ts : List (String × String × Int)) (c : TransportCatalogue),
      (ts.foldl spec_with_distance c).stops_ = c.stops_ ∧
      (ts.foldl spec_with_distance c).stop_storage_ = c.stop_storage_ ∧
      (ts.foldl spec_with_distance c).buses_storage_ = c.buses_storage_ := by
  intro ts
  induction ts with
  | nil => intro c; exact ⟨rfl, rfl, rfl⟩
  | cons t rest ih =>
    intro c
    obtain ⟨h1, h2, h3⟩ := ih (spec_with_distance c t)
    obtain ⟨f1, f2, f3⟩ := spec_with_distance_frame c t
    exact ⟨h1.trans f1, h2.trans f2, h3.trans f3⟩

theorem spec_with_distance_known (c : TransportCatalogue) (t : String × String × Int)
    (p q : StopPtr) (hp : map_find c.stops_ t.1 = some p)
    (hq : map_find c.stops_ t.2.1 = some q) :
    spec_with_distance c t = c.AddDistancesBetweenStops p q t.2.2 := by
  unfold spec_with_distance
  rw [GetStop_of_find c _ p hp, GetStop_of_find c _ q hq]

theorem AddRoadDistances_spec (from_name : String) :
    ∀ (road_distances : List (String × Int)) (output : TransportCatalogue),
      map_count output.stops_ from_name > 0 →
      (∀ rd ∈ road_distances, map_count output.stops_ rd.1 > 0) →
      AddRoadDistances from_name road_distances output
        = Except.ok ((road_distances.map (fun rd => (from_name, rd.1, rd.2))).foldl
            spec_with_distance output) := by
  intro road_distances
  induction road_distances with
  | nil => intro output _ _; rfl
  | cons rd rest ih =>
    intro output hfrom h
    obtain ⟨destination_name, distance⟩ := rd
    obtain ⟨p, hp⟩ := (map_count_pos_iff _ _).1 hfrom
    obtain ⟨q, hq⟩ := (map_count_pos_iff _ _).1 (h _ (List.mem_cons_self _ _))
    have h1 := ih (output.AddDistancesBetweenStops p q distance) hfrom
      (fun rd hrd => h rd (List.mem_cons_of_mem _ hrd))
    unfold AddRoadDistances
    simp only [TransportCatalogue.GetStop, map_at, hp, hq]
    rw [h1]
    simp only [List.map_cons, List.foldl_cons]
    rw [spec_with_distance_known output (from_name, destination_name, distance) p q hp hq]

theorem AddDistances_spec :
    ∀ (stops : List StopBaseRequest) (output : TransportCatalogue),
      (∀ stop ∈ stops, map_count output.stops_ stop.name > 0 ∧
        ∀ rd ∈ stop.road_distances, map_count output.stops_ rd.1 > 0) →
      AddDistances stops output
        = Except.ok ((spec_road_distances stops).foldl spec_with_distance output) := by
  intro stops
  induction stops with
  | nil => intro output _; rfl
  | cons stop rest ih =>
    intro output h
    obtain ⟨h1, h2⟩ := h stop (List.mem_cons_self _ _)
    have h3 := AddRoadDistances_spec stop.name stop.road_distances output h1 h2
    have hframe := (spec_with_distance_foldl_frame
      (stop.road_distances.map (fun rd => (stop.name, rd.1, rd.2))) output).1
    have h5 := ih ((stop.road_distances.map (fun rd => (stop.name, rd.1, rd.2))).foldl
        spec_with_distance output)
      (fun st hst => by rw [hframe]; exact h st (List.mem_cons_of_mem _ hst))
    unfold AddDistances
    simp only [h3]
    rw [h5]
    simp only [spec_road_distances, List.flatMap_cons, List.foldl_append]

/-- A recorded distance stays as it is while road distances of other pairs of
stops are recorded. -/
theorem spec_with_distance_foldl_keep :
    ∀ (ts : List (String × String × Int)) (c : TransportCatalogue) (p q : StopPtr) (d : Int),
      map_find c.distances_between_stops_ (p, q) = some d →
      (∀ t ∈ ts, ¬ (map_find c.stops_ t.1 = some p ∧ map_find c.stops_ t.2.1 = some q)) →
      map_find (ts.foldl spec_with_distance c).distances_between_stops_ (p, q) = some d := by
  intro ts
  induction ts with
  | nil => intro c p q d h _; exact h
  | cons t rest ih =>
    intro c p q d h hother
    simp only [List.foldl_cons]
    have hf := (spec_with_distance_frame c t).1
    apply ih
    · unfold spec_with_distance TransportCatalogue.GetStop map_at
      cases hp : map_find c.stops_ t.1 with
      | none => exact h
      | some p' =>
        cases hq : map_find c.stops_ t.2.1 with
        | none => exact h
        | some q' =>
          simp only [TransportCatalogue.AddDistancesBetweenStops]
          have hne : (p, q) ≠ (p', q') := by
            intro e
            have e1 : p = p' := congrArg Prod.fst e
            have e2 : q = q' := congrArg Prod.snd e
            subst e1; subst e2
            exact hother t (List.mem_cons_self _ _) ⟨hp, hq⟩
          rw [map_find_assign_ne _ _ _ _ hne]
          exact h
    · intro t' ht'
      rw [hf]
      exact hother t' (List.mem_cons_of_mem _ ht')

/-- Every recorded distance was there before or is the road distance of one of
the triples, between the stops found under its two names. -/
theorem spec_with_distance_foldl_source :
    ∀ (ts : List (String × String × Int)) (c : TransportCatalogue) (p q : StopPtr),
      map_count (ts.foldl spec_with_distance c).distances_between_stops_ (p, q) > 0 →
      map_count c.distances_between_stops_ (p, q) > 0 ∨
      ∃ t ∈ ts, map_find c.stops_ t.1 = some p ∧ map_find c.stops_ t.2.1 = some q := by
  intro ts
  induction ts with
  | nil => intro c p q h; exact Or.inl h
  | cons t rest ih =>
    intro c p q h
    simp only [List.foldl_cons] at h
    have hf := (spec_with_distance_frame c t).1
    rcases ih _ p q h with h1 | ⟨t', ht', h2⟩
    · unfold spec_with_distance TransportCatalogue.GetStop map_at at h1
      cases hp : map_find c.stops_ t.1 with
      | none =>
        simp only [hp] at h1
        exact Or.inl h1
      | some p' =>
        cases hq : map_find c.stops_ t.2.1 with
        | none =>
          simp only [hp, hq] at h1
          exact Or.inl h1
        | some q' =>
          simp only [hp, hq, TransportCatalogue.AddDistancesBetweenStops] at h1
          by_cases e : (p, q) = (p', q')
          · have e1 : p = p' := congrArg Prod.fst e
            have e2 : q = q' := congrArg Prod.snd e
            subst e1; subst e2
            exact Or.inr ⟨t, List.mem_cons_self _ _, hp, hq⟩
          · rw [map_count_assign_ne _ _ _ _ e] at h1
            exact Or.inl h1
    · rw [hf] at h2
      exact Or.inr ⟨t', List.mem_cons_of_mem _ ht', h2⟩

theorem mem_spec_road_distances (stops : List StopBaseRequest) (t : String × String × Int)
    (h : t ∈ spec_road_distances stops) :
    ∃ stop ∈ stops, ∃ rd ∈ stop.road_distances, t = (stop.name, rd.1, rd.2) := by
  unfold spec_road_distances at h
  obtain ⟨stop, hstop, ht⟩ := List.mem_flatMap.1 h
  obtain ⟨rd, hrd, e⟩ := List.mem_map.1 ht
  exact ⟨stop, hstop, rd, hrd, e.symm⟩

/-- C34: for base requests that are each read as a Bus or as a Stop record,
whose lines and road distances name only stops of the list, loading yields a
catalogue. It is the catalogue obtained from the empty one by `AddStop` for
every Stop record in order, then `AddBus` for every Bus record in order, then
`AddDistancesBetweenStops` for every road distance in order, between the stops
found under the two names. Its stops are the Stop records in order; its lines
are the Bus records in order, each with its name, its flag and the stops found
under the listed names; every road distance that no later road distance of the
same two names overrides is recorded between the stops found under its names
and is the value of the lookup; and no other ordered pair is recorded. Every
list of base requests with the same Bus requests in the same order and the
same Stop requests in the same order yields the same result. -/
theorem ReadTransportCatalogue_order (base_requests_json : List json.Node)
    (hread : ∀ base_request ∈ base_requests_json,
      (is_bus_request base_request || is_stop_request base_request) = true)
    (hbus : ∀ bus ∈ bus_requests base_requests_json, ∀ n ∈ bus.stop_names,
      n ∈ (stop_requests base_requests_json).map StopBaseRequest.name)
    (hdist : ∀ stop ∈ stop_requests base_requests_json, ∀ rd ∈ stop.road_distances,
      rd.1 ∈ (stop_requests base_requests_json).map StopBaseRequest.name) :
    (∃ output, ReadTransportCatalogue base_requests_json = Except.ok output ∧
      output = spec_catalogue (bus_requests base_requests_json)
        (stop_requests base_requests_json) ∧
      output.GetAllStops
        = (stop_requests base_requests_json).map (fun stop =>
            ({ name := stop.name,
               coordinates := { lat := stop.latitude, lng := stop.longitude } } : Stop)) ∧
      List.Forall₂ (fun (b : BusBaseRequest) (bus : Bus) =>
          bus.name = b.name ∧ bus.is_circular = b.is_roundtrip ∧
          List.Forall₂ (fun n p => output.GetStop n = Except.ok p) b.stop_names bus.stops)
        (bus_requests base_requests_json) output.GetAllBuses ∧
      (∀ (pre post : List (String × String × Int)) (from_name destination_name : String)
          (distance : Int),
        spec_road_distances (stop_requests base_requests_json)
          = pre ++ (from_name, destination_name, distance) :: post →
        (∀ t ∈ post, ¬ (t.1 = from_name ∧ t.2.1 = destination_name)) →
        ∃ from_ to_, output.GetStop from_name = Except.ok from_ ∧
          output.GetStop destination_name = Except.ok to_ ∧
          output.ContainsDistanceBetweenStops from_ to_ = true ∧
          output.GetDistanceBetweenStops from_ to_ = distance) ∧
      (∀ from_ to_ : StopPtr, output.ContainsDistanceBetweenStops from_ to_ = true →
        ∃ t ∈ spec_road_distances (stop_requests base_requests_json),
          output.GetStop t.1 = Except.ok from_ ∧ output.GetStop t.2.1 = Except.ok to_)) ∧
    (∀ other : List json.Node,
      (∀ base_request ∈ other,
        (is_bus_request base_request || is_stop_request base_request) = true) →
      other.filter is_bus_request = base_requests_json.filter is_bus_request →
      other.filter is_stop_request = base_requests_json.filter is_stop_request →
      ReadTransportCatalogue other = ReadTransportCatalogue base_requests_json) := by
  have hform : ∀ l : List json.Node,
      (∀ b ∈ l, (is_bus_request b || is_stop_request b) = true) →
      ReadTransportCatalogue l
        = BuildCatalogue { buses := bus_requests l, stops := stop_requests l } := by
    intro l hl
    unfold ReadTransportCatalogue
    rw [ReadDescription_eq l _ hl]
    simp
  refine ⟨?_, ?_⟩
  · -- the three stages
    have hc1 : AddStops (stop_requests base_requests_json) TransportCatalogue.empty
        = spec_with_stops (stop_requests base_requests_json) := AddStops_eq_foldl _ _
    obtain ⟨hreach, _⟩ := AddStops_reachable (stop_requests base_requests_json)
      TransportCatalogue.empty Reachable.empty
    obtain ⟨s1, s2, s3⟩ := AddStops_storage (stop_requests base_requests_json)
      TransportCatalogue.empty
    rw [hc1] at hreach s1 s2 s3
    have hknown : ∀ n, n ∈ (stop_requests base_requests_json).map StopBaseRequest.name →
        map_count (spec_with_stops (stop_requests base_requests_json)).stops_ n > 0 := by
      intro n hn
      rw [← hc1]
      exact (AddStops_known _ n).2 hn
    have hsound := (TransportCatalogue.Reachable_stops_index _ hreach).2
    obtain ⟨b1, b2, b3, b4, stored, b5, b6⟩ := AddBuses_spec (bus_requests base_requests_json)
      (spec_with_stops (stop_requests base_requests_json))
      (fun bus hb n hn => hknown n (hbus bus hb n hn))
    have d1 := AddDistances_spec (stop_requests base_requests_json)
      (spec_with_buses (bus_requests base_requests_json)
        (spec_with_stops (stop_requests base_requests_json)))
      (fun stop hstop => by
        rw [b2]
        exact ⟨hknown _ (List.mem_map.2 ⟨stop, hstop, rfl⟩),
          fun rd hrd => hknown _ (hdist stop hstop rd hrd)⟩)
    obtain ⟨f1, f2, f3⟩ := spec_with_distance_foldl_frame
      (spec_road_distances (stop_requests base_requests_json))
      (spec_with_buses (bus_requests base_requests_json)
        (spec_with_stops (stop_requests base_requests_json)))
    have hidx : (spec_catalogue (bus_requests base_requests_json)
        (stop_requests base_requests_json)).stops_
        = (spec_with_stops (stop_requests base_requests_json)).stops_ := f1.trans b2
    have hget : ∀ n p,
        map_find (spec_with_stops (stop_requests base_requests_json)).stops_ n = some p →
        (spec_catalogue (bus_requests base_requests_json)
          (stop_requests base_requests_json)).GetStop n = Except.ok p := by
      intro n p h
      apply GetStop_of_find
      rw [hidx]
      exact h
    refine ⟨_, ?_, rfl, ?_, ?_, ?_, ?_⟩
    · rw [hform _ hread]
      unfold BuildCatalogue
      simp only [hc1, b1, d1]
      rfl
    · show (spec_catalogue _ _).stop_storage_ = _
      have e : (spec_catalogue (bus_requests base_requests_json)
          (stop_requests base_requests_json)).stop_storage_
          = (spec_with_stops (stop_requests base_requests_json)).stop_storage_ :=
        f2.trans b3
      rw [e, s1]
      simp [TransportCatalogue.empty]
    · show List.Forall₂ _ _ (spec_catalogue _ _).buses_storage_
      have e : (spec_catalogue (bus_requests base_requests_json)
          (stop_requests base_requests_json)).buses_storage_ = stored := by
        have e1 : (spec_catalogue (bus_requests base_requests_json)
            (stop_requests base_requests_json)).buses_storage_
            = (spec_with_buses (bus_requests base_requests_json)
                (spec_with_stops (stop_requests base_requests_json))).buses_storage_ := f3
        rw [e1, b5, s2]
        simp [TransportCatalogue.empty]
      rw [e]
      refine List.Forall₂.imp ?_ b6
      intro b bus hb
      exact ⟨hb.1, hb.2.1, List.Forall₂.imp (fun n p h => hget n p h) hb.2.2⟩
    · intro pre post from_name destination_name distance hsplit hlast
      have hmem : (from_name, destination_name, distance)
          ∈ spec_road_distances (stop_requests base_requests_json) := by
        rw [hsplit]
        exact List.mem_append_right _ (List.mem_cons_self _ _)
      obtain ⟨stop, hstop, rd, hrd, e⟩ := mem_spec_road_distances _ _ hmem
      have e1 : from_name = stop.name := congrArg Prod.fst e
      have e2 : destination_name = rd.1 := congrArg (fun t => t.2.1) e
      obtain ⟨p, hp⟩ := (map_count_pos_iff _ _).1
        (hknown from_name (by rw [e1]; exact List.mem_map.2 ⟨stop, hstop, rfl⟩))
      obtain ⟨q, hq⟩ := (map_count_pos_iff _ _).1
        (hknown destination_name (by rw [e2]; exact hdist stop hstop rd hrd))
      have hpre := (spec_with_distance_foldl_frame pre
        (spec_with_buses (bus_requests base_requests_json)
          (spec_with_stops (stop_requests base_requests_json)))).1
      have hstep := spec_with_distance_known
        (pre.foldl spec_with_distance
          (spec_with_buses (bus_requests base_requests_json)
            (spec_with_stops (stop_requests base_requests_json))))
        (from_name, destination_name, distance) p q
        (by rw [hpre, b2]; exact hp) (by rw [hpre, b2]; exact hq)
      have hfind : map_find (spec_catalogue (bus_requests base_requests_json)
          (stop_requests base_requests_json)).distances_between_stops_ (p, q)
          = some distance := by
        unfold spec_catalogue
        rw [hsplit, List.foldl_append, List.foldl_cons, hstep]
        apply spec_with_distance_foldl_keep
        · simp only [TransportCatalogue.AddDistancesBetweenStops]
          exact map_find_assign_self _ _ _
        · intro t ht hboth
          have hs : (((pre.foldl spec_with_distance
              (spec_with_buses (bus_requests base_requests_json)
                (spec_with_stops (stop_requests base_requests_json)))).AddDistancesBetweenStops
              p q distance).stops_)
              = (spec_with_stops (stop_requests base_requests_json)).stops_ :=
            hpre.trans b2
          rw [hs] at hboth
          have n1 := (hsound _ _ hboth.1).2
          have n2 := (hsound _ _ hboth.2).2
          have m1 := (hsound _ _ hp).2
          have m2 := (hsound _ _ hq).2
          exact hlast t ht ⟨n1.symm.trans m1, n2.symm.trans m2⟩
      refine ⟨p, q, hget _ _ hp, hget _ _ hq, ?_, ?_⟩
      · simp only [TransportCatalogue.ContainsDistanceBetweenStops, map_count, hfind]
        rfl
      · simp only [TransportCatalogue.GetDistanceBetweenStops, hfind]
    · intro from_ to_ hcontains
      have hpos : map_count (spec_catalogue (bus_requests base_requests_json)
          (stop_requests base_requests_json)).distances_between_stops_ (from_, to_) > 0 := by
        unfold TransportCatalogue.ContainsDistanceBetweenStops at hcontains
        by_contra hn
        rw [if_neg hn] at hcontains
        exact Bool.noConfusion hcontains
      rcases spec_with_distance_foldl_source _ _ from_ to_ hpos with h0 | ⟨t, ht, h1, h2⟩
      · rw [b4, s3] at h0
        simp [TransportCatalogue.empty, map_count, map_find] at h0
      · rw [b2] at h1 h2
        exact ⟨t, ht, hget _ _ h1, hget _ _ h2⟩
  · intro other hother hb hs
    rw [hform _ hread, hform _ hother, ← bus_requests_filter other,
      ← stop_requests_filter other, hb, hs, bus_requests_filter, stop_requests_filter]

/-- Instance of C34: the requests of the circular line `L = [A, B]`, of the
stop `A` (with the road distance `5` to `B`) and of the stop `B`, the line
coming first, are loaded into a catalogue with the stops `A`, `B`, the line
`L` over them and the distance `5` recorded from `A` to `B`; the result is the
same when the line comes after the stop `A`. -/
theorem ReadTransportCatalogue_order_witness :
    (∀ base_request ∈ [request_bus_L, request_stop_A, request_stop_B],
      (is_bus_request base_request || is_stop_request base_request) = true) ∧
    (∀ bus ∈ bus_requests [request_bus_L, request_stop_A, request_stop_B],
      ∀ n ∈ bus.stop_names,
        n ∈ (stop_requests [request_bus_L, request_stop_A, request_stop_B]).map
          StopBaseRequest.name) ∧
    (∀ stop ∈ stop_requests [request_bus_L, request_stop_A, request_stop_B],
      ∀ rd ∈ stop.road_distances,
        rd.1 ∈ (stop_requests [request_bus_L, request_stop_A, request_stop_B]).map
          StopBaseRequest.name) ∧
    (∃ output, ReadTransportCatalogue [request_bus_L, request_stop_A, request_stop_B]
        = Except.ok output ∧
      output.GetAllStops = [⟨"A", ⟨0, 0⟩⟩, ⟨"B", ⟨0, 1⟩⟩] ∧
      output.GetAllBuses = [⟨"L", [0, 1], true⟩] ∧
      output.GetStop "A" = Except.ok 0 ∧ output.GetStop "B" = Except.ok 1 ∧
      output.distances_between_stops_ = [((0, 1), 5)] ∧
      output.ContainsDistanceBetweenStops 0 1 = true ∧
      output.GetDistanceBetweenStops 0 1 = 5) ∧
    ReadTransportCatalogue [request_stop_A, request_bus_L, request_stop_B]
      = ReadTransportCatalogue [request_bus_L, request_stop_A, request_stop_B] := by
  refine ⟨by decide, by decide, by decide, ?_, ?_⟩
  · obtain ⟨output, hout, hspec, _⟩ :=
      (ReadTransportCatalogue_order [request_bus_L, request_stop_A, request_stop_B]
        (by decide) (by decide) (by decide)).1
    refine ⟨output, hout, ?_⟩
    rw [hspec]
    decide
  · exact (ReadTransportCatalogue_order [request_bus_L, request_stop_A, request_stop_B]
      (by decide) (by decide) (by decide)).2
        [request_stop_A, request_bus_L, request_stop_B] (by decide) (by rfl) (by rfl)

end json_reader

end transport_catalogue

/-! ## The solver on a line without a known distance -/

namespace transport_catalogue

namespace router

namespace TransportRouter

end TransportRouter

end router

end transport_catalogue

/-! ## Names stored twice -/

namespace transport_catalogue

namespace TransportCatalogue

/-- C28 as stated fails: in `renamed_stop_line_AB` the non-circular line `L`
lists the stops `0, 1`, the distance between these consecutive stops is known
(`5` in both directions of lookup), yet the statistics of the line end in a
failed assertion and report no measured distance: the loops look the listed
stops up again by name, the name `A` now finds the stop `2`, and no distance is
recorded between the stops `2` and `1`. -/
theorem route_distance_measured_renamed_stop :
    (renamed_stop_line_AB.bus 0).stops = [0, 1] ∧
    (renamed_stop_line_AB.bus 0).is_circular = false ∧
    renamed_stop_line_AB.GetDistanceBetweenStops 0 1 = 5 ∧
    renamed_stop_line_AB.GetDistanceBetweenStops 1 0 = 5 ∧
    renamed_stop_line_AB.GetStop (renamed_stop_line_AB.stop 0).name = Except.ok 2 ∧
    renamed_stop_line_AB.GetDistanceBetweenStops 2 1 = -1 ∧
    renamed_stop_line_AB.GetBusStatistics (fun _ _ => 0) 0 = Except.error Fault.assertion := by
  decide

end TransportCatalogue

end transport_catalogue

namespace renderer

open transport_catalogue

namespace MapRenderer

/-- C27 as stated fails: in `line_ABC_then_L_A` the non-circular line stored
first has the name `L` and the `3` listed stops `A, B, C`, and the catalogue
reports `5` stops on its route; the renderer stores one path under the name
`L`, and it is the path of the line `[A]` stored later, of length `1`, not the
there-and-back path of length `5` computed for the first line. -/
theorem construct_route_overwritten :
    (line_ABC_then_L_A.bus 0).name = "L" ∧
    (line_ABC_then_L_A.bus 0).stops = [0, 1, 2] ∧
    (line_ABC_then_L_A.bus 0).is_circular = false ∧
    line_ABC_then_L_A.StopsOnRoute 0 = 5 ∧
    construct_route (fun _ => ⟨0, 0⟩) line_ABC_then_L_A (line_ABC_then_L_A.bus 0)
      = Except.ok [⟨"A", ⟨0, 0⟩⟩, ⟨"B", ⟨0, 0⟩⟩, ⟨"C", ⟨0, 0⟩⟩, ⟨"B", ⟨0, 0⟩⟩, ⟨"A", ⟨0, 0⟩⟩] ∧
    construct (fun _ => ⟨0, 0⟩) line_ABC_then_L_A
      = Except.ok { data_ := [("L", [⟨"A", ⟨0, 0⟩⟩])] } ∧
    ∃ m, construct (fun _ => ⟨0, 0⟩) line_ABC_then_L_A = Except.ok m ∧
      map_find m.data_ "L" = some [⟨"A", ⟨0, 0⟩⟩] := by
  refine ⟨by decide, by decide, by decide, by decide, by decide, by decide,
    { data_ := [("L", [⟨"A", ⟨0, 0⟩⟩])] }, by decide, by decide⟩

end MapRenderer

end renderer
